import Mathlib

/-!
# G1 write barriers of the AArch64 port

A model of `g1BarrierSetAssembler_aarch64.cpp`.  The C++ functions are code
generators: each call of `__ insn(...)` appends one instruction to the code
buffer.  Every generator is therefore a Lean function that returns the list of
emitted instructions, and the meaning of the emitted code is given by a small
interpreter (`run`) over a machine state.

Memory is a collection of disjoint objects (the thread-local data of a thread,
the storage of the two queues, the card table and the Java heap); an access is
routed to the object that the emitting code addresses.  Every access, fence and
runtime call is appended to the trace of the machine.
-/

set_option linter.constructorNameAsVariable false
set_option linter.unusedVariables false

namespace G1BarrierSetAssembler

/-! ## Registers, labels, layout constants -/

/-- Register operand of the assembler: `noreg` or a general register by number. -/
inductive Register where
  | noreg
  | r (n : Nat)
  deriving DecidableEq

open Register (noreg)

def c_rarg0 : Register := .r 0
def c_rarg1 : Register := .r 1
/-- Register `r0`; in this port `c_rarg0` is `r0`. -/
def r0 : Register := c_rarg0
def rscratch1 : Register := .r 8
def rscratch2 : Register := .r 9
def rthread : Register := .r 28
/-- The frame pointer. -/
def rfp : Register := .r 29
/-- The link register. -/
def lr : Register := .r 30
/-- The zero register: reads as zero, writes are discarded. -/
def zr : Register := .r 31

/-- Size of a machine word in bytes (64-bit port). -/
def wordSize : Nat := 8

/-- Branch targets used by the barrier generators. -/
inductive Label where
  | done
  | runtime
  | entry
  | continuation
  deriving DecidableEq

/-- Field offsets of `G1ThreadLocalData` relative to the thread register.  The
layout is supplied by the rest of the VM, so the offsets are kept symbolic. -/
inductive ByteSize where
  | satb_mark_queue_active_offset
  | satb_mark_queue_index_offset
  | satb_mark_queue_buffer_offset
  | dirty_card_queue_index_offset
  | dirty_card_queue_buffer_offset
  deriving DecidableEq

/-- Leaf entry points of `G1BarrierSetRuntime`. -/
inductive G1BarrierSetRuntime where
  | write_ref_field_pre_entry
  | write_ref_field_post_entry
  | write_ref_array_pre_oop_entry
  | write_ref_array_pre_narrow_oop_entry
  | write_ref_array_post_entry
  deriving DecidableEq

/-- Decorators of an access, a bit set. -/
abbrev DecoratorSet := Nat

/-- Constants the generators read from the rest of the VM. -/
structure VM where
  /-- Value of `SATBMarkQueue::byte_width_of_active()`. -/
  byte_width_of_active : Nat
  /-- Value of `G1HeapRegion::LogOfHRGrainBytes`. -/
  LogOfHRGrainBytes : Nat
  /-- Value of `CardTable::card_shift()`. -/
  card_shift : Nat
  /-- Address loaded by `load_byte_map_base`. -/
  byte_map_base : Nat
  /-- Value of `G1CardTable::g1_young_card_val()`. -/
  g1_young_card_val : Nat
  /-- Flag `UseCompressedOops`. -/
  UseCompressedOops : Bool
  /-- Narrow encoding that `store_at` applies in place to the stored register
  when `UseCompressedOops` is set. -/
  encode_heap_oop : Nat → Nat
  /-- Address of a runtime entry point, `CAST_FROM_FN_PTR(address, ...)`. -/
  entry_address : G1BarrierSetRuntime → Nat
  /-- Decorator bit `ON_WEAK_OOP_REF`. -/
  ON_WEAK_OOP_REF : DecoratorSet
  /-- Decorator bit `ON_PHANTOM_OOP_REF`. -/
  ON_PHANTOM_OOP_REF : DecoratorSet
  /-- Decorator bit `IS_DEST_UNINITIALIZED`. -/
  IS_DEST_UNINITIALIZED : DecoratorSet
  /-- Barrier-data bit `G1C2BarrierPostNotNull`. -/
  G1C2BarrierPostNotNull : Nat

/-- Value of `CardTable::dirty_card_val()`; the source asserts it statically. -/
def dirty_card_val : Nat := 0

/-! ## Machine state -/

/-- The disjoint memory objects.  `parameter` is the outgoing parameter area
of the current compiled frame, addressed by word: word `n` is the cell that
`store_parameter(r, n)` writes at `sp + n` words and that the called stub
reads with `load_parameter(n, r)` at `rfp + (n + 2)` words. -/
inductive Space where
  | thread (field : ByteSize)
  | queue (buffer_offset : ByteSize)
  | card_table
  | heap
  | parameter
  deriving DecidableEq

/-- A memory cell: an object and an address in it.  For a thread field the
address is the value of the thread register. -/
structure Loc where
  space : Space
  addr : Nat
  deriving DecidableEq

/-- Observable actions of the emitted code. -/
inductive Event where
  | load (l : Loc)
  | store (l : Loc) (v : Nat)
  | membar
  | call (entry_point : G1BarrierSetRuntime) (arg0 arg1 : Nat)
  deriving DecidableEq

structure Machine where
  regs : Register → Nat
  /-- Outcome of the last compare: the operands were equal. -/
  eq_flag : Bool
  mem : Loc → Nat
  /-- Words saved by the push instructions, top of stack first. -/
  stack : List Nat
  trace : List Event

namespace Machine

/-- Value of a register as a 64-bit word. -/
def reg (s : Machine) (x : Register) : Nat :=
  if x = zr then 0 else s.regs x % 2 ^ 64

def set (s : Machine) (x : Register) (v : Nat) : Machine :=
  { s with regs := fun y => if y = x then v else s.regs y }

def log (s : Machine) (e : Event) : Machine :=
  { s with trace := s.trace ++ [e] }

def write (s : Machine) (l : Loc) (v : Nat) : Machine :=
  { s with mem := fun k => if k = l then v else s.mem k, trace := s.trace ++ [Event.store l v] }

def compare (s : Machine) (b : Bool) : Machine :=
  { s with eq_flag := b }

end Machine

/-- Memory operand.  `base`, `index` and `offset` are those of the assembler's
`Address`; `space` records which memory object the emitting code addresses. -/
structure Address where
  space : Space
  base : Register
  index : Register
  offset : Nat

/-- Thread field operand `Address(thread, in_bytes(offset))`. -/
def Address.of_thread (thread : Register) (offset : ByteSize) : Address :=
  ⟨Space.thread offset, thread, noreg, 0⟩

/-- Queue storage operand `Address(buffer, index)`. -/
def Address.of_queue (buffer_offset : ByteSize) (buffer index : Register) : Address :=
  ⟨Space.queue buffer_offset, buffer, index, 0⟩

/-- Card table operand `Address(card)`. -/
def Address.of_card (card : Register) : Address :=
  ⟨Space.card_table, card, noreg, 0⟩

/-- Heap operand `Address(obj, offset)`. -/
def Address.of_heap (obj : Register) (offset : Nat) : Address :=
  ⟨Space.heap, obj, noreg, offset⟩

/-- Effective location of an operand: base plus optional index plus offset, as
a 64-bit address. -/
def Address.loc (a : Address) (s : Machine) : Loc :=
  ⟨a.space, (s.reg a.base + (if a.index = noreg then 0 else s.reg a.index) + a.offset) % 2 ^ 64⟩

/-! ## Instructions -/

inductive BasicType where
  | T_BOOLEAN | T_CHAR | T_FLOAT | T_DOUBLE | T_BYTE | T_SHORT | T_INT | T_LONG
  | T_OBJECT | T_ARRAY
  deriving DecidableEq

def is_reference_type (t : BasicType) : Bool :=
  decide (t = .T_OBJECT) || decide (t = .T_ARRAY)


inductive Condition where
  | EQ
  | NE
  deriving DecidableEq

/-- The shared runtime stubs of the baseline compiler, reached from
`G1BarrierSetC1` as `pre_barrier_c1_runtime_code_blob()` and
`post_barrier_c1_runtime_code_blob()`. -/
inductive CodeBlob where
  | pre_barrier_c1_runtime_code_blob
  | post_barrier_c1_runtime_code_blob
  deriving DecidableEq

/-- The instructions and assembler pseudo-instructions the generators emit. -/
inductive Insn where
  | ldr (rt : Register) (a : Address)
  | ldrw (rt : Register) (a : Address)
  | ldrb (rt : Register) (a : Address)
  | str (rt : Register) (a : Address)
  | strb (rt : Register) (a : Address)
  | cbz (rt : Register) (l : Label)
  | cbzw (rt : Register) (l : Label)
  | cbnzw (rt : Register) (l : Label)
  | b (l : Label)
  | br (c : Condition) (l : Label)
  | cmpw (rn : Register) (imm : Nat)
  | sub (rd rn : Register) (imm : Nat)
  | add (rd rn rm : Register)
  | eor (rd rn rm : Register)
  | lsr (rd rn : Register) (shift : Nat)
  | mov (rd rn : Register)
  | lea (rd : Register) (a : Address)
  | load_byte_map_base (rd : Register)
  | membar
  | load_heap_oop (dst : Register) (a : Address)
  | store_at (decorators : DecoratorSet) (type : BasicType) (a : Address) (val : Register)
  | push (regs : List Register)
  | pop (regs : List Register)
  | push_call_clobbered_registers
  | pop_call_clobbered_registers
  | call_VM_leaf (entry_point : G1BarrierSetRuntime) (arg0 arg1 : Register)
  | super_call_VM_leaf (entry_point : G1BarrierSetRuntime) (arg0 arg1 : Register)
  | call_VM_leaf_base (entry_point : G1BarrierSetRuntime)
  | mov_imm (rd : Register) (imm : Nat)
  | blr (rn : Register)
  | enter
  | leave
  | load_at (decorators : DecoratorSet) (type : BasicType) (dst : Register) (src : Address)
  | mem2reg (src : Address) (dest : Register) (type : BasicType)
  | store_parameter (r : Register) (offset_from_sp_in_words : Nat)
  | load_parameter (offset_in_words : Nat) (r : Register)
  | far_call (entry : CodeBlob)
  | prologue
  | epilogue
  | bind (l : Label)

/-- Load of `bits` bits, zero-extended into `rt`. -/
def do_load (bits : Nat) (rt : Register) (a : Address) (s : Machine) : Machine :=
  ((s.log (Event.load (a.loc s))).set rt (s.mem (a.loc s) % 2 ^ bits))

/-- Store of the low `bits` bits of `rt`.  The memory keeps one cell per access
address: the cell at an address holds the value of the access made at that
address.  This is exact as long as the accesses to one object do not overlap:
byte accesses, and word accesses at addresses `wordSize` apart, as those of the
slots of a queue are when the index is a multiple of `wordSize`.  A word store
at an index that is not such a multiple also covers bytes of a neighbouring
slot (`str_bytes`), which the cell of the neighbour does not show. -/
def do_store (bits : Nat) (rt : Register) (a : Address) (s : Machine) : Machine :=
  s.write (a.loc s) (s.reg rt % 2 ^ bits)

/-- Registers saved by `push_call_clobbered_registers`: r0 to r17 without the
two scratch registers. -/
def call_clobbered_gp_registers : List Register :=
  [.r 0, .r 1, .r 2, .r 3, .r 4, .r 5, .r 6, .r 7,
   .r 10, .r 11, .r 12, .r 13, .r 14, .r 15, .r 16, .r 17]

/-- Push of a register set: the values are stored in the order of the list. -/
def do_push (regs : List Register) (s : Machine) : Machine :=
  { s with stack := regs.map s.reg ++ s.stack }

/-- Pop of a register set: the registers are reloaded in the order of the list. -/
def do_pop : List Register → Machine → Machine
  | [], s => s
  | x :: rest, s => do_pop rest (({ s with stack := s.stack.tail } : Machine).set x s.stack.headI)

/-- Argument move of `pass_arg0` and `pass_arg1`: nothing is emitted when the
argument already sits in its register. -/
def pass_arg (target arg : Register) (s : Machine) : Machine :=
  if target = arg then s else s.set target (s.reg arg)

/-- The call itself: the callee receives the values of the two argument
registers.  What the callee does to the queues is not part of this file. -/
def do_call (entry_point : G1BarrierSetRuntime) (s : Machine) : Machine :=
  s.log (Event.call entry_point (s.reg c_rarg0) (s.reg c_rarg1))

/-- The runtime entry points, in the order of their declaration. -/
def runtime_entry_points : List G1BarrierSetRuntime :=
  [ .write_ref_field_pre_entry, .write_ref_field_post_entry, .write_ref_array_pre_oop_entry,
    .write_ref_array_pre_narrow_oop_entry, .write_ref_array_post_entry ]

/-- The runtime entry point that lies at a code address, if there is one. -/
def entry_point_at (vm : VM) (a : Nat) : Option G1BarrierSetRuntime :=
  runtime_entry_points.find? (fun e => decide (vm.entry_address e % 2 ^ 64 = a))

/-- Indirect call `blr`: the callee is the entry point at the address held in
the register; a call to any other address is outside this model and leaves no
event. -/
def do_blr (vm : VM) (rn : Register) (s : Machine) : Machine :=
  match entry_point_at vm (s.reg rn) with
  | some e => do_call e s
  | none => s

/-- Sign extension of a `bits`-bit value to 64 bits. -/
def sign_extend (bits v : Nat) : Nat :=
  if v < 2 ^ (bits - 1) then v else v + 2 ^ 64 - 2 ^ bits

/-- Modelled from the spec: `ModRefBarrierSetAssembler::load_at` and the
`BarrierSetAssembler::load_at` behind it are defined outside the two source
files.  It is the plain load of the access: a reference is loaded as a 64-bit word,
as by `load_heap_oop`; a primitive is loaded with the width and extension of
its type.  Floating-point values go to a floating-point register, which the
machine state does not hold: only the access is recorded. -/
def do_load_at (type : BasicType) (dst : Register) (src : Address) (s : Machine) : Machine :=
  match type with
  | .T_OBJECT => do_load 64 dst src s
  | .T_ARRAY => do_load 64 dst src s
  | .T_BOOLEAN => do_load 8 dst src s
  | .T_CHAR => do_load 16 dst src s
  | .T_INT => do_load 32 dst src s
  | .T_LONG => do_load 64 dst src s
  | .T_BYTE => (s.log (Event.load (src.loc s))).set dst (sign_extend 8 (s.mem (src.loc s) % 2 ^ 8))
  | .T_SHORT =>
      (s.log (Event.load (src.loc s))).set dst (sign_extend 16 (s.mem (src.loc s) % 2 ^ 16))
  | .T_FLOAT => s.log (Event.load (src.loc s))
  | .T_DOUBLE => s.log (Event.load (src.loc s))

/-- Modelled from the spec: the assembler primitives the generators call
(`MacroAssembler` instructions, `call_VM_leaf`, the register pushes and
`BarrierSetAssembler::store_at`) are defined outside the two source files; the
spec lists them as external collaborators.  Each instruction has its AArch64
meaning, the one the comments of the generators spell out (`temp1 := *(index
address)`, `tmp1 := card address`, `*(card address) := dirty_card_val`).
`enter` and `leave` save and restore the frame pointer and the link register;
the value of the frame pointer inside the frame is read by no barrier and is
not modelled; `prologue` and `epilogue` of a runtime stub do the same.
`mem2reg` of the baseline compiler is the plain load of its type.
`store_parameter` and `load_parameter` access the parameter area.  A
`far_call` transfers control to a runtime stub: the stub is run by `run_c1`,
which knows the code of the stubs, and the instruction by itself changes
nothing.  One instruction: the next state, and the label branched to, if
any. -/
def step (vm : VM) : Insn → Machine → Machine × Option Label
  | .ldr rt a, s => (do_load 64 rt a s, none)
  | .ldrw rt a, s => (do_load 32 rt a s, none)
  | .ldrb rt a, s => (do_load 8 rt a s, none)
  | .str rt a, s => (do_store 64 rt a s, none)
  | .strb rt a, s => (do_store 8 rt a s, none)
  | .cbz rt l, s => (s, if s.reg rt = 0 then some l else none)
  | .cbzw rt l, s => (s, if s.reg rt % 2 ^ 32 = 0 then some l else none)
  | .cbnzw rt l, s => (s, if s.reg rt % 2 ^ 32 = 0 then none else some l)
  | .b l, s => (s, some l)
  | .br .EQ l, s => (s, if s.eq_flag then some l else none)
  | .br .NE l, s => (s, if s.eq_flag then none else some l)
  | .cmpw rn imm, s => (s.compare (decide (s.reg rn % 2 ^ 32 = imm % 2 ^ 32)), none)
  | .sub rd rn imm, s => (s.set rd ((s.reg rn + 2 ^ 64 - imm % 2 ^ 64) % 2 ^ 64), none)
  | .add rd rn rm, s => (s.set rd ((s.reg rn + s.reg rm) % 2 ^ 64), none)
  | .eor rd rn rm, s => (s.set rd (s.reg rn ^^^ s.reg rm), none)
  | .lsr rd rn shift, s => (s.set rd (s.reg rn >>> shift), none)
  | .mov rd rn, s => (s.set rd (s.reg rn), none)
  | .lea rd a, s => (s.set rd (a.loc s).addr, none)
  | .load_byte_map_base rd, s => (s.set rd vm.byte_map_base, none)
  | .membar, s => (s.log Event.membar, none)
  | .load_heap_oop dst a, s => (do_load 64 dst a s, none)
  | .store_at _ _ a val, s =>
      let t := s.write (a.loc s) (if val = noreg then 0 else s.reg val)
      (if vm.UseCompressedOops && decide (val ≠ noreg)
        then t.set val (vm.encode_heap_oop (s.reg val)) else t, none)
  | .push regs, s => (do_push regs s, none)
  | .pop regs, s => (do_pop regs s, none)
  | .push_call_clobbered_registers, s => (do_push call_clobbered_gp_registers s, none)
  | .pop_call_clobbered_registers, s => (do_pop call_clobbered_gp_registers s, none)
  | .call_VM_leaf e arg0 arg1, s =>
      (do_call e (pass_arg c_rarg1 arg1 (pass_arg c_rarg0 arg0 s)), none)
  | .super_call_VM_leaf e arg0 arg1, s =>
      (do_call e (pass_arg c_rarg0 arg0 (pass_arg c_rarg1 arg1 s)), none)
  | .call_VM_leaf_base e, s => (do_call e s, none)
  | .mov_imm rd imm, s => (s.set rd imm, none)
  | .blr rn, s => (do_blr vm rn s, none)
  | .enter, s => (do_push [rfp, lr] s, none)
  | .leave, s => (do_pop [rfp, lr] s, none)
  | .load_at _ type dst src, s => (do_load_at type dst src s, none)
  | .mem2reg src dest type, s => (do_load_at type dest src s, none)
  | .store_parameter r n, s => (s.write ⟨Space.parameter, n⟩ (s.reg r), none)
  | .load_parameter n r, s =>
      ((s.log (Event.load ⟨Space.parameter, n⟩)).set r (s.mem ⟨Space.parameter, n⟩ % 2 ^ 64),
        none)
  | .far_call _, s => (s, none)
  | .prologue, s => (do_push [rfp, lr] s, none)
  | .epilogue, s => (do_pop [rfp, lr] s, none)
  | .bind _, s => (s, none)

/-- The instruction is `bind l`. -/
def Insn.binds : Insn → Label → Bool
  | .bind k, l => decide (k = l)
  | _, _ => false

/-- Execution of emitted code.  All branches of the barriers go forward: while
a branch to `l` is pending, instructions are skipped up to `bind l`.  The
result carries the label still pending at the end of the code, if any. -/
def run (vm : VM) : List Insn → Option Label → Machine → Machine × Option Label
  | [], pending, s => (s, pending)
  | i :: rest, none, s => run vm rest (step vm i s).2 (step vm i s).1
  | i :: rest, some l, s => run vm rest (if i.binds l then none else some l) s

/-! ## The generators -/

/-- Source: `generate_queue_test_and_insertion`. -/
def generate_queue_test_and_insertion (index_offset buffer_offset : ByteSize) (runtime : Label)
    (thread value temp1 temp2 : Register) : List Insn :=
  [ .ldr temp1 (Address.of_thread thread index_offset),
    .cbz temp1 runtime,
    .sub temp1 temp1 wordSize,
    .str temp1 (Address.of_thread thread index_offset),
    .ldr temp2 (Address.of_thread thread buffer_offset),
    .str value (Address.of_queue buffer_offset temp2 temp1) ]

/-- Source: `generate_pre_barrier_fast_path`. -/
def generate_pre_barrier_fast_path (vm : VM) (thread tmp1 : Register) : List Insn :=
  let in_progress := Address.of_thread thread ByteSize.satb_mark_queue_active_offset
  if vm.byte_width_of_active = 4 then [ .ldrw tmp1 in_progress ] else [ .ldrb tmp1 in_progress ]

/-- Source: `generate_pre_barrier_slow_path`. -/
def generate_pre_barrier_slow_path (obj pre_val thread tmp1 tmp2 : Register)
    (done runtime : Label) : List Insn :=
  (if obj ≠ noreg then [ Insn.load_heap_oop pre_val (Address.of_heap obj 0) ] else []) ++
  [ Insn.cbz pre_val done ] ++
  generate_queue_test_and_insertion ByteSize.satb_mark_queue_index_offset
    ByteSize.satb_mark_queue_buffer_offset runtime thread pre_val tmp1 tmp2 ++
  [ Insn.b done ]

/-- Meaning of `assert_different_registers`: the operands that are registers
are pairwise different; `noreg` operands are skipped. -/
def different_registers (l : List Register) : Prop :=
  (l.filter (fun x => decide (x ≠ noreg))).Nodup

instance (l : List Register) : Decidable (different_registers l) := by
  unfold different_registers; exact inferInstance

/-- The assertions at the head of `g1_write_barrier_pre`, with the one on
`pre_val` that guards the expanded call. -/
def g1_write_barrier_pre_asserts (obj pre_val thread tmp1 tmp2 : Register)
    (expand_call : Bool) : Prop :=
  thread = rthread ∧
  different_registers [obj, pre_val, tmp1, tmp2] ∧
  (pre_val ≠ noreg ∧ tmp1 ≠ noreg ∧ tmp2 ≠ noreg) ∧
  (expand_call = true → pre_val ≠ c_rarg1)

instance (obj pre_val thread tmp1 tmp2 : Register) (expand_call : Bool) :
    Decidable (g1_write_barrier_pre_asserts obj pre_val thread tmp1 tmp2 expand_call) := by
  unfold g1_write_barrier_pre_asserts; exact inferInstance

/-- The assertions at the head of `g1_write_barrier_post`. -/
def g1_write_barrier_post_asserts (store_addr new_val thread tmp1 tmp2 : Register) : Prop :=
  thread = rthread ∧
  different_registers [store_addr, new_val, thread, tmp1, tmp2, rscratch1] ∧
  (store_addr ≠ noreg ∧ new_val ≠ noreg ∧ tmp1 ≠ noreg ∧ tmp2 ≠ noreg)

instance (store_addr new_val thread tmp1 tmp2 : Register) :
    Decidable (g1_write_barrier_post_asserts store_addr new_val thread tmp1 tmp2) := by
  unfold g1_write_barrier_post_asserts; exact inferInstance

/-- A register that can serve as a temporary: neither the zero register nor the
register reserved for the current thread. -/
def is_temp (x : Register) : Prop :=
  x ≠ zr ∧ x ≠ rthread

instance (x : Register) : Decidable (is_temp x) := by
  unfold is_temp; exact inferInstance

/-- Source: `G1BarrierSetAssembler::g1_write_barrier_pre`. -/
def g1_write_barrier_pre (vm : VM) (obj pre_val thread tmp1 tmp2 : Register)
    (tosca_live expand_call : Bool) : List Insn :=
  generate_pre_barrier_fast_path vm thread tmp1 ++
  [ Insn.cbzw tmp1 .done ] ++
  generate_pre_barrier_slow_path obj pre_val thread tmp1 tmp2 .done .runtime ++
  [ Insn.bind .runtime,
    Insn.push_call_clobbered_registers,
    (if expand_call
      then Insn.super_call_VM_leaf .write_ref_field_pre_entry pre_val thread
      else Insn.call_VM_leaf .write_ref_field_pre_entry pre_val thread),
    Insn.pop_call_clobbered_registers,
    Insn.bind .done ]

/-- Source: `generate_post_barrier_fast_path`. -/
def generate_post_barrier_fast_path (vm : VM) (store_addr new_val tmp1 tmp2 : Register)
    (done : Label) (new_val_may_be_null : Bool) : List Insn :=
  [ Insn.eor tmp1 store_addr new_val,
    Insn.lsr tmp1 tmp1 vm.LogOfHRGrainBytes,
    Insn.cbz tmp1 done ] ++
  (if new_val_may_be_null then [ Insn.cbz new_val done ] else []) ++
  [ Insn.lsr tmp1 store_addr vm.card_shift,
    Insn.load_byte_map_base tmp2,
    Insn.add tmp1 tmp1 tmp2,
    Insn.ldrb tmp2 (Address.of_card tmp1),
    Insn.cmpw tmp2 vm.g1_young_card_val ]

/-- Source: `generate_post_barrier_slow_path`. -/
def generate_post_barrier_slow_path (thread tmp1 tmp2 : Register)
    (done runtime : Label) : List Insn :=
  [ Insn.membar,
    Insn.ldrb tmp2 (Address.of_card tmp1),
    Insn.cbzw tmp2 done,
    Insn.strb zr (Address.of_card tmp1) ] ++
  generate_queue_test_and_insertion ByteSize.dirty_card_queue_index_offset
    ByteSize.dirty_card_queue_buffer_offset runtime thread tmp1 tmp2 rscratch1 ++
  [ Insn.b done ]

/-- Source: `G1BarrierSetAssembler::g1_write_barrier_post`. -/
def g1_write_barrier_post (vm : VM) (store_addr new_val thread tmp1 tmp2 : Register) :
    List Insn :=
  generate_post_barrier_fast_path vm store_addr new_val tmp1 tmp2 .done true ++
  [ Insn.br .EQ .done ] ++
  generate_post_barrier_slow_path thread tmp1 tmp2 .done .runtime ++
  [ Insn.bind .runtime,
    Insn.push [store_addr],
    Insn.call_VM_leaf .write_ref_field_post_entry tmp1 thread,
    Insn.pop [store_addr],
    Insn.bind .done ]

/-- Source: the first statement of `G1BarrierSetAssembler::oop_store_at`,
"flatten object address if needed". -/
def flatten_object_address (dst : Address) (tmp3 : Register) : List Insn :=
  if dst.index = noreg ∧ dst.offset = 0
    then (if dst.base ≠ tmp3 then [ Insn.mov tmp3 dst.base ] else [])
    else [ Insn.lea tmp3 dst ]

/-- Source: `G1BarrierSetAssembler::oop_store_at`. -/
def oop_store_at (vm : VM) (decorators : DecoratorSet) (type : BasicType) (dst : Address)
    (val tmp1 tmp2 tmp3 : Register) : List Insn :=
  flatten_object_address dst tmp3 ++
  g1_write_barrier_pre vm tmp3 tmp2 rthread tmp1 rscratch2 (decide (val ≠ noreg)) false ++
  (if val = noreg
    then [ Insn.store_at decorators type (Address.of_heap tmp3 0) noreg ]
    else
      let new_val := if vm.UseCompressedOops then rscratch2 else val
      (if vm.UseCompressedOops then [ Insn.mov new_val val ] else []) ++
      [ Insn.store_at decorators type (Address.of_heap tmp3 0) val ] ++
      g1_write_barrier_post vm tmp3 new_val rthread tmp1 tmp2)

/-- Source: `G1BarrierSetAssembler::gen_write_ref_array_pre_barrier`.  The
register set `saved_regs` is given as the list of its registers. -/
def gen_write_ref_array_pre_barrier (vm : VM) (decorators : DecoratorSet)
    (addr count : Register) (saved_regs : List Register) : List Insn :=
  let dest_uninitialized := decide (decorators &&& vm.IS_DEST_UNINITIALIZED ≠ 0)
  if !dest_uninitialized then
    let in_progress := Address.of_thread rthread ByteSize.satb_mark_queue_active_offset
    (if vm.byte_width_of_active = 4
      then [ Insn.ldrw rscratch1 in_progress ] else [ Insn.ldrb rscratch1 in_progress ]) ++
    [ Insn.cbzw rscratch1 .done,
      Insn.push saved_regs ] ++
    (if count = c_rarg0 then
      (if addr = c_rarg1 then
        [ Insn.mov rscratch1 c_rarg0, Insn.mov c_rarg0 c_rarg1, Insn.mov c_rarg1 rscratch1 ]
      else
        [ Insn.mov c_rarg1 count, Insn.mov c_rarg0 addr ])
    else
      [ Insn.mov c_rarg0 addr, Insn.mov c_rarg1 count ]) ++
    [ (if vm.UseCompressedOops
        then Insn.call_VM_leaf_base .write_ref_array_pre_narrow_oop_entry
        else Insn.call_VM_leaf_base .write_ref_array_pre_oop_entry),
      Insn.pop saved_regs,
      Insn.bind .done ]
  else []

/-- Modelled from the spec: `G1BarrierStubC2` is declared outside the two
source files.  It is the stub descriptor of the spec, which "records the
concrete storage chosen by that call site": here the registers that are live
across the runtime call at the site, which `SaveLiveRegisters` saves and
restores.  The entry and continuation labels of the stub are `Label.entry` and
`Label.continuation`. -/
structure G1BarrierStubC2 where
  live_registers : List Register

/-- Modelled from the spec: `G1PreBarrierStubC2`, the stub descriptor of a
pre-barrier; it "binds symbolic barrier operands (object address, previous
value, thread context, temporaries) to concrete storage for one call site". -/
structure G1PreBarrierStubC2 extends G1BarrierStubC2 where
  obj : Register
  pre_val : Register
  thread : Register
  tmp1 : Register
  tmp2 : Register

/-- Modelled from the spec: `G1PreBarrierStubC2::initialize_registers` binds
the operands of the call site. -/
def G1PreBarrierStubC2.initialize_registers (stub : G1PreBarrierStubC2)
    (obj pre_val thread tmp1 tmp2 : Register) : G1PreBarrierStubC2 :=
  { stub with obj := obj, pre_val := pre_val, thread := thread, tmp1 := tmp1, tmp2 := tmp2 }

/-- Modelled from the spec: `G1PostBarrierStubC2`, the stub descriptor of a
post-barrier, with the barrier data of the store. -/
structure G1PostBarrierStubC2 extends G1BarrierStubC2 where
  thread : Register
  tmp1 : Register
  tmp2 : Register
  tmp3 : Register
  barrier_data : Nat

/-- Modelled from the spec: `G1PostBarrierStubC2::initialize_registers` binds
the operands of the call site; this port passes no third temporary. -/
def G1PostBarrierStubC2.initialize_registers (stub : G1PostBarrierStubC2)
    (thread tmp1 tmp2 : Register) : G1PostBarrierStubC2 :=
  { stub with thread := thread, tmp1 := tmp1, tmp2 := tmp2, tmp3 := noreg }

/-- Source: `generate_c2_barrier_runtime_call`.  The object `save_registers`
saves the live registers of the stub where it is declared and restores them at
the end of the function. -/
def generate_c2_barrier_runtime_call (stub : G1BarrierStubC2) (arg : Register)
    (runtime_path : Nat) : List Insn :=
  [ Insn.push stub.live_registers ] ++
  (if c_rarg0 ≠ arg then [ Insn.mov c_rarg0 arg ] else []) ++
  [ Insn.mov c_rarg1 rthread,
    Insn.mov_imm rscratch1 runtime_path,
    Insn.blr rscratch1,
    Insn.pop stub.live_registers ]

/-- Source: `G1BarrierSetAssembler::g1_write_barrier_pre_c2`: the code emitted
at the call site, and the stub with its registers bound. -/
def g1_write_barrier_pre_c2 (vm : VM) (obj pre_val thread tmp1 tmp2 : Register)
    (stub : G1PreBarrierStubC2) : List Insn × G1PreBarrierStubC2 :=
  (generate_pre_barrier_fast_path vm thread tmp1 ++
    [ Insn.cbnzw tmp1 .entry,
      Insn.bind .continuation ],
   stub.initialize_registers obj pre_val thread tmp1 tmp2)

/-- Source: `G1BarrierSetAssembler::generate_c2_pre_barrier_stub`. -/
def generate_c2_pre_barrier_stub (vm : VM) (stub : G1PreBarrierStubC2) : List Insn :=
  [ Insn.bind .entry ] ++
  generate_pre_barrier_slow_path stub.obj stub.pre_val stub.thread stub.tmp1 stub.tmp2
    .continuation .runtime ++
  [ Insn.bind .runtime ] ++
  generate_c2_barrier_runtime_call stub.toG1BarrierStubC2 stub.pre_val
    (vm.entry_address .write_ref_field_pre_entry) ++
  [ Insn.b .continuation ]

/-- Source: `G1BarrierSetAssembler::g1_write_barrier_post_c2`: the code emitted
at the call site, and the stub with its registers bound. -/
def g1_write_barrier_post_c2 (vm : VM) (store_addr new_val thread tmp1 tmp2 : Register)
    (stub : G1PostBarrierStubC2) : List Insn × G1PostBarrierStubC2 :=
  let new_val_may_be_null := decide (stub.barrier_data &&& vm.G1C2BarrierPostNotNull = 0)
  (generate_post_barrier_fast_path vm store_addr new_val tmp1 tmp2 .continuation
      new_val_may_be_null ++
    [ Insn.br .NE .entry,
      Insn.bind .continuation ],
   stub.initialize_registers thread tmp1 tmp2)

/-- Source: `G1BarrierSetAssembler::generate_c2_post_barrier_stub`. -/
def generate_c2_post_barrier_stub (vm : VM) (stub : G1PostBarrierStubC2) : List Insn :=
  [ Insn.bind .entry ] ++
  generate_post_barrier_slow_path stub.thread stub.tmp1 stub.tmp2 .continuation .runtime ++
  [ Insn.bind .runtime ] ++
  generate_c2_barrier_runtime_call stub.toG1BarrierStubC2 stub.tmp1
    (vm.entry_address .write_ref_field_post_entry) ++
  [ Insn.b .continuation ]

/-- Source: `G1BarrierSetAssembler::load_at`. -/
def load_at (vm : VM) (decorators : DecoratorSet) (type : BasicType) (dst : Register)
    (src : Address) (tmp1 tmp2 : Register) : List Insn :=
  let on_oop := is_reference_type type
  let on_weak := decide (decorators &&& vm.ON_WEAK_OOP_REF ≠ 0)
  let on_phantom := decide (decorators &&& vm.ON_PHANTOM_OOP_REF ≠ 0)
  let on_reference := on_weak || on_phantom
  [ Insn.load_at decorators type dst src ] ++
  (if on_oop && on_reference then
    [ Insn.enter ] ++
    g1_write_barrier_pre vm noreg dst rthread tmp1 tmp2 true true ++
    [ Insn.leave ]
  else [])

/-- Modelled from the spec: `G1PreBarrierStub` of the baseline compiler is
declared outside the two source files.  It is the stub descriptor of one call
site: the address of the field, the register of the previous value, and whether
the stub has to load the previous value itself.  Its entry and continuation
labels are `Label.entry` and `Label.continuation`. -/
structure G1PreBarrierStub where
  addr : Address
  pre_val : Register
  do_load : Bool

/-- Modelled from the spec: `G1PostBarrierStub` of the baseline compiler, the
stub descriptor of one store: the registers of the store address and of the
new value. -/
structure G1PostBarrierStub where
  addr : Register
  new_val : Register

/-- Source: `G1BarrierSetAssembler::gen_pre_barrier_stub`. -/
def gen_pre_barrier_stub (stub : G1PreBarrierStub) : List Insn :=
  let pre_val_reg := stub.pre_val
  [ Insn.bind .entry ] ++
  (if stub.do_load then [ Insn.mem2reg stub.addr stub.pre_val .T_OBJECT ] else []) ++
  [ Insn.cbz pre_val_reg .continuation,
    Insn.store_parameter stub.pre_val 0,
    Insn.far_call .pre_barrier_c1_runtime_code_blob,
    Insn.b .continuation ]

/-- Source: `G1BarrierSetAssembler::gen_post_barrier_stub`. -/
def gen_post_barrier_stub (stub : G1PostBarrierStub) : List Insn :=
  let new_val_reg := stub.new_val
  [ Insn.bind .entry,
    Insn.cbz new_val_reg .continuation,
    Insn.store_parameter stub.addr 0,
    Insn.far_call .post_barrier_c1_runtime_code_blob,
    Insn.b .continuation ]

/-- Source: `G1BarrierSetAssembler::generate_c1_pre_barrier_runtime_stub`. -/
def generate_c1_pre_barrier_runtime_stub (vm : VM) : List Insn :=
  let pre_val := r0
  let thread := rthread
  let tmp := rscratch1
  let in_progress := Address.of_thread thread ByteSize.satb_mark_queue_active_offset
  let queue_index := Address.of_thread thread ByteSize.satb_mark_queue_index_offset
  let buffer := Address.of_thread thread ByteSize.satb_mark_queue_buffer_offset
  [ Insn.prologue ] ++
  (if vm.byte_width_of_active = 4
    then [ Insn.ldrw tmp in_progress ] else [ Insn.ldrb tmp in_progress ]) ++
  [ Insn.cbzw tmp .done,
    Insn.ldr tmp queue_index,
    Insn.cbz tmp .runtime,
    Insn.sub tmp tmp wordSize,
    Insn.str tmp queue_index,
    Insn.ldr rscratch2 buffer,
    Insn.add tmp tmp rscratch2,
    Insn.load_parameter 0 rscratch2,
    Insn.str rscratch2 (Address.of_queue ByteSize.satb_mark_queue_buffer_offset tmp noreg),
    Insn.b .done,
    Insn.bind .runtime,
    Insn.push_call_clobbered_registers,
    Insn.load_parameter 0 pre_val,
    Insn.call_VM_leaf .write_ref_field_pre_entry pre_val thread,
    Insn.pop_call_clobbered_registers,
    Insn.bind .done,
    Insn.epilogue ]

/-- Source: `G1BarrierSetAssembler::generate_c1_post_barrier_runtime_stub`. -/
def generate_c1_post_barrier_runtime_stub (vm : VM) : List Insn :=
  let thread := rthread
  let queue_index := Address.of_thread thread ByteSize.dirty_card_queue_index_offset
  let buffer := Address.of_thread thread ByteSize.dirty_card_queue_buffer_offset
  let card_offset := rscratch2
  let byte_map_base := lr
  let card : Address := ⟨Space.card_table, byte_map_base, card_offset, 0⟩
  let card_addr := card_offset
  let buffer_addr := lr
  [ Insn.prologue,
    Insn.load_parameter 0 card_offset,
    Insn.lsr card_offset card_offset vm.card_shift,
    Insn.load_byte_map_base byte_map_base,
    Insn.ldrb rscratch1 card,
    Insn.cmpw rscratch1 vm.g1_young_card_val,
    Insn.br .EQ .done,
    Insn.membar,
    Insn.ldrb rscratch1 card,
    Insn.cbzw rscratch1 .done,
    Insn.strb zr card,
    Insn.add card_addr byte_map_base card_addr,
    Insn.ldr rscratch1 queue_index,
    Insn.cbz rscratch1 .runtime,
    Insn.sub rscratch1 rscratch1 wordSize,
    Insn.str rscratch1 queue_index,
    Insn.ldr buffer_addr buffer,
    Insn.str card_addr (Address.of_queue ByteSize.dirty_card_queue_buffer_offset buffer_addr
      rscratch1),
    Insn.b .done,
    Insn.bind .runtime,
    Insn.push_call_clobbered_registers,
    Insn.call_VM_leaf .write_ref_field_post_entry card_addr thread,
    Insn.pop_call_clobbered_registers,
    Insn.bind .done,
    Insn.epilogue ]

/-- The code of the shared runtime stubs of the baseline compiler. -/
def c1_runtime_code_blob (vm : VM) : CodeBlob → List Insn
  | .pre_barrier_c1_runtime_code_blob => generate_c1_pre_barrier_runtime_stub vm
  | .post_barrier_c1_runtime_code_blob => generate_c1_post_barrier_runtime_stub vm

/-- The runtime stub a `far_call` goes to. -/
def Insn.call_target : Insn → Option CodeBlob
  | .far_call entry => some entry
  | _ => none

/-- Execution of a stub of the baseline compiler: as `run`, and a `far_call`
runs the code of the called runtime stub from its first instruction to its
`epilogue`, after which the stub goes on. -/
def run_c1 (vm : VM) : List Insn → Option Label → Machine → Machine × Option Label
  | [], pending, s => (s, pending)
  | i :: rest, none, s =>
    match i.call_target with
    | some entry => run_c1 vm rest none (run vm (c1_runtime_code_blob vm entry) none s).1
    | none => run_c1 vm rest (step vm i s).2 (step vm i s).1
  | i :: rest, some l, s => run_c1 vm rest (if i.binds l then none else some l) s

/-! ## Observations used to state the properties -/

/-- Cell of a field of the current thread. -/
def thread_field (s : Machine) (f : ByteSize) : Loc :=
  ⟨Space.thread f, s.reg rthread⟩

/-- What the fast path of the pre-barrier reads from the marking-active flag. -/
def marking_active (vm : VM) (s : Machine) : Nat :=
  s.mem (thread_field s .satb_mark_queue_active_offset) %
    2 ^ (if vm.byte_width_of_active = 4 then 32 else 8)

/-- Index of a queue of the current thread, as the insertion code reads it. -/
def queue_index (s : Machine) (index_offset : ByteSize) : Nat :=
  s.mem (thread_field s index_offset) % 2 ^ 64

/-- Storage pointer of a queue of the current thread. -/
def queue_buffer (s : Machine) (buffer_offset : ByteSize) : Nat :=
  s.mem (thread_field s buffer_offset) % 2 ^ 64

/-- Storage cell of a queue at an absolute address. -/
def queue_slot (buffer_offset : ByteSize) (a : Nat) : Loc :=
  ⟨Space.queue buffer_offset, a⟩

/-- The index after one insertion: `index - wordSize` in 64-bit arithmetic. -/
def next_index (i : Nat) : Nat :=
  (i + 2 ^ 64 - wordSize) % 2 ^ 64

/-- Cell the insertion code writes: storage pointer plus the new index. -/
def insertion_slot (s : Machine) (index_offset buffer_offset : ByteSize) : Loc :=
  queue_slot buffer_offset
    ((queue_buffer s buffer_offset + next_index (queue_index s index_offset)) % 2 ^ 64)

/-- Address of the card of a store address: `byte_map_base + (addr >> card_shift)`
as a 64-bit word. -/
def card_address (vm : VM) (store_addr : Nat) : Nat :=
  (store_addr >>> vm.card_shift + vm.byte_map_base) % 2 ^ 64

/-- Card table cell at a card address. -/
def card_loc (card_addr : Nat) : Loc :=
  ⟨Space.card_table, card_addr⟩

/-- Byte the barrier reads from a card. -/
def card_value (s : Machine) (card_addr : Nat) : Nat :=
  s.mem (card_loc card_addr) % 2 ^ 8

/-- The card byte compares equal to the young value in `cmpw`. -/
def card_is_young (vm : VM) (s : Machine) (card_addr : Nat) : Prop :=
  card_value s card_addr = vm.g1_young_card_val % 2 ^ 32

instance (vm : VM) (s : Machine) (card_addr : Nat) : Decidable (card_is_young vm s card_addr) := by
  unfold card_is_young; exact inferInstance

/-- Heap cell of a reference field. -/
def field_loc (a : Nat) : Loc :=
  ⟨Space.heap, a⟩

/-- The previous value the slow path of the pre-barrier tests and logs: loaded
from the field at `obj`, or taken from `pre_val` when `obj` is `noreg`. -/
def previous_value (s : Machine) (obj pre_val : Register) : Nat :=
  if obj ≠ noreg then s.mem (field_loc (s.reg obj)) % 2 ^ 64 else s.reg pre_val

/-- Two addresses lie in the same region of `2 ^ LogOfHRGrainBytes` bytes. -/
def same_region (vm : VM) (a b : Nat) : Prop :=
  a / 2 ^ vm.LogOfHRGrainBytes = b / 2 ^ vm.LogOfHRGrainBytes

instance (vm : VM) (a b : Nat) : Decidable (same_region vm a b) := by
  unfold same_region; exact inferInstance

/-- The calls of one runtime entry point in a trace, in order. -/
def runtime_calls (entry_point : G1BarrierSetRuntime) (trace : List Event) : List Event :=
  trace.filter (fun e => match e with
    | .call ep _ _ => decide (ep = entry_point)
    | _ => false)

/-- Cells of the SATB machinery: the marking-active flag, the index and the
storage pointer of the SATB queue, and the SATB storage. -/
def satb_cell (l : Loc) : Bool :=
  match l.space with
  | .thread .satb_mark_queue_active_offset => true
  | .thread .satb_mark_queue_index_offset => true
  | .thread .satb_mark_queue_buffer_offset => true
  | .queue .satb_mark_queue_buffer_offset => true
  | _ => false

/-- Actions of the SATB slow and runtime paths: a load of a heap field (the
previous value), a store to an SATB cell, a call of the pre-barrier entry. -/
def satb_action : Event → Bool
  | .load l => decide (l.space = Space.heap)
  | .store l _ => satb_cell l
  | .call ep _ _ => decide (ep = G1BarrierSetRuntime.write_ref_field_pre_entry)
  | .membar => false

/-- Cells of the post-barrier: the card table, and the index, the storage
pointer and the storage of the dirty-card queue. -/
def card_cell (l : Loc) : Bool :=
  match l.space with
  | .card_table => true
  | .thread .dirty_card_queue_index_offset => true
  | .thread .dirty_card_queue_buffer_offset => true
  | .queue .dirty_card_queue_buffer_offset => true
  | _ => false

/-- Actions on the cells of the post-barrier: any load or store of such a
cell, and a call of the post-barrier entry. -/
def card_action : Event → Bool
  | .load l => card_cell l
  | .store l _ => card_cell l
  | .call ep _ _ => decide (ep = G1BarrierSetRuntime.write_ref_field_post_entry)
  | .membar => false

/-- Between `s` and `t` no selected cell changed and no selected action was
added to the trace. -/
def quiet (cell : Loc → Bool) (action : Event → Bool) (s t : Machine) : Prop :=
  (∀ l, cell l = true → t.mem l = s.mem l) ∧
  t.trace.filter action = s.trace.filter action

/-- Final state of emitted code started at its first instruction. -/
def exec (vm : VM) (code : List Insn) (s : Machine) : Machine :=
  (run vm code none s).1

/-- Label still pending when emitted code, started at its first instruction,
reaches its end. -/
def exit_label (vm : VM) (code : List Insn) (s : Machine) : Option Label :=
  (run vm code none s).2

/-- Execution of the code of a call site together with its out-of-line stub.
Control leaves the site by a branch to a label bound in the stub, runs the
stub from there, and comes back to the site at the label the stub branches to.
The result is the state in which control reaches the end of the code of the
site, if it does. -/
def run_with_stub (vm : VM) (site stub : List Insn) (s : Machine) : Option Machine :=
  match run vm site none s with
  | (t, none) => some t
  | (t, some l) =>
    match run vm stub (some l) t with
    | (_, none) => none
    | (u, some k) =>
      match run vm site (some k) u with
      | (v, none) => some v
      | (_, some _) => none

/-- Successive insertions of a list of values into a queue: before each
execution of the insertion code the value register receives the next value. -/
def insert_values (vm : VM) (index_offset buffer_offset : ByteSize) (runtime : Label)
    (thread value temp1 temp2 : Register) : List Nat → Machine → Machine
  | [], s => s
  | v :: rest, s =>
    insert_values vm index_offset buffer_offset runtime thread value temp1 temp2 rest
      (exec vm (generate_queue_test_and_insertion index_offset buffer_offset runtime
        thread value temp1 temp2) (s.set value v))

/-- The stores into the storage of a queue in a trace. -/
def queue_insertions (trace : List Event) : List Event :=
  trace.filter (fun e => match e with
    | .store ⟨.queue _, _⟩ _ => true
    | _ => false)

/-- The runtime calls in a trace, whatever the entry point. -/
def all_runtime_calls (trace : List Event) : List Event :=
  trace.filter (fun e => match e with
    | .call _ _ _ => true
    | _ => false)

/-- Check of the order of the events around a card write: every store into
the card table in the list comes directly after a load of the same card, which
comes directly after a fence, which comes directly after an earlier load of
the same card.  The three arguments are the three events before the list. -/
def fenced_from (p3 p2 p1 : Option Event) : List Event → Bool
  | [] => true
  | e :: rest =>
    (match e with
      | .store l _ =>
        if l.space = Space.card_table then
          decide (p3 = some (Event.load l) ∧ p2 = some Event.membar ∧ p1 = some (Event.load l))
        else true
      | _ => true) && fenced_from p2 p1 (some e) rest

/-- Every card write of the events of one invocation follows the read of the
card, the fence and the re-read of the card, in this order. -/
def card_writes_fenced (added : List Event) : Bool :=
  fenced_from none none none added

/-- The stores into the card table in a list of events. -/
def card_writes (added : List Event) : List Event :=
  added.filter (fun e => match e with
    | .store ⟨.card_table, _⟩ _ => true
    | _ => false)

/-- Order of the events of the slow path of the post-barrier on the card at
`card_addr`: the read of the card, the fence, the re-read of the card and then,
exactly when the re-read is not dirty, the write of the dirty value 0 into the
card; no other card write follows. -/
def slow_path_order (card_addr : Nat) (dirty : Bool) (added : List Event) : Prop :=
  ∃ rest, added = [Event.load (card_loc card_addr), Event.membar,
      Event.load (card_loc card_addr)] ++
      (if dirty then [] else [Event.store (card_loc card_addr) 0]) ++ rest ∧
    card_writes rest = []

/-- Operands of one reference store emitted through `oop_store_at`. -/
structure StoreSite where
  decorators : DecoratorSet
  type : BasicType
  dst : Address
  val : Register
  tmp1 : Register
  tmp2 : Register
  tmp3 : Register

/-- Code of one reference store. -/
def StoreSite.code (vm : VM) (st : StoreSite) : List Insn :=
  oop_store_at vm st.decorators st.type st.dst st.val st.tmp1 st.tmp2 st.tmp3

/-- A sequence of reference stores, executed one after the other. -/
def store_sequence (vm : VM) (stores : List StoreSite) (s : Machine) : Machine :=
  stores.foldl (fun t st => exec vm (st.code vm) t) s

/-- The assertions met while `oop_store_at` is generated: those of the
pre-barrier and, for a store of a register, those of the post-barrier. -/
def oop_store_at_asserts (vm : VM) (val tmp1 tmp2 tmp3 : Register) : Prop :=
  g1_write_barrier_pre_asserts tmp3 tmp2 rthread tmp1 rscratch2 false ∧
  (val ≠ noreg →
    g1_write_barrier_post_asserts tmp3 (if vm.UseCompressedOops then rscratch2 else val)
      rthread tmp1 tmp2)

/-- The instruction adds no selected action to the trace and stores to no
selected cell, whatever the state: its memory operand lies in an object
without selected cells, its call goes to another entry point. -/
def Insn.quiet (cell : Loc → Bool) (action : Event → Bool) : Insn → Prop
  | .ldr _ a => ∀ n, action (Event.load ⟨a.space, n⟩) = false
  | .ldrw _ a => ∀ n, action (Event.load ⟨a.space, n⟩) = false
  | .ldrb _ a => ∀ n, action (Event.load ⟨a.space, n⟩) = false
  | .load_heap_oop _ a => ∀ n, action (Event.load ⟨a.space, n⟩) = false
  | .str _ a => ∀ n v, cell ⟨a.space, n⟩ = false ∧ action (Event.store ⟨a.space, n⟩ v) = false
  | .strb _ a => ∀ n v, cell ⟨a.space, n⟩ = false ∧ action (Event.store ⟨a.space, n⟩ v) = false
  | .store_at _ _ a _ =>
      ∀ n v, cell ⟨a.space, n⟩ = false ∧ action (Event.store ⟨a.space, n⟩ v) = false
  | .membar => action Event.membar = false
  | .call_VM_leaf ep _ _ => ∀ a b, action (Event.call ep a b) = false
  | .super_call_VM_leaf ep _ _ => ∀ a b, action (Event.call ep a b) = false
  | .call_VM_leaf_base ep => ∀ a b, action (Event.call ep a b) = false
  | .blr _ => ∀ ep a b, action (Event.call ep a b) = false
  | .load_at _ _ _ a => ∀ n, action (Event.load ⟨a.space, n⟩) = false
  | .mem2reg a _ _ => ∀ n, action (Event.load ⟨a.space, n⟩) = false
  | .store_parameter _ n =>
      ∀ v, cell ⟨Space.parameter, n⟩ = false ∧
        action (Event.store ⟨Space.parameter, n⟩ v) = false
  | .load_parameter n _ => action (Event.load ⟨Space.parameter, n⟩) = false
  | _ => True

/-- The instruction may write register `x`. -/
def Insn.writes (x : Register) : Insn → Prop
  | .ldr rt _ => x = rt
  | .ldrw rt _ => x = rt
  | .ldrb rt _ => x = rt
  | .load_heap_oop rt _ => x = rt
  | .sub rd _ _ => x = rd
  | .add rd _ _ => x = rd
  | .eor rd _ _ => x = rd
  | .lsr rd _ _ => x = rd
  | .mov rd _ => x = rd
  | .lea rd _ => x = rd
  | .load_byte_map_base rd => x = rd
  | .store_at _ _ _ val => x = val
  | .pop regs => x ∈ regs
  | .pop_call_clobbered_registers => x ∈ call_clobbered_gp_registers
  | .call_VM_leaf _ _ _ => x = c_rarg0 ∨ x = c_rarg1
  | .super_call_VM_leaf _ _ _ => x = c_rarg0 ∨ x = c_rarg1
  | .mov_imm rd _ => x = rd
  | .leave => x ∈ [rfp, lr]
  | .load_at _ _ dst _ => x = dst
  | .mem2reg _ dest _ => x = dest
  | .load_parameter _ r => x = r
  | .epilogue => x ∈ [rfp, lr]
  | _ => False

instance (vm : VM) (val tmp1 tmp2 tmp3 : Register) :
    Decidable (oop_store_at_asserts vm val tmp1 tmp2 tmp3) := by
  unfold oop_store_at_asserts; exact inferInstance

/-! ## A concrete configuration and concrete states -/

/-- Configuration of the examples: regions of 4096 bytes, cards of 512 bytes,
a one-byte marking flag, young card value 2, uncompressed references, the
runtime entry points 64 bytes apart, one bit for each decorator. -/
def demo_vm : VM :=
  { byte_width_of_active := 1
    LogOfHRGrainBytes := 12
    card_shift := 9
    byte_map_base := 65536
    g1_young_card_val := 2
    UseCompressedOops := false
    encode_heap_oop := fun v => v / 8
    entry_address := fun e =>
      match e with
      | .write_ref_field_pre_entry => 1048576
      | .write_ref_field_post_entry => 1048640
      | .write_ref_array_pre_oop_entry => 1048704
      | .write_ref_array_pre_narrow_oop_entry => 1048768
      | .write_ref_array_post_entry => 1048832
    ON_WEAK_OOP_REF := 32768
    ON_PHANTOM_OOP_REF := 65536
    IS_DEST_UNINITIALIZED := 2097152
    G1C2BarrierPostNotNull := 4 }

/-- State of the examples.  The thread register holds 28672, register 2 the
store address 8200 (region 2), register 3 the new value 20496 (region 5).  The
field at 8200 holds the reference 13104; its card lies at 65552.  The SATB
storage starts at 36864, the dirty-card storage at 40960. -/
def demo_state (active satb_index dirty_index card : Nat) : Machine :=
  { regs := fun x =>
      if x = rthread then 28672 else if x = .r 2 then 8200 else if x = .r 3 then 20496 else 0
    eq_flag := false
    mem := fun l =>
      if l = ⟨.thread .satb_mark_queue_active_offset, 28672⟩ then active
      else if l = ⟨.thread .satb_mark_queue_index_offset, 28672⟩ then satb_index
      else if l = ⟨.thread .satb_mark_queue_buffer_offset, 28672⟩ then 36864
      else if l = ⟨.thread .dirty_card_queue_index_offset, 28672⟩ then dirty_index
      else if l = ⟨.thread .dirty_card_queue_buffer_offset, 28672⟩ then 40960
      else if l = ⟨.heap, 8200⟩ then 13104
      else if l = ⟨.card_table, 65552⟩ then card
      else 0
    stack := []
    trace := [] }

end G1BarrierSetAssembler

/-! # The per-group spaces of `MutableNUMASpace` -/

namespace MutableNUMASpace

/-- Modelled from the spec: `MutableSpace` is declared outside the two source
files; `sample` reads its capacity and its used size, in bytes. -/
structure MutableSpace where
  capacity_in_bytes : Nat
  used_in_bytes : Nat

/-- Modelled from the spec: `AdaptiveWeightedAverage` is declared outside the
two source files.  It is kept as the sequence of the samples it was fed,
oldest first. -/
structure AdaptiveWeightedAverage where
  samples : List Nat

/-- Modelled from the spec: `AdaptiveWeightedAverage::sample` takes one more
sample. -/
def AdaptiveWeightedAverage.sample (a : AdaptiveWeightedAverage) (new_sample : Nat) :
    AdaptiveWeightedAverage :=
  ⟨a.samples ++ [new_sample]⟩

/-- Source: `MutableNUMASpace::LGRPSpace`, the fields that `sample` uses. -/
structure LGRPSpace where
  _lgrp_id : Nat
  _space : MutableSpace
  _alloc_rate : AdaptiveWeightedAverage
  _allocation_failed : Bool

/-- Source: `LGRPSpace::set_allocation_failed`. -/
def LGRPSpace.set_allocation_failed (l : LGRPSpace) : LGRPSpace :=
  { l with _allocation_failed := true }

/-- Source: `LGRPSpace::sample`. -/
def LGRPSpace.sample (l : LGRPSpace) : LGRPSpace :=
  if l._allocation_failed then
    let alloc_rate_sample := l._space.capacity_in_bytes
    { l with _allocation_failed := false,
             _alloc_rate := l._alloc_rate.sample alloc_rate_sample }
  else
    let alloc_rate_sample := l._space.used_in_bytes
    { l with _alloc_rate := l._alloc_rate.sample alloc_rate_sample }

end MutableNUMASpace

namespace G1BarrierSetAssembler
open Register (noreg)


/-! ## The fixed registers are pairwise different -/

@[simp] theorem c_rarg0_ne_noreg : c_rarg0 ≠ noreg := by intro h; cases h
@[simp] theorem noreg_ne_c_rarg0 : noreg ≠ c_rarg0 := by intro h; cases h
@[simp] theorem c_rarg0_ne_c_rarg1 : c_rarg0 ≠ c_rarg1 := by intro h; cases h
@[simp] theorem c_rarg0_ne_rscratch1 : c_rarg0 ≠ rscratch1 := by intro h; cases h
@[simp] theorem c_rarg0_ne_rscratch2 : c_rarg0 ≠ rscratch2 := by intro h; cases h
@[simp] theorem c_rarg0_ne_rthread : c_rarg0 ≠ rthread := by intro h; cases h
@[simp] theorem c_rarg0_ne_zr : c_rarg0 ≠ zr := by intro h; cases h
@[simp] theorem c_rarg1_ne_noreg : c_rarg1 ≠ noreg := by intro h; cases h
@[simp] theorem noreg_ne_c_rarg1 : noreg ≠ c_rarg1 := by intro h; cases h
@[simp] theorem c_rarg1_ne_c_rarg0 : c_rarg1 ≠ c_rarg0 := by intro h; cases h
@[simp] theorem c_rarg1_ne_rscratch1 : c_rarg1 ≠ rscratch1 := by intro h; cases h
@[simp] theorem c_rarg1_ne_rscratch2 : c_rarg1 ≠ rscratch2 := by intro h; cases h
@[simp] theorem c_rarg1_ne_rthread : c_rarg1 ≠ rthread := by intro h; cases h
@[simp] theorem c_rarg1_ne_zr : c_rarg1 ≠ zr := by intro h; cases h
@[simp] theorem rscratch1_ne_noreg : rscratch1 ≠ noreg := by intro h; cases h
@[simp] theorem noreg_ne_rscratch1 : noreg ≠ rscratch1 := by intro h; cases h
@[simp] theorem rscratch1_ne_c_rarg0 : rscratch1 ≠ c_rarg0 := by intro h; cases h
@[simp] theorem rscratch1_ne_c_rarg1 : rscratch1 ≠ c_rarg1 := by intro h; cases h
@[simp] theorem rscratch1_ne_rscratch2 : rscratch1 ≠ rscratch2 := by intro h; cases h
@[simp] theorem rscratch1_ne_rthread : rscratch1 ≠ rthread := by intro h; cases h
@[simp] theorem rscratch1_ne_zr : rscratch1 ≠ zr := by intro h; cases h
@[simp] theorem rscratch2_ne_noreg : rscratch2 ≠ noreg := by intro h; cases h
@[simp] theorem noreg_ne_rscratch2 : noreg ≠ rscratch2 := by intro h; cases h
@[simp] theorem rscratch2_ne_c_rarg0 : rscratch2 ≠ c_rarg0 := by intro h; cases h
@[simp] theorem rscratch2_ne_c_rarg1 : rscratch2 ≠ c_rarg1 := by intro h; cases h
@[simp] theorem rscratch2_ne_rscratch1 : rscratch2 ≠ rscratch1 := by intro h; cases h
@[simp] theorem rscratch2_ne_rthread : rscratch2 ≠ rthread := by intro h; cases h
@[simp] theorem rscratch2_ne_zr : rscratch2 ≠ zr := by intro h; cases h
@[simp] theorem rthread_ne_noreg : rthread ≠ noreg := by intro h; cases h
@[simp] theorem noreg_ne_rthread : noreg ≠ rthread := by intro h; cases h
@[simp] theorem rthread_ne_c_rarg0 : rthread ≠ c_rarg0 := by intro h; cases h
@[simp] theorem rthread_ne_c_rarg1 : rthread ≠ c_rarg1 := by intro h; cases h
@[simp] theorem rthread_ne_rscratch1 : rthread ≠ rscratch1 := by intro h; cases h
@[simp] theorem rthread_ne_rscratch2 : rthread ≠ rscratch2 := by intro h; cases h
@[simp] theorem rthread_ne_zr : rthread ≠ zr := by intro h; cases h
@[simp] theorem zr_ne_noreg : zr ≠ noreg := by intro h; cases h
@[simp] theorem noreg_ne_zr : noreg ≠ zr := by intro h; cases h
@[simp] theorem zr_ne_c_rarg0 : zr ≠ c_rarg0 := by intro h; cases h
@[simp] theorem zr_ne_c_rarg1 : zr ≠ c_rarg1 := by intro h; cases h
@[simp] theorem zr_ne_rscratch1 : zr ≠ rscratch1 := by intro h; cases h
@[simp] theorem zr_ne_rscratch2 : zr ≠ rscratch2 := by intro h; cases h
@[simp] theorem zr_ne_rthread : zr ≠ rthread := by intro h; cases h

/-! ## Reading registers and memory through state updates -/

namespace Machine

@[simp] theorem mem_set (s : Machine) (x : Register) (v : Nat) : (s.set x v).mem = s.mem := by
  simp only [Machine.set, Machine.log, Machine.write, Machine.compare, Machine.reg, do_push]
@[simp] theorem trace_set (s : Machine) (x : Register) (v : Nat) :
    (s.set x v).trace = s.trace := by
  simp only [Machine.set, Machine.log, Machine.write, Machine.compare, Machine.reg, do_push]
@[simp] theorem stack_set (s : Machine) (x : Register) (v : Nat) :
    (s.set x v).stack = s.stack := by
  simp only [Machine.set, Machine.log, Machine.write, Machine.compare, Machine.reg, do_push]
@[simp] theorem eq_flag_set (s : Machine) (x : Register) (v : Nat) :
    (s.set x v).eq_flag = s.eq_flag := by
  simp only [Machine.set, Machine.log, Machine.write, Machine.compare, Machine.reg, do_push]
@[simp] theorem reg_log (s : Machine) (e : Event) (x : Register) : (s.log e).reg x = s.reg x := by
  simp only [Machine.set, Machine.log, Machine.write, Machine.compare, Machine.reg, do_push]
@[simp] theorem mem_log (s : Machine) (e : Event) : (s.log e).mem = s.mem := by
  simp only [Machine.set, Machine.log, Machine.write, Machine.compare, Machine.reg, do_push]
@[simp] theorem trace_log (s : Machine) (e : Event) : (s.log e).trace = s.trace ++ [e] := by
  simp only [Machine.set, Machine.log, Machine.write, Machine.compare, Machine.reg, do_push]
@[simp] theorem stack_log (s : Machine) (e : Event) : (s.log e).stack = s.stack := by
  simp only [Machine.set, Machine.log, Machine.write, Machine.compare, Machine.reg, do_push]
@[simp] theorem eq_flag_log (s : Machine) (e : Event) : (s.log e).eq_flag = s.eq_flag := by
  simp only [Machine.set, Machine.log, Machine.write, Machine.compare, Machine.reg, do_push]
@[simp] theorem reg_write (s : Machine) (l : Loc) (v : Nat) (x : Register) :
    (s.write l v).reg x = s.reg x := by
  simp only [Machine.set, Machine.log, Machine.write, Machine.compare, Machine.reg, do_push]
@[simp] theorem trace_write (s : Machine) (l : Loc) (v : Nat) :
    (s.write l v).trace = s.trace ++ [Event.store l v] := by
  simp only [Machine.set, Machine.log, Machine.write, Machine.compare, Machine.reg, do_push]
@[simp] theorem stack_write (s : Machine) (l : Loc) (v : Nat) :
    (s.write l v).stack = s.stack := by
  simp only [Machine.set, Machine.log, Machine.write, Machine.compare, Machine.reg, do_push]
@[simp] theorem eq_flag_write (s : Machine) (l : Loc) (v : Nat) :
    (s.write l v).eq_flag = s.eq_flag := by
  simp only [Machine.set, Machine.log, Machine.write, Machine.compare, Machine.reg, do_push]
@[simp] theorem reg_compare (s : Machine) (b : Bool) (x : Register) :
    (s.compare b).reg x = s.reg x := by
  simp only [Machine.set, Machine.log, Machine.write, Machine.compare, Machine.reg, do_push]
@[simp] theorem mem_compare (s : Machine) (b : Bool) : (s.compare b).mem = s.mem := by
  simp only [Machine.set, Machine.log, Machine.write, Machine.compare, Machine.reg, do_push]
@[simp] theorem trace_compare (s : Machine) (b : Bool) : (s.compare b).trace = s.trace := by
  simp only [Machine.set, Machine.log, Machine.write, Machine.compare, Machine.reg, do_push]
@[simp] theorem stack_compare (s : Machine) (b : Bool) : (s.compare b).stack = s.stack := by
  simp only [Machine.set, Machine.log, Machine.write, Machine.compare, Machine.reg, do_push]
@[simp] theorem eq_flag_compare (s : Machine) (b : Bool) : (s.compare b).eq_flag = b := by
  simp only [Machine.set, Machine.log, Machine.write, Machine.compare, Machine.reg, do_push]

@[simp] theorem mem_write (s : Machine) (l : Loc) (v : Nat) (k : Loc) :
    (s.write l v).mem k = if k = l then v else s.mem k := by
  simp only [Machine.set, Machine.log, Machine.write, Machine.compare, Machine.reg, do_push]

theorem reg_set (s : Machine) (x : Register) (v : Nat) (y : Register) :
    (s.set x v).reg y = if y = zr then 0 else if y = x then v % 2 ^ 64 else s.reg y := by
  unfold reg set
  by_cases h1 : y = zr <;> by_cases h2 : y = x <;> simp [h1, h2]

@[simp] theorem reg_set_ne (s : Machine) (x : Register) (v : Nat) (y : Register) (h : y ≠ x) :
    (s.set x v).reg y = s.reg y := by
  rw [reg_set]; simp only [h, if_false]; unfold reg; split <;> rfl

@[simp] theorem reg_set_self (s : Machine) (x : Register) (v : Nat) (h : x ≠ zr) :
    (s.set x v).reg x = v % 2 ^ 64 := by
  rw [reg_set]; simp [h]

theorem reg_lt (s : Machine) (x : Register) : s.reg x < 2 ^ 64 := by
  unfold reg; split
  · exact Nat.two_pow_pos 64
  · exact Nat.mod_lt _ (Nat.two_pow_pos 64)

@[simp] theorem reg_mod (s : Machine) (x : Register) : s.reg x % 2 ^ 64 = s.reg x :=
  Nat.mod_eq_of_lt (reg_lt s x)

@[simp] theorem reg_zr (s : Machine) : s.reg zr = 0 := by simp [reg]

end Machine

@[simp] theorem reg_do_push (regs : List Register) (s : Machine) (x : Register) :
    (do_push regs s).reg x = s.reg x := by
  simp only [Machine.set, Machine.log, Machine.write, Machine.compare, Machine.reg, do_push]
@[simp] theorem mem_do_push (regs : List Register) (s : Machine) : (do_push regs s).mem = s.mem := by
  simp only [Machine.set, Machine.log, Machine.write, Machine.compare, Machine.reg, do_push]
@[simp] theorem trace_do_push (regs : List Register) (s : Machine) :
    (do_push regs s).trace = s.trace := by
  simp only [Machine.set, Machine.log, Machine.write, Machine.compare, Machine.reg, do_push]

@[simp] theorem mem_do_pop (regs : List Register) (s : Machine) : (do_pop regs s).mem = s.mem := by
  induction regs generalizing s with
  | nil => rfl
  | cons x rest ih => simp [do_pop, ih]

@[simp] theorem trace_do_pop (regs : List Register) (s : Machine) :
    (do_pop regs s).trace = s.trace := by
  induction regs generalizing s with
  | nil => rfl
  | cons x rest ih => simp [do_pop, ih]

theorem reg_do_pop (regs : List Register) (s : Machine) (x : Register) (h : x ∉ regs) :
    (do_pop regs s).reg x = s.reg x := by
  induction regs generalizing s with
  | nil => rfl
  | cons y rest ih =>
    have hy : x ≠ y := fun e => h (by simp [e])
    have hr : x ∉ rest := fun e => h (by simp [e])
    rw [do_pop, ih _ hr, Machine.reg_set_ne _ _ _ _ hy]
    rfl

@[simp] theorem reg_pass_arg_mem (t a : Register) (s : Machine) : (pass_arg t a s).mem = s.mem := by
  unfold pass_arg; split <;> rfl
@[simp] theorem trace_pass_arg (t a : Register) (s : Machine) :
    (pass_arg t a s).trace = s.trace := by
  unfold pass_arg; split <;> rfl

@[simp] theorem reg_pass_arg_target (t a : Register) (s : Machine) (h : t ≠ zr) :
    (pass_arg t a s).reg t = s.reg a := by
  unfold pass_arg; split
  · rename_i e; rw [e]
  · rw [Machine.reg_set_self _ _ _ h, Machine.reg_mod]

@[simp] theorem reg_pass_arg_ne (t a : Register) (s : Machine) (x : Register) (h : x ≠ t) :
    (pass_arg t a s).reg x = s.reg x := by
  unfold pass_arg; split
  · rfl
  · exact Machine.reg_set_ne _ _ _ _ h

@[simp] theorem mod_8_mod_64 (n : Nat) : n % 2 ^ 8 % 2 ^ 64 = n % 2 ^ 8 :=
  Nat.mod_eq_of_lt (lt_of_lt_of_le (Nat.mod_lt _ (Nat.two_pow_pos 8)) (by norm_num))

@[simp] theorem mod_32_mod_64 (n : Nat) : n % 2 ^ 32 % 2 ^ 64 = n % 2 ^ 32 :=
  Nat.mod_eq_of_lt (lt_of_lt_of_le (Nat.mod_lt _ (Nat.two_pow_pos 32)) (by norm_num))

@[simp] theorem mod_8_mod_32 (n : Nat) : n % 2 ^ 8 % 2 ^ 32 = n % 2 ^ 8 :=
  Nat.mod_eq_of_lt (lt_of_lt_of_le (Nat.mod_lt _ (Nat.two_pow_pos 8)) (by norm_num))

@[simp] theorem wordSize_mod : wordSize % 2 ^ 64 = wordSize := by
  unfold wordSize; norm_num

attribute [simp] run step do_load do_store Address.loc Address.of_thread Address.of_queue
  Address.of_card Address.of_heap Insn.binds

/-! ## Execution of code lists -/

theorem run_append (vm : VM) (a b : List Insn) (p : Option Label) (s : Machine) :
    run vm (a ++ b) p s = run vm b (run vm a p s).2 (run vm a p s).1 := by
  induction a generalizing p s with
  | nil => rfl
  | cons i rest ih =>
    cases p with
    | none => simp only [List.cons_append, run]; exact ih _ _
    | some l => simp only [List.cons_append, run]; exact ih _ _

/-- A property of pairs of states that every single instruction respects, and
that is reflexive and transitive, holds between the start and the end of any
code, whatever is executed or skipped. -/
theorem run_preserves (vm : VM) (R : Machine → Machine → Prop)
    (hrefl : ∀ s, R s s) (htrans : ∀ a b c, R a b → R b c → R a c)
    (code : List Insn) (h : ∀ i ∈ code, ∀ s, R s (step vm i s).1)
    (p : Option Label) (s : Machine) : R s (run vm code p s).1 := by
  induction code generalizing p s with
  | nil => exact hrefl s
  | cons i rest ih =>
    have hrest : ∀ j ∈ rest, ∀ s, R s (step vm j s).1 := fun j hj => h j (by simp [hj])
    cases p with
    | none =>
      simp only [run]
      exact htrans _ _ _ (h i (by simp) s) (ih hrest _ _)
    | some l =>
      simp only [run]
      exact ih hrest _ _



/-! ## Arithmetic of the barrier tests -/

theorem shiftRight_xor (a b k : Nat) : (a ^^^ b) >>> k = (a >>> k) ^^^ (b >>> k) := by
  apply Nat.eq_of_testBit_eq
  intro i
  simp only [Nat.testBit_shiftRight, Nat.testBit_xor]

/-- The region test of the post-barrier: the shifted exclusive-or is zero
exactly for two addresses of one region. -/
theorem region_test_eq_zero (vm : VM) (a b : Nat) :
    (a ^^^ b) >>> vm.LogOfHRGrainBytes = 0 ↔ same_region vm a b := by
  unfold same_region
  rw [shiftRight_xor, Nat.xor_eq_zero, Nat.shiftRight_eq_div_pow, Nat.shiftRight_eq_div_pow]

@[simp] theorem reg_xor_mod (s t : Machine) (x y : Register) :
    (s.reg x ^^^ t.reg y) % 2 ^ 64 = s.reg x ^^^ t.reg y :=
  Nat.mod_eq_of_lt (Nat.xor_lt_two_pow (Machine.reg_lt s x) (Machine.reg_lt t y))

theorem shiftRight_lt (n k : Nat) (h : n < 2 ^ 64) : n >>> k < 2 ^ 64 := by
  rw [Nat.shiftRight_eq_div_pow]
  exact lt_of_le_of_lt (Nat.div_le_self _ _) h

@[simp] theorem reg_shiftRight_mod (s : Machine) (x : Register) (k : Nat) :
    (s.reg x >>> k) % 2 ^ 64 = s.reg x >>> k :=
  Nat.mod_eq_of_lt (shiftRight_lt _ _ (Machine.reg_lt s x))

@[simp] theorem reg_xor_shiftRight_mod (s t : Machine) (x y : Register) (k : Nat) :
    ((s.reg x ^^^ t.reg y) >>> k) % 2 ^ 64 = (s.reg x ^^^ t.reg y) >>> k :=
  Nat.mod_eq_of_lt (shiftRight_lt _ _ (Nat.xor_lt_two_pow (Machine.reg_lt s x) (Machine.reg_lt t y)))

theorem marking_active_lt (vm : VM) (s : Machine) : marking_active vm s < 2 ^ 32 := by
  unfold marking_active
  split
  · exact Nat.mod_lt _ (Nat.two_pow_pos 32)
  · exact lt_of_lt_of_le (Nat.mod_lt _ (Nat.two_pow_pos 8)) (by norm_num)

/-! ## What the assertions give -/

theorem pre_asserts_ne {obj pre_val thread tmp1 tmp2 : Register} {expand_call : Bool}
    (h : g1_write_barrier_pre_asserts obj pre_val thread tmp1 tmp2 expand_call) :
    thread = rthread ∧ pre_val ≠ noreg ∧ tmp1 ≠ noreg ∧ tmp2 ≠ noreg ∧
    pre_val ≠ tmp1 ∧ pre_val ≠ tmp2 ∧ tmp1 ≠ tmp2 ∧
    obj ≠ pre_val ∧ obj ≠ tmp1 ∧ obj ≠ tmp2 := by
  obtain ⟨h1, h2, ⟨h3, h4, h5⟩, -⟩ := h
  unfold different_registers at h2
  by_cases ho : obj = noreg
  · subst ho
    simp [List.filter, h3, h4, h5] at h2
    refine ⟨h1, h3, h4, h5, h2.1.1, h2.1.2, h2.2, ?_, ?_, ?_⟩ <;> exact fun e => by simp_all
  · simp [List.filter, h3, h4, h5, ho] at h2
    exact ⟨h1, h3, h4, h5, h2.2.1.1, h2.2.1.2, h2.2.2, h2.1.1, h2.1.2.1, h2.1.2.2⟩

theorem post_asserts_ne {store_addr new_val thread tmp1 tmp2 : Register}
    (h : g1_write_barrier_post_asserts store_addr new_val thread tmp1 tmp2) :
    thread = rthread ∧
    (store_addr ≠ new_val ∧ store_addr ≠ rthread ∧ store_addr ≠ tmp1 ∧ store_addr ≠ tmp2 ∧
      store_addr ≠ rscratch1) ∧
    (new_val ≠ rthread ∧ new_val ≠ tmp1 ∧ new_val ≠ tmp2 ∧ new_val ≠ rscratch1) ∧
    (tmp1 ≠ rthread ∧ tmp2 ≠ rthread) ∧
    (tmp1 ≠ tmp2 ∧ tmp1 ≠ rscratch1 ∧ tmp2 ≠ rscratch1) ∧
    (store_addr ≠ noreg ∧ new_val ≠ noreg ∧ tmp1 ≠ noreg ∧ tmp2 ≠ noreg) := by
  obtain ⟨h1, h2, ⟨h3, h4, h5, h6⟩⟩ := h
  subst h1
  unfold different_registers at h2
  simp [List.filter, h3, h4, h5, h6] at h2
  refine ⟨rfl, ⟨?_, ?_, ?_, ?_, ?_⟩, ⟨?_, ?_, ?_, ?_⟩, ⟨?_, ?_⟩, ⟨?_, ?_, ?_⟩, ⟨h3, h4, h5, h6⟩⟩ <;>
    (intro e; simp_all)


/-! ## Paths through the pre-barrier -/

theorem pre_inactive (vm : VM) (obj pre_val tmp1 tmp2 : Register) (tosca_live expand_call : Bool)
    (s : Machine) (h : marking_active vm s = 0) :
    run vm (g1_write_barrier_pre vm obj pre_val rthread tmp1 tmp2 tosca_live expand_call) none s =
      ((s.log (Event.load (thread_field s .satb_mark_queue_active_offset))).set tmp1 0, none) := by
  unfold marking_active thread_field at h
  by_cases hw : vm.byte_width_of_active = 4 <;> simp only [hw, if_true, if_false] at h <;>
  by_cases ho : obj = noreg <;> cases expand_call <;>
  by_cases hz : tmp1 = zr <;>
  simp [g1_write_barrier_pre, generate_pre_barrier_fast_path, generate_pre_barrier_slow_path,
    generate_queue_test_and_insertion, thread_field, hw, ho, h, hz, -Nat.reducePow]

theorem pre_insert (vm : VM) (obj pre_val tmp1 tmp2 : Register) (tosca_live expand_call : Bool)
    (s : Machine)
    (hA : g1_write_barrier_pre_asserts obj pre_val rthread tmp1 tmp2 expand_call)
    (hT : is_temp pre_val ∧ is_temp tmp1 ∧ is_temp tmp2)
    (hact : marking_active vm s ≠ 0)
    (hP : previous_value s obj pre_val ≠ 0)
    (hi : queue_index s .satb_mark_queue_index_offset ≠ 0) :
    ∀ t, t = exec vm (g1_write_barrier_pre vm obj pre_val rthread tmp1 tmp2 tosca_live
        expand_call) s →
      exit_label vm (g1_write_barrier_pre vm obj pre_val rthread tmp1 tmp2 tosca_live
        expand_call) s = none ∧
      (∀ k, t.mem k =
        if k = insertion_slot s .satb_mark_queue_index_offset .satb_mark_queue_buffer_offset
          then previous_value s obj pre_val
        else if k = thread_field s .satb_mark_queue_index_offset
          then next_index (queue_index s .satb_mark_queue_index_offset)
        else s.mem k) ∧
      t.trace = s.trace ++
        ([Event.load (thread_field s .satb_mark_queue_active_offset)] ++
         (if obj ≠ noreg then [Event.load (field_loc (s.reg obj))] else []) ++
         [Event.load (thread_field s .satb_mark_queue_index_offset),
          Event.store (thread_field s .satb_mark_queue_index_offset)
            (next_index (queue_index s .satb_mark_queue_index_offset)),
          Event.load (thread_field s .satb_mark_queue_buffer_offset),
          Event.store (insertion_slot s .satb_mark_queue_index_offset
            .satb_mark_queue_buffer_offset) (previous_value s obj pre_val)]) ∧
      (∀ x, x ≠ pre_val → x ≠ tmp1 → x ≠ tmp2 → t.reg x = s.reg x) := by
  obtain ⟨-, n1, n2, n3, d1, d2, d3, d4, d5, d6⟩ := pre_asserts_ne hA
  obtain ⟨⟨z1, t1⟩, ⟨z2, t2⟩, ⟨z3, t3⟩⟩ := hT
  unfold marking_active thread_field at hact
  unfold previous_value field_loc at hP
  unfold queue_index thread_field at hi
  intro t ht; subst ht
  by_cases hw : vm.byte_width_of_active = 4 <;> simp only [hw, if_true, if_false] at hact <;>
  by_cases ho : obj = noreg <;>
  simp only [ho, ne_eq, not_true, not_false_eq_true, if_true, if_false] at hP <;>
  cases expand_call <;>
  (refine ⟨?_, ?_, ?_, ?_⟩ <;> try intro x hx1 hx2 hx3) <;>
  simp [exec, exit_label, g1_write_barrier_pre, generate_pre_barrier_fast_path,
    generate_pre_barrier_slow_path, generate_queue_test_and_insertion,
    thread_field, insertion_slot, queue_slot,
    queue_index, queue_buffer, next_index, previous_value, field_loc, hw, ho, hact, hP, hi,
    n1, n2, n3, d1, d2, d3, d4, d5, d6, z1, z2, z3, t1, t2, t3,
    d1.symm, d2.symm, d3.symm, t1.symm, t2.symm, t3.symm, -Nat.reducePow, *]

theorem pre_full (vm : VM) (obj pre_val tmp1 tmp2 : Register) (tosca_live expand_call : Bool)
    (s : Machine)
    (hA : g1_write_barrier_pre_asserts obj pre_val rthread tmp1 tmp2 expand_call)
    (hT : is_temp pre_val ∧ is_temp tmp1 ∧ is_temp tmp2)
    (hact : marking_active vm s ≠ 0)
    (hP : previous_value s obj pre_val ≠ 0)
    (hi : queue_index s .satb_mark_queue_index_offset = 0) :
    ∀ t, t = exec vm (g1_write_barrier_pre vm obj pre_val rthread tmp1 tmp2 tosca_live
        expand_call) s →
      exit_label vm (g1_write_barrier_pre vm obj pre_val rthread tmp1 tmp2 tosca_live
        expand_call) s = none ∧
      t.mem = s.mem ∧
      t.trace = s.trace ++
        ([Event.load (thread_field s .satb_mark_queue_active_offset)] ++
         (if obj ≠ noreg then [Event.load (field_loc (s.reg obj))] else []) ++
         [Event.load (thread_field s .satb_mark_queue_index_offset),
          Event.call .write_ref_field_pre_entry (previous_value s obj pre_val) (s.reg rthread)]) := by
  obtain ⟨-, n1, n2, n3, d1, d2, d3, d4, d5, d6⟩ := pre_asserts_ne hA
  have hc := hA.2.2.2
  obtain ⟨⟨z1, t1⟩, ⟨z2, t2⟩, ⟨z3, t3⟩⟩ := hT
  unfold marking_active thread_field at hact
  unfold previous_value field_loc at hP
  unfold queue_index thread_field at hi
  intro t ht; subst ht
  by_cases hw : vm.byte_width_of_active = 4 <;> simp only [hw, if_true, if_false] at hact <;>
  by_cases ho : obj = noreg <;>
  simp only [ho, ne_eq, not_true, not_false_eq_true, if_true, if_false] at hP <;>
  cases expand_call <;>
  simp [exec, exit_label, g1_write_barrier_pre, generate_pre_barrier_fast_path,
    generate_pre_barrier_slow_path, generate_queue_test_and_insertion, do_call,
    thread_field, previous_value, field_loc, hw, ho, hact, hP, hi,
    n1, n2, n3, d1, d2, d3, d4, d5, d6, z1, z2, z3, t1, t2, t3,
    d1.symm, d2.symm, d3.symm, t1.symm, t2.symm, t3.symm, hc, -Nat.reducePow]


/-! ## Paths through the post-barrier -/

theorem post_no_op (vm : VM) (store_addr new_val tmp1 tmp2 : Register) (s : Machine)
    (hA : g1_write_barrier_post_asserts store_addr new_val rthread tmp1 tmp2)
    (h : same_region vm (s.reg store_addr) (s.reg new_val) ∨ s.reg new_val = 0) :
    exit_label vm (g1_write_barrier_post vm store_addr new_val rthread tmp1 tmp2) s = none ∧
    (exec vm (g1_write_barrier_post vm store_addr new_val rthread tmp1 tmp2) s).mem = s.mem ∧
    (exec vm (g1_write_barrier_post vm store_addr new_val rthread tmp1 tmp2) s).trace =
      s.trace := by
  obtain ⟨-, ⟨a1, a2, a3, a4, a5⟩, ⟨b1, b2, b3, b4⟩, ⟨c1, c2⟩, ⟨e1, e2, e3⟩, ⟨n1, n2, n3, n4⟩⟩ :=
    post_asserts_ne hA
  by_cases hz : tmp1 = zr
  · subst hz
    simp [exec, exit_label, g1_write_barrier_post, generate_post_barrier_fast_path,
      generate_post_barrier_slow_path, generate_queue_test_and_insertion, -Nat.reducePow]
  · by_cases hr : same_region vm (s.reg store_addr) (s.reg new_val)
    · have hx := (region_test_eq_zero vm _ _).mpr hr
      simp [exec, exit_label, g1_write_barrier_post, generate_post_barrier_fast_path,
        generate_post_barrier_slow_path, generate_queue_test_and_insertion, hz, hx,
        -Nat.reducePow]
    · have hx : ¬ (s.reg store_addr ^^^ s.reg new_val) >>> vm.LogOfHRGrainBytes = 0 :=
        fun e => hr ((region_test_eq_zero vm _ _).mp e)
      have hv : s.reg new_val = 0 := h.resolve_left hr
      rw [hv, Nat.xor_zero] at hx
      simp [exec, exit_label, g1_write_barrier_post, generate_post_barrier_fast_path,
        generate_post_barrier_slow_path, generate_queue_test_and_insertion, hz, hx, hv,
        b2, -Nat.reducePow]

theorem post_young (vm : VM) (store_addr new_val tmp1 tmp2 : Register) (s : Machine)
    (hA : g1_write_barrier_post_asserts store_addr new_val rthread tmp1 tmp2)
    (hz : tmp1 ≠ zr ∧ tmp2 ≠ zr)
    (hr : ¬ same_region vm (s.reg store_addr) (s.reg new_val))
    (hv : s.reg new_val ≠ 0)
    (hy : card_is_young vm s (card_address vm (s.reg store_addr))) :
    ∀ t, t = exec vm (g1_write_barrier_post vm store_addr new_val rthread tmp1 tmp2) s →
    exit_label vm (g1_write_barrier_post vm store_addr new_val rthread tmp1 tmp2) s = none ∧
    t.mem = s.mem ∧
    t.trace = s.trace ++ [Event.load (card_loc (card_address vm (s.reg store_addr)))] ∧
    t.stack = s.stack ∧
    (∀ x, x ≠ tmp1 → x ≠ tmp2 → t.reg x = s.reg x) := by
  obtain ⟨-, ⟨a1, a2, a3, a4, a5⟩, ⟨b1, b2, b3, b4⟩, ⟨c1, c2⟩, ⟨e1, e2, e3⟩, ⟨n1, n2, n3, n4⟩⟩ :=
    post_asserts_ne hA
  obtain ⟨z1, z2⟩ := hz
  have hx : ¬ (s.reg store_addr ^^^ s.reg new_val) >>> vm.LogOfHRGrainBytes = 0 :=
    fun e => hr ((region_test_eq_zero vm _ _).mp e)
  unfold card_is_young card_value card_loc card_address at hy
  intro t ht; subst ht
  (refine ⟨?_, ?_, ?_, ?_, ?_⟩ <;> try intro x hx1 hx2) <;>
  simp [exec, exit_label, g1_write_barrier_post, generate_post_barrier_fast_path,
    generate_post_barrier_slow_path, generate_queue_test_and_insertion,
    card_loc, card_address, hx, hv, hy,
    a1, a2, a3, a4, a5, b1, b2, b3, b4, c1, c2, e1, e2, e3, z1, z2, n1, n2, n3, n4,
    e1.symm, -Nat.reducePow, *]

theorem post_dirty (vm : VM) (store_addr new_val tmp1 tmp2 : Register) (s : Machine)
    (hA : g1_write_barrier_post_asserts store_addr new_val rthread tmp1 tmp2)
    (hz : tmp1 ≠ zr ∧ tmp2 ≠ zr)
    (hr : ¬ same_region vm (s.reg store_addr) (s.reg new_val))
    (hv : s.reg new_val ≠ 0)
    (hy : ¬ card_is_young vm s (card_address vm (s.reg store_addr)))
    (hd : card_value s (card_address vm (s.reg store_addr)) = 0) :
    exit_label vm (g1_write_barrier_post vm store_addr new_val rthread tmp1 tmp2) s = none ∧
    (exec vm (g1_write_barrier_post vm store_addr new_val rthread tmp1 tmp2) s).mem = s.mem ∧
    (exec vm (g1_write_barrier_post vm store_addr new_val rthread tmp1 tmp2) s).trace =
      s.trace ++ [Event.load (card_loc (card_address vm (s.reg store_addr))), Event.membar,
        Event.load (card_loc (card_address vm (s.reg store_addr)))] := by
  obtain ⟨-, ⟨a1, a2, a3, a4, a5⟩, ⟨b1, b2, b3, b4⟩, ⟨c1, c2⟩, ⟨e1, e2, e3⟩, ⟨n1, n2, n3, n4⟩⟩ :=
    post_asserts_ne hA
  obtain ⟨z1, z2⟩ := hz
  have hx : ¬ (s.reg store_addr ^^^ s.reg new_val) >>> vm.LogOfHRGrainBytes = 0 :=
    fun e => hr ((region_test_eq_zero vm _ _).mp e)
  unfold card_is_young card_value card_loc card_address at hy
  unfold card_value card_loc card_address at hd
  rw [hd] at hy
  simp [exec, exit_label, g1_write_barrier_post, generate_post_barrier_fast_path,
    generate_post_barrier_slow_path, generate_queue_test_and_insertion,
    card_loc, card_address, hx, hv, hy, hd,
    a1, a2, a3, a4, a5, b1, b2, b3, b4, c1, c2, e1, e2, e3, z1, z2, n1, n2, n3, n4,
    e1.symm, -Nat.reducePow]

theorem post_insert (vm : VM) (store_addr new_val tmp1 tmp2 : Register) (s : Machine)
    (hA : g1_write_barrier_post_asserts store_addr new_val rthread tmp1 tmp2)
    (hz : tmp1 ≠ zr ∧ tmp2 ≠ zr)
    (hr : ¬ same_region vm (s.reg store_addr) (s.reg new_val))
    (hv : s.reg new_val ≠ 0)
    (hy : ¬ card_is_young vm s (card_address vm (s.reg store_addr)))
    (hd : card_value s (card_address vm (s.reg store_addr)) ≠ 0)
    (hi : queue_index s .dirty_card_queue_index_offset ≠ 0) :
    ∀ t, t = exec vm (g1_write_barrier_post vm store_addr new_val rthread tmp1 tmp2) s →
    exit_label vm (g1_write_barrier_post vm store_addr new_val rthread tmp1 tmp2) s = none ∧
    (∀ k, t.mem k =
      if k = insertion_slot s .dirty_card_queue_index_offset .dirty_card_queue_buffer_offset
        then card_address vm (s.reg store_addr)
      else if k = thread_field s .dirty_card_queue_index_offset
        then next_index (queue_index s .dirty_card_queue_index_offset)
      else if k = card_loc (card_address vm (s.reg store_addr)) then 0
      else s.mem k) ∧
    t.trace = s.trace ++
      [Event.load (card_loc (card_address vm (s.reg store_addr))), Event.membar,
       Event.load (card_loc (card_address vm (s.reg store_addr))),
       Event.store (card_loc (card_address vm (s.reg store_addr))) 0,
       Event.load (thread_field s .dirty_card_queue_index_offset),
       Event.store (thread_field s .dirty_card_queue_index_offset)
         (next_index (queue_index s .dirty_card_queue_index_offset)),
       Event.load (thread_field s .dirty_card_queue_buffer_offset),
       Event.store (insertion_slot s .dirty_card_queue_index_offset
         .dirty_card_queue_buffer_offset) (card_address vm (s.reg store_addr))] := by
  obtain ⟨-, ⟨a1, a2, a3, a4, a5⟩, ⟨b1, b2, b3, b4⟩, ⟨c1, c2⟩, ⟨e1, e2, e3⟩, ⟨n1, n2, n3, n4⟩⟩ :=
    post_asserts_ne hA
  obtain ⟨z1, z2⟩ := hz
  have hx : ¬ (s.reg store_addr ^^^ s.reg new_val) >>> vm.LogOfHRGrainBytes = 0 :=
    fun e => hr ((region_test_eq_zero vm _ _).mp e)
  unfold card_is_young card_value card_loc card_address at hy
  unfold card_value card_loc card_address at hd
  unfold queue_index thread_field at hi
  intro t ht; subst ht
  refine ⟨?_, ?_, ?_⟩ <;>
  simp [exec, exit_label, g1_write_barrier_post, generate_post_barrier_fast_path,
    generate_post_barrier_slow_path, generate_queue_test_and_insertion,
    card_loc, card_address, thread_field, insertion_slot, queue_slot, queue_index, queue_buffer,
    next_index, hx, hv, hy, hd, hi,
    a1, a2, a3, a4, a5, b1, b2, b3, b4, c1, c2, e1, e2, e3, z1, z2, n1, n2, n3, n4,
    e1.symm, e2.symm, e3.symm, c1.symm, c2.symm, -Nat.reducePow]

theorem post_full (vm : VM) (store_addr new_val tmp1 tmp2 : Register) (s : Machine)
    (hA : g1_write_barrier_post_asserts store_addr new_val rthread tmp1 tmp2)
    (hz : tmp1 ≠ zr ∧ tmp2 ≠ zr)
    (hr : ¬ same_region vm (s.reg store_addr) (s.reg new_val))
    (hv : s.reg new_val ≠ 0)
    (hy : ¬ card_is_young vm s (card_address vm (s.reg store_addr)))
    (hd : card_value s (card_address vm (s.reg store_addr)) ≠ 0)
    (hi : queue_index s .dirty_card_queue_index_offset = 0) :
    ∀ t, t = exec vm (g1_write_barrier_post vm store_addr new_val rthread tmp1 tmp2) s →
    exit_label vm (g1_write_barrier_post vm store_addr new_val rthread tmp1 tmp2) s = none ∧
    (∀ k, t.mem k =
      if k = card_loc (card_address vm (s.reg store_addr)) then 0 else s.mem k) ∧
    t.trace = s.trace ++
      [Event.load (card_loc (card_address vm (s.reg store_addr))), Event.membar,
       Event.load (card_loc (card_address vm (s.reg store_addr))),
       Event.store (card_loc (card_address vm (s.reg store_addr))) 0,
       Event.load (thread_field s .dirty_card_queue_index_offset),
       Event.call .write_ref_field_post_entry (card_address vm (s.reg store_addr))
         (s.reg rthread)] := by
  obtain ⟨-, ⟨a1, a2, a3, a4, a5⟩, ⟨b1, b2, b3, b4⟩, ⟨c1, c2⟩, ⟨e1, e2, e3⟩, ⟨n1, n2, n3, n4⟩⟩ :=
    post_asserts_ne hA
  obtain ⟨z1, z2⟩ := hz
  have hx : ¬ (s.reg store_addr ^^^ s.reg new_val) >>> vm.LogOfHRGrainBytes = 0 :=
    fun e => hr ((region_test_eq_zero vm _ _).mp e)
  unfold card_is_young card_value card_loc card_address at hy
  unfold card_value card_loc card_address at hd
  unfold queue_index thread_field at hi
  intro t ht; subst ht
  refine ⟨?_, ?_, ?_⟩ <;>
  simp [exec, exit_label, g1_write_barrier_post, generate_post_barrier_fast_path,
    generate_post_barrier_slow_path, generate_queue_test_and_insertion, do_call,
    card_loc, card_address, thread_field, hx, hv, hy, hd, hi,
    a1, a2, a3, a4, a5, b1, b2, b3, b4, c1, c2, e1, e2, e3, z1, z2, n1, n2, n3, n4,
    e1.symm, e2.symm, e3.symm, c1.symm, c2.symm, -Nat.reducePow]


/-! ## Frame properties, instruction by instruction -/

theorem quiet_refl (cell : Loc → Bool) (action : Event → Bool) (s : Machine) :
    quiet cell action s s :=
  ⟨fun _ _ => rfl, rfl⟩

theorem quiet_trans (cell : Loc → Bool) (action : Event → Bool) (a b c : Machine)
    (h1 : quiet cell action a b) (h2 : quiet cell action b c) : quiet cell action a c :=
  ⟨fun l hl => (h2.1 l hl).trans (h1.1 l hl), h2.2.trans h1.2⟩

theorem quiet_of_mem_trace (cell : Loc → Bool) (action : Event → Bool) (s t : Machine)
    (hm : t.mem = s.mem) (ht : t.trace = s.trace) : quiet cell action s t := by
  refine ⟨fun l _ => by rw [hm], by rw [ht]⟩

theorem quiet_load (cell : Loc → Bool) (action : Event → Bool) (s : Machine)
    (bits : Nat) (rt : Register) (a : Address)
    (h : ∀ n, action (Event.load ⟨a.space, n⟩) = false) :
    quiet cell action s (do_load bits rt a s) := by
  refine ⟨fun l _ => by simp, ?_⟩
  simp [List.filter_append, h]

theorem quiet_store (cell : Loc → Bool) (action : Event → Bool) (s : Machine)
    (l : Loc) (v : Nat)
    (h : cell l = false ∧ action (Event.store l v) = false) :
    quiet cell action s (s.write l v) := by
  refine ⟨fun k hk => ?_, ?_⟩
  · have : k ≠ l := fun e => by rw [e, h.1] at hk; exact Bool.noConfusion hk
    simp [this]
  · simp [List.filter_append, h.2]

theorem quiet_call (cell : Loc → Bool) (action : Event → Bool) (s : Machine)
    (ep : G1BarrierSetRuntime) (h : ∀ a b, action (Event.call ep a b) = false) :
    quiet cell action s (do_call ep s) := by
  refine ⟨fun l _ => by simp [do_call], ?_⟩
  simp [do_call, List.filter_append, h]

theorem step_quiet (vm : VM) (cell : Loc → Bool) (action : Event → Bool) (i : Insn)
    (h : i.quiet cell action) (s : Machine) : quiet cell action s (step vm i s).1 := by
  cases i with
  | ldr rt a => exact quiet_load _ _ _ _ _ _ h
  | ldrw rt a => exact quiet_load _ _ _ _ _ _ h
  | ldrb rt a => exact quiet_load _ _ _ _ _ _ h
  | load_heap_oop rt a => exact quiet_load _ _ _ _ _ _ h
  | str rt a => exact quiet_store _ _ _ _ _ (h _ _)
  | strb rt a => exact quiet_store _ _ _ _ _ (h _ _)
  | store_at d ty a val =>
    have hq := quiet_store cell action s (a.loc s) (if val = noreg then 0 else s.reg val) (h _ _)
    simp only [step]
    split
    · exact quiet_trans _ _ _ _ _ hq (quiet_of_mem_trace _ _ _ _ (by simp) (by simp))
    · exact hq
  | membar =>
    refine ⟨fun l _ => by simp, ?_⟩
    have h0 : action Event.membar = false := h
    simp [List.filter_append, h0]
  | call_VM_leaf ep a0 a1 =>
    exact quiet_trans _ _ _ _ _ (quiet_of_mem_trace _ _ _ _ (by simp) (by simp))
      (quiet_call _ _ _ _ h)
  | super_call_VM_leaf ep a0 a1 =>
    exact quiet_trans _ _ _ _ _ (quiet_of_mem_trace _ _ _ _ (by simp) (by simp))
      (quiet_call _ _ _ _ h)
  | call_VM_leaf_base ep => exact quiet_call _ _ _ _ h
  | blr rn =>
    simp only [step, do_blr]
    split
    · exact quiet_call _ _ _ _ (h _)
    · exact quiet_refl _ _ _
  | load_at d ty dst a =>
    have hl : quiet cell action s (s.log (Event.load (a.loc s))) := by
      refine ⟨fun l _ => by simp, ?_⟩
      have h0 : ∀ n, action (Event.load ⟨a.space, n⟩) = false := h
      simp [List.filter_append, h0]
    simp only [step, do_load_at]
    cases ty <;> exact hl
  | mem2reg a dst ty =>
    have hl : quiet cell action s (s.log (Event.load (a.loc s))) := by
      refine ⟨fun l _ => by simp, ?_⟩
      have h0 : ∀ n, action (Event.load ⟨a.space, n⟩) = false := h
      simp [List.filter_append, h0]
    simp only [step, do_load_at]
    cases ty <;> exact hl
  | store_parameter r n => exact quiet_store _ _ _ _ _ (h _)
  | load_parameter n r =>
    refine ⟨fun l _ => by simp, ?_⟩
    have h0 : action (Event.load ⟨Space.parameter, n⟩) = false := h
    simp [List.filter_append, h0]
  | br c l => cases c <;> exact quiet_refl _ _ _
  | _ => exact quiet_of_mem_trace _ _ _ _ (by simp) (by simp)

theorem run_quiet (vm : VM) (cell : Loc → Bool) (action : Event → Bool) (code : List Insn)
    (h : ∀ i ∈ code, i.quiet cell action) (p : Option Label) (s : Machine) :
    quiet cell action s (run vm code p s).1 :=
  run_preserves vm (quiet cell action) (quiet_refl _ _) (quiet_trans _ _) code
    (fun i hi s => step_quiet vm cell action i (h i hi) s) p s

theorem step_reg (vm : VM) (x : Register) (i : Insn) (h : ¬ i.writes x) (s : Machine) :
    (step vm i s).1.reg x = s.reg x := by
  cases i with
  | store_at d ty a val =>
    have hx : x ≠ val := h
    simp only [step]
    split <;> simp [hx]
  | pop regs => exact reg_do_pop regs s x h
  | pop_call_clobbered_registers => exact reg_do_pop _ s x h
  | call_VM_leaf ep a0 a1 =>
    have hx : x ≠ c_rarg0 ∧ x ≠ c_rarg1 := not_or.mp h
    simp [do_call, hx.1, hx.2]
  | super_call_VM_leaf ep a0 a1 =>
    have hx : x ≠ c_rarg0 ∧ x ≠ c_rarg1 := not_or.mp h
    simp [do_call, hx.1, hx.2]
  | br c l => cases c <;> rfl
  | ldr rt a => have hx : x ≠ rt := h; simp [hx]
  | ldrw rt a => have hx : x ≠ rt := h; simp [hx]
  | ldrb rt a => have hx : x ≠ rt := h; simp [hx]
  | load_heap_oop rt a => have hx : x ≠ rt := h; simp [hx]
  | sub rd rn imm => have hx : x ≠ rd := h; simp [hx]
  | add rd rn rm => have hx : x ≠ rd := h; simp [hx]
  | eor rd rn rm => have hx : x ≠ rd := h; simp [hx]
  | lsr rd rn k => have hx : x ≠ rd := h; simp [hx]
  | mov rd rn => have hx : x ≠ rd := h; simp [hx]
  | lea rd a => have hx : x ≠ rd := h; simp [hx]
  | load_byte_map_base rd => have hx : x ≠ rd := h; simp [hx]
  | mov_imm rd imm => have hx : x ≠ rd := h; simp [hx]
  | leave => exact reg_do_pop _ s x h
  | blr rn =>
    simp only [step, do_blr]
    split <;> simp [do_call]
  | load_at d ty dst a =>
    have hx : x ≠ dst := h
    simp only [step, do_load_at]
    cases ty <;> simp [hx]
  | mem2reg a dst ty =>
    have hx : x ≠ dst := h
    simp only [step, do_load_at]
    cases ty <;> simp [hx]
  | load_parameter n r => have hx : x ≠ r := h; simp [hx]
  | epilogue => exact reg_do_pop _ s x h
  | _ => simp [do_call]

theorem run_reg (vm : VM) (x : Register) (code : List Insn)
    (h : ∀ i ∈ code, ¬ i.writes x) (p : Option Label) (s : Machine) :
    (run vm code p s).1.reg x = s.reg x :=
  run_preserves vm (fun a b => b.reg x = a.reg x) (fun _ => rfl)
    (fun _ _ _ h1 h2 => h2.trans h1) code (fun i hi s => step_reg vm x i (h i hi) s) p s


/-! ## The barriers keep the thread register and stay in their own cells -/

theorem rthread_not_clobbered : rthread ∉ call_clobbered_gp_registers := by decide

theorem pre_keeps_thread (vm : VM) (obj pre_val tmp1 tmp2 : Register)
    (tosca_live expand_call : Bool)
    (h : pre_val ≠ rthread ∧ tmp1 ≠ rthread ∧ tmp2 ≠ rthread)
    (p : Option Label) (s : Machine) :
    (run vm (g1_write_barrier_pre vm obj pre_val rthread tmp1 tmp2 tosca_live expand_call)
      p s).1.reg rthread = s.reg rthread := by
  apply run_reg
  have r1 := h.1.symm
  have r2 := h.2.1.symm
  have r3 := h.2.2.symm
  by_cases hw : vm.byte_width_of_active = 4 <;> by_cases ho : obj = noreg <;>
  cases expand_call <;>
  simp [g1_write_barrier_pre, generate_pre_barrier_fast_path, generate_pre_barrier_slow_path,
    generate_queue_test_and_insertion, hw, ho, Insn.writes, r1, r2, r3, rthread_not_clobbered]

theorem post_keeps_thread (vm : VM) (store_addr new_val tmp1 tmp2 : Register)
    (h : store_addr ≠ rthread ∧ tmp1 ≠ rthread ∧ tmp2 ≠ rthread)
    (p : Option Label) (s : Machine) :
    (run vm (g1_write_barrier_post vm store_addr new_val rthread tmp1 tmp2) p s).1.reg rthread =
      s.reg rthread := by
  apply run_reg
  have r1 := h.1.symm
  have r2 := h.2.1.symm
  have r3 := h.2.2.symm
  simp [g1_write_barrier_post, generate_post_barrier_fast_path, generate_post_barrier_slow_path,
    generate_queue_test_and_insertion, Insn.writes, r1, r2, r3]

/-- No instruction of the post-barrier is an SATB action, whatever the
operands are. -/
theorem post_satb_quiet (vm : VM) (store_addr new_val tmp1 tmp2 : Register) :
    ∀ i ∈ g1_write_barrier_post vm store_addr new_val rthread tmp1 tmp2,
      i.quiet satb_cell satb_action := by
  simp [g1_write_barrier_post, generate_post_barrier_fast_path, generate_post_barrier_slow_path,
    generate_queue_test_and_insertion, Insn.quiet, satb_cell, satb_action]

/-- No instruction of the pre-barrier touches the card table or the
dirty-card queue, whatever the operands are. -/
theorem pre_card_quiet (vm : VM) (obj pre_val tmp1 tmp2 : Register)
    (tosca_live expand_call : Bool) :
    ∀ i ∈ g1_write_barrier_pre vm obj pre_val rthread tmp1 tmp2 tosca_live expand_call,
      i.quiet card_cell card_action := by
  by_cases hw : vm.byte_width_of_active = 4 <;> by_cases ho : obj = noreg <;>
  cases expand_call <;>
  simp [g1_write_barrier_pre, generate_pre_barrier_fast_path, generate_pre_barrier_slow_path,
    generate_queue_test_and_insertion, hw, ho, Insn.quiet, card_cell, card_action]

/-- The address computation of `oop_store_at` accesses no memory. -/
theorem flatten_quiet (cell : Loc → Bool) (action : Event → Bool) (dst : Address)
    (tmp3 : Register) : ∀ i ∈ flatten_object_address dst tmp3, i.quiet cell action := by
  intro i hi
  by_cases c1 : dst.index = noreg ∧ dst.offset = 0 <;> by_cases c2 : dst.base = tmp3 <;>
    simp [flatten_object_address, c1, c2] at hi <;> subst hi <;> exact trivial

/-- The address computation of `oop_store_at`: `tmp3` receives the effective
address of `dst`, nothing else changes, and the code falls through. -/
theorem flatten_run (vm : VM) (dst : Address) (tmp3 : Register) (s : Machine) :
    (run vm (flatten_object_address dst tmp3) none s).2 = none ∧
    (run vm (flatten_object_address dst tmp3) none s).1.mem = s.mem ∧
    (run vm (flatten_object_address dst tmp3) none s).1.trace = s.trace ∧
    (∀ x, x ≠ tmp3 → (run vm (flatten_object_address dst tmp3) none s).1.reg x = s.reg x) ∧
    (tmp3 ≠ zr →
      (run vm (flatten_object_address dst tmp3) none s).1.reg tmp3 = (dst.loc s).addr) := by
  by_cases c1 : dst.index = noreg ∧ dst.offset = 0
  · by_cases c2 : dst.base = tmp3
    · refine ⟨?_, ?_, ?_, ?_, ?_⟩
      · simp [flatten_object_address, c1, c2]
      · simp [flatten_object_address, c1, c2]
      · simp [flatten_object_address, c1, c2]
      · intro x hx; simp [flatten_object_address, c1, c2]
      · intro hz
        rw [← c2]; simp [flatten_object_address, c1.1, c1.2, -Nat.reducePow]
    · refine ⟨?_, ?_, ?_, ?_, ?_⟩
      · simp [flatten_object_address, c1, c2]
      · simp [flatten_object_address, c1, c2]
      · simp [flatten_object_address, c1, c2]
      · intro x hx; simp [flatten_object_address, c1, c2, hx]
      · intro hz
        simp [flatten_object_address, c1, c2, hz, -Nat.reducePow]
  · refine ⟨?_, ?_, ?_, ?_, ?_⟩
    · simp [flatten_object_address, c1]
    · simp [flatten_object_address, c1]
    · simp [flatten_object_address, c1]
    · intro x hx; simp [flatten_object_address, c1, hx, -Nat.reducePow]
    · intro hz
      simp [flatten_object_address, c1, hz, -Nat.reducePow]

theorem runtime_calls_append (ep : G1BarrierSetRuntime) (a b : List Event) :
    runtime_calls ep (a ++ b) = runtime_calls ep a ++ runtime_calls ep b := by
  simp [runtime_calls]

/-- Equal SATB actions give equal calls of the pre-barrier entry. -/
theorem pre_calls_of_satb (a b : List Event)
    (h : a.filter satb_action = b.filter satb_action) :
    runtime_calls .write_ref_field_pre_entry a = runtime_calls .write_ref_field_pre_entry b := by
  have key : ∀ l : List Event, runtime_calls .write_ref_field_pre_entry l =
      runtime_calls .write_ref_field_pre_entry (l.filter satb_action) := by
    intro l
    unfold runtime_calls
    rw [List.filter_filter]
    congr 1
    funext e
    cases e <;> simp [satb_action]
  rw [key a, key b, h]

/-- Equal card actions give equal calls of the post-barrier entry. -/
theorem post_calls_of_card (a b : List Event)
    (h : a.filter card_action = b.filter card_action) :
    runtime_calls .write_ref_field_post_entry a = runtime_calls .write_ref_field_post_entry b := by
  have key : ∀ l : List Event, runtime_calls .write_ref_field_post_entry l =
      runtime_calls .write_ref_field_post_entry (l.filter card_action) := by
    intro l
    unfold runtime_calls
    rw [List.filter_filter]
    congr 1
    funext e
    cases e <;> simp [card_action]
  rw [key a, key b, h]


/-! ## Queue insertion at a full buffer -/

/-- C5. When the index field of the queue reads zero, the code emitted by
`generate_queue_test_and_insertion` branches to the runtime label; memory (the
index field and every storage slot included) is unchanged, the only memory
access is the load of the index, and the index register still holds zero: no
subtraction and no store were executed.  This holds for both queues, every
value and every choice of operand registers. -/
theorem generate_queue_test_and_insertion_full (vm : VM) (index_offset buffer_offset : ByteSize)
    (runtime : Label) (thread value temp1 temp2 : Register) (s : Machine)
    (h : s.mem ⟨Space.thread index_offset, s.reg thread⟩ % 2 ^ 64 = 0) :
    exit_label vm (generate_queue_test_and_insertion index_offset buffer_offset runtime
        thread value temp1 temp2) s = some runtime ∧
    (exec vm (generate_queue_test_and_insertion index_offset buffer_offset runtime
        thread value temp1 temp2) s).mem = s.mem ∧
    (exec vm (generate_queue_test_and_insertion index_offset buffer_offset runtime
        thread value temp1 temp2) s).reg temp1 = 0 ∧
    (exec vm (generate_queue_test_and_insertion index_offset buffer_offset runtime
        thread value temp1 temp2) s).trace =
      s.trace ++ [Event.load ⟨Space.thread index_offset, s.reg thread⟩] := by
  by_cases hz : temp1 = zr <;>
  simp [exec, exit_label, generate_queue_test_and_insertion, h, hz, -Nat.reducePow]

/-- Witness of C5: the dirty-card queue of the example state with index zero. -/
theorem generate_queue_test_and_insertion_full_witness :
    exit_label demo_vm (generate_queue_test_and_insertion .dirty_card_queue_index_offset
        .dirty_card_queue_buffer_offset .runtime rthread (.r 5) (.r 6) rscratch1)
        (demo_state 0 16 0 255) = some .runtime ∧
    (exec demo_vm (generate_queue_test_and_insertion .dirty_card_queue_index_offset
        .dirty_card_queue_buffer_offset .runtime rthread (.r 5) (.r 6) rscratch1)
        (demo_state 0 16 0 255)).mem = (demo_state 0 16 0 255).mem :=
  ⟨(generate_queue_test_and_insertion_full demo_vm .dirty_card_queue_index_offset
      .dirty_card_queue_buffer_offset .runtime rthread (.r 5) (.r 6) rscratch1
      (demo_state 0 16 0 255) (by decide)).1,
   (generate_queue_test_and_insertion_full demo_vm .dirty_card_queue_index_offset
      .dirty_card_queue_buffer_offset .runtime rthread (.r 5) (.r 6) rscratch1
      (demo_state 0 16 0 255) (by decide)).2.1⟩

/-! ## The pre-barrier with marking active -/

/-- C9 (scenario D). With marking active, a non-null previous value `P` and an
SATB index of zero, the pre-barrier, with either value of `expand_call`, makes
exactly one runtime call, `write_ref_field_pre_entry (P, thread)`, and leaves
all memory unchanged, the SATB index and storage included; control reaches
`done`. -/
theorem g1_write_barrier_pre_full (vm : VM) (obj pre_val tmp1 tmp2 : Register)
    (tosca_live expand_call : Bool) (s : Machine) (P : Nat)
    (hA : g1_write_barrier_pre_asserts obj pre_val rthread tmp1 tmp2 expand_call)
    (hT : is_temp pre_val ∧ is_temp tmp1 ∧ is_temp tmp2)
    (hact : marking_active vm s ≠ 0)
    (hP : previous_value s obj pre_val = P) (hP0 : P ≠ 0)
    (hi : queue_index s .satb_mark_queue_index_offset = 0) :
    exit_label vm (g1_write_barrier_pre vm obj pre_val rthread tmp1 tmp2 tosca_live
      expand_call) s = none ∧
    (exec vm (g1_write_barrier_pre vm obj pre_val rthread tmp1 tmp2 tosca_live
      expand_call) s).mem = s.mem ∧
    runtime_calls .write_ref_field_pre_entry (exec vm (g1_write_barrier_pre vm obj pre_val
        rthread tmp1 tmp2 tosca_live expand_call) s).trace =
      runtime_calls .write_ref_field_pre_entry s.trace ++
        [Event.call .write_ref_field_pre_entry P (s.reg rthread)] ∧
    (∀ ep, ep ≠ G1BarrierSetRuntime.write_ref_field_pre_entry →
      runtime_calls ep (exec vm (g1_write_barrier_pre vm obj pre_val rthread tmp1 tmp2
        tosca_live expand_call) s).trace = runtime_calls ep s.trace) := by
  subst hP
  obtain ⟨h1, h2, h3⟩ := pre_full vm obj pre_val tmp1 tmp2 tosca_live expand_call s hA hT
    hact hP0 hi _ rfl
  refine ⟨h1, h2, ?_, ?_⟩
  · rw [h3]
    by_cases ho : obj = noreg <;> simp [runtime_calls, List.filter_append, ho]
  · intro ep hep
    rw [h3]
    by_cases ho : obj = noreg <;> simp [runtime_calls, List.filter_append, ho, hep.symm]

/-- Witness of C9: marking active, SATB index zero, with the expanded call. -/
theorem g1_write_barrier_pre_full_witness :
    runtime_calls .write_ref_field_pre_entry (exec demo_vm (g1_write_barrier_pre demo_vm
        (.r 2) (.r 4) rthread (.r 5) (.r 6) true true) (demo_state 1 0 16 255)).trace =
      runtime_calls .write_ref_field_pre_entry (demo_state 1 0 16 255).trace ++
        [Event.call .write_ref_field_pre_entry 13104 ((demo_state 1 0 16 255).reg rthread)] :=
  (g1_write_barrier_pre_full demo_vm (.r 2) (.r 4) (.r 5) (.r 6) true true
    (demo_state 1 0 16 255) 13104 (by decide) (by decide) (by decide) (by decide) (by decide)
    (by decide)).2.2.1


/-! ## The post-barrier -/

/-- C10. For a store of a non-null reference across regions whose card reads
neither young nor dirty, the post-barrier writes the dirty value 0 to the card
at `byte_map_base + (store_addr >> card_shift)`.  With a non-zero dirty-card
index it then stores that card address (not the store address) into the queue
storage at the decremented index and makes no runtime call.  With index zero it
makes exactly one runtime call, `write_ref_field_post_entry (card address,
thread)`, and changes no cell but the card. -/
theorem g1_write_barrier_post_clean_card (vm : VM) (store_addr new_val tmp1 tmp2 : Register)
    (s : Machine)
    (hA : g1_write_barrier_post_asserts store_addr new_val rthread tmp1 tmp2)
    (hz : tmp1 ≠ zr ∧ tmp2 ≠ zr)
    (hr : ¬ same_region vm (s.reg store_addr) (s.reg new_val))
    (hv : s.reg new_val ≠ 0)
    (hy : ¬ card_is_young vm s (card_address vm (s.reg store_addr)))
    (hd : card_value s (card_address vm (s.reg store_addr)) ≠ dirty_card_val) :
    exit_label vm (g1_write_barrier_post vm store_addr new_val rthread tmp1 tmp2) s = none ∧
    (exec vm (g1_write_barrier_post vm store_addr new_val rthread tmp1 tmp2) s).mem
      (card_loc (card_address vm (s.reg store_addr))) = dirty_card_val ∧
    (queue_index s .dirty_card_queue_index_offset ≠ 0 →
      (exec vm (g1_write_barrier_post vm store_addr new_val rthread tmp1 tmp2) s).mem
        (insertion_slot s .dirty_card_queue_index_offset .dirty_card_queue_buffer_offset) =
          card_address vm (s.reg store_addr) ∧
      queue_index (exec vm (g1_write_barrier_post vm store_addr new_val rthread tmp1 tmp2) s)
        .dirty_card_queue_index_offset =
          next_index (queue_index s .dirty_card_queue_index_offset) ∧
      (∀ k, k ≠ insertion_slot s .dirty_card_queue_index_offset
              .dirty_card_queue_buffer_offset →
            k ≠ thread_field s .dirty_card_queue_index_offset →
            k ≠ card_loc (card_address vm (s.reg store_addr)) →
        (exec vm (g1_write_barrier_post vm store_addr new_val rthread tmp1 tmp2) s).mem k =
          s.mem k) ∧
      (∀ ep, runtime_calls ep
        (exec vm (g1_write_barrier_post vm store_addr new_val rthread tmp1 tmp2) s).trace =
          runtime_calls ep s.trace)) ∧
    (queue_index s .dirty_card_queue_index_offset = 0 →
      runtime_calls .write_ref_field_post_entry
        (exec vm (g1_write_barrier_post vm store_addr new_val rthread tmp1 tmp2) s).trace =
          runtime_calls .write_ref_field_post_entry s.trace ++
            [Event.call .write_ref_field_post_entry (card_address vm (s.reg store_addr))
              (s.reg rthread)] ∧
      (∀ ep, ep ≠ G1BarrierSetRuntime.write_ref_field_post_entry →
        runtime_calls ep
          (exec vm (g1_write_barrier_post vm store_addr new_val rthread tmp1 tmp2) s).trace =
            runtime_calls ep s.trace) ∧
      (∀ k, k ≠ card_loc (card_address vm (s.reg store_addr)) →
        (exec vm (g1_write_barrier_post vm store_addr new_val rthread tmp1 tmp2) s).mem k =
          s.mem k)) := by
  obtain ⟨-, ⟨-, a2, -, -, -⟩, -, ⟨c1, c2⟩, -, -⟩ := post_asserts_ne hA
  have hth := post_keeps_thread vm store_addr new_val tmp1 tmp2 ⟨a2, c1, c2⟩ none s
  by_cases hi : queue_index s .dirty_card_queue_index_offset = 0
  · obtain ⟨h1, h2, h3⟩ := post_full vm store_addr new_val tmp1 tmp2 s hA hz hr hv hy hd hi _ rfl
    refine ⟨h1, ?_, fun hne => absurd hi hne, fun _ => ⟨?_, ?_, ?_⟩⟩
    · rw [h2, if_pos rfl]; rfl
    · rw [h3]; simp [runtime_calls, List.filter_append]
    · intro ep hep
      rw [h3]; simp [runtime_calls, List.filter_append, hep.symm]
    · intro k hk
      rw [h2, if_neg hk]
  · obtain ⟨h1, h2, h3⟩ := post_insert vm store_addr new_val tmp1 tmp2 s hA hz hr hv hy hd hi _ rfl
    have n1 : card_loc (card_address vm (s.reg store_addr)) ≠
        insertion_slot s .dirty_card_queue_index_offset .dirty_card_queue_buffer_offset := by
      simp [card_loc, insertion_slot, queue_slot]
    have n2 : card_loc (card_address vm (s.reg store_addr)) ≠
        thread_field s .dirty_card_queue_index_offset := by
      simp [card_loc, thread_field]
    have n3 : thread_field s .dirty_card_queue_index_offset ≠
        insertion_slot s .dirty_card_queue_index_offset .dirty_card_queue_buffer_offset := by
      simp [thread_field, insertion_slot, queue_slot]
    refine ⟨h1, ?_, fun _ => ⟨?_, ?_, ?_, ?_⟩, fun h0 => absurd h0 hi⟩
    · rw [h2, if_neg n1, if_neg n2, if_pos rfl]; rfl
    · rw [h2, if_pos rfl]
    · unfold queue_index
      have e : thread_field (exec vm (g1_write_barrier_post vm store_addr new_val rthread tmp1
          tmp2) s) .dirty_card_queue_index_offset =
          thread_field s .dirty_card_queue_index_offset := by
        unfold thread_field exec; rw [hth]
      rw [e, h2, if_neg n3, if_pos rfl]
      exact Nat.mod_eq_of_lt (Nat.mod_lt _ (Nat.two_pow_pos 64))
    · intro k k1 k2 k3
      rw [h2, if_neg k1, if_neg k2, if_neg k3]
    · intro ep
      rw [h3]; simp [runtime_calls, List.filter_append]

/-- Witness of C10: the card of the example store reads 255 and the dirty-card
index is 16; the card becomes 0 and the slot at 40960 + 8 receives 65552. -/
theorem g1_write_barrier_post_clean_card_witness :
    (exec demo_vm (g1_write_barrier_post demo_vm (.r 2) (.r 3) rthread (.r 5) (.r 6))
      (demo_state 0 16 16 255)).mem (card_loc 65552) = 0 ∧
    (exec demo_vm (g1_write_barrier_post demo_vm (.r 2) (.r 3) rthread (.r 5) (.r 6))
      (demo_state 0 16 16 255)).mem
        (queue_slot .dirty_card_queue_buffer_offset 40968) = 65552 :=
  ⟨(g1_write_barrier_post_clean_card demo_vm (.r 2) (.r 3) (.r 5) (.r 6)
      (demo_state 0 16 16 255) (by decide) (by decide) (by decide) (by decide) (by decide)
      (by decide)).2.1,
   ((g1_write_barrier_post_clean_card demo_vm (.r 2) (.r 3) (.r 5) (.r 6)
      (demo_state 0 16 16 255) (by decide) (by decide) (by decide) (by decide) (by decide)
      (by decide)).2.2.1 (by decide)).1⟩

/-- Source view of `oop_store_at` for a null store (`val == noreg`): the
address computation, the pre-barrier and the store. -/
theorem oop_store_at_noreg (vm : VM) (decorators : DecoratorSet) (type : BasicType)
    (dst : Address) (tmp1 tmp2 tmp3 : Register) :
    oop_store_at vm decorators type dst noreg tmp1 tmp2 tmp3 =
      flatten_object_address dst tmp3 ++
      g1_write_barrier_pre vm tmp3 tmp2 rthread tmp1 rscratch2 false false ++
      [ Insn.store_at decorators type (Address.of_heap tmp3 0) noreg ] := by
  simp [oop_store_at]

/-- C4. If the store address and the new value lie in the same region, or the
new value is null, the post-barrier ends at `done` with memory and trace
unchanged: no card is read or written, the dirty-card queue is neither read nor
written, no runtime call is made.  And `oop_store_at` with `val == noreg` emits
the address computation, the pre-barrier and the store only, no post-barrier;
its execution touches neither the card table nor the dirty-card queue from any
state. -/
theorem g1_write_barrier_post_no_op (vm : VM) (store_addr new_val tmp1 tmp2 : Register)
    (s : Machine)
    (hA : g1_write_barrier_post_asserts store_addr new_val rthread tmp1 tmp2)
    (h : same_region vm (s.reg store_addr) (s.reg new_val) ∨ s.reg new_val = 0) :
    (exit_label vm (g1_write_barrier_post vm store_addr new_val rthread tmp1 tmp2) s = none ∧
     (exec vm (g1_write_barrier_post vm store_addr new_val rthread tmp1 tmp2) s).mem = s.mem ∧
     (exec vm (g1_write_barrier_post vm store_addr new_val rthread tmp1 tmp2) s).trace =
       s.trace) ∧
    (∀ decorators type dst t1 t2 t3 u,
      oop_store_at vm decorators type dst noreg t1 t2 t3 =
        flatten_object_address dst t3 ++
        g1_write_barrier_pre vm t3 t2 rthread t1 rscratch2 false false ++
        [ Insn.store_at decorators type (Address.of_heap t3 0) noreg ] ∧
      quiet card_cell card_action u
        (exec vm (oop_store_at vm decorators type dst noreg t1 t2 t3) u)) := by
  refine ⟨post_no_op vm store_addr new_val tmp1 tmp2 s hA h, ?_⟩
  intro decorators type dst t1 t2 t3 u
  refine ⟨oop_store_at_noreg vm decorators type dst t1 t2 t3, ?_⟩
  apply run_quiet
  rw [oop_store_at_noreg]
  intro i hi
  rcases List.mem_append.mp hi with hi | hi
  · rcases List.mem_append.mp hi with hi | hi
    · exact flatten_quiet _ _ dst t3 i hi
    · exact pre_card_quiet vm t3 t2 t1 rscratch2 false false i hi
  · simp at hi
    subst hi
    simp [Insn.quiet, Address.of_heap, card_cell, card_action]

/-- Witness of C4: a store inside one region (address 8200, value 8208). -/
theorem g1_write_barrier_post_no_op_witness :
    (exec demo_vm (g1_write_barrier_post demo_vm (.r 2) (.r 3) rthread (.r 5) (.r 6))
      ((demo_state 0 16 16 255).set (.r 3) 8208)).trace =
      ((demo_state 0 16 16 255).set (.r 3) 8208).trace :=
  (g1_write_barrier_post_no_op demo_vm (.r 2) (.r 3) (.r 5) (.r 6)
    ((demo_state 0 16 16 255).set (.r 3) 8208) (by decide) (by decide)).1.2.2


/-! ## Repeated post-barriers on a young card -/

/-- C6. For a store of a non-null reference across regions whose card reads the
young value, any number `n` of successive executions of the post-barrier leaves
all memory as it was (the card byte, the dirty-card index and storage
included), leaves the stack and every register but the two temporaries as they
were, and adds to the trace only the `n` loads of the card: no store, no fence,
no runtime call. -/
theorem g1_write_barrier_post_young_repeat (vm : VM) (store_addr new_val tmp1 tmp2 : Register)
    (s : Machine) (n : Nat)
    (hA : g1_write_barrier_post_asserts store_addr new_val rthread tmp1 tmp2)
    (hz : tmp1 ≠ zr ∧ tmp2 ≠ zr)
    (hr : ¬ same_region vm (s.reg store_addr) (s.reg new_val))
    (hv : s.reg new_val ≠ 0)
    (hy : card_is_young vm s (card_address vm (s.reg store_addr))) :
    (Nat.iterate (exec vm (g1_write_barrier_post vm store_addr new_val rthread tmp1 tmp2))
      n s).mem = s.mem ∧
    (Nat.iterate (exec vm (g1_write_barrier_post vm store_addr new_val rthread tmp1 tmp2))
      n s).trace =
        s.trace ++ List.replicate n (Event.load (card_loc (card_address vm (s.reg store_addr)))) ∧
    (Nat.iterate (exec vm (g1_write_barrier_post vm store_addr new_val rthread tmp1 tmp2))
      n s).stack = s.stack ∧
    (∀ x, x ≠ tmp1 → x ≠ tmp2 →
      (Nat.iterate (exec vm (g1_write_barrier_post vm store_addr new_val rthread tmp1 tmp2))
        n s).reg x = s.reg x) := by
  obtain ⟨-, ⟨-, -, a3, a4, -⟩, ⟨-, b2, b3, -⟩, -, -, -⟩ := post_asserts_ne hA
  induction n with
  | zero => simp
  | succ k ih =>
    obtain ⟨i1, i2, i3, i4⟩ := ih
    rw [Function.iterate_succ_apply']
    have ea := i4 store_addr a3 a4
    have ev := i4 new_val b2 b3
    have hr2 : ¬ same_region vm
        ((Nat.iterate (exec vm (g1_write_barrier_post vm store_addr new_val rthread tmp1 tmp2))
          k s).reg store_addr)
        ((Nat.iterate (exec vm (g1_write_barrier_post vm store_addr new_val rthread tmp1 tmp2))
          k s).reg new_val) := by rw [ea, ev]; exact hr
    have hv2 : (Nat.iterate (exec vm (g1_write_barrier_post vm store_addr new_val rthread tmp1
        tmp2)) k s).reg new_val ≠ 0 := by rw [ev]; exact hv
    have hy2 : card_is_young vm
        (Nat.iterate (exec vm (g1_write_barrier_post vm store_addr new_val rthread tmp1 tmp2))
          k s)
        (card_address vm ((Nat.iterate (exec vm (g1_write_barrier_post vm store_addr new_val
          rthread tmp1 tmp2)) k s).reg store_addr)) := by
      rw [ea]; unfold card_is_young card_value; rw [i1]; exact hy
    obtain ⟨-, j2, j3, j4, j5⟩ := post_young vm store_addr new_val tmp1 tmp2 _ hA hz hr2 hv2 hy2
      _ rfl
    refine ⟨j2.trans i1, ?_, j4.trans i3, fun x h1 h2 => (j5 x h1 h2).trans (i4 x h1 h2)⟩
    rw [j3, i2, ea, List.append_assoc, List.replicate_succ']

/-- Witness of C6: three post-barriers on the example store with a young card. -/
theorem g1_write_barrier_post_young_repeat_witness :
    (Nat.iterate (exec demo_vm (g1_write_barrier_post demo_vm (.r 2) (.r 3) rthread (.r 5)
      (.r 6))) 3 (demo_state 0 16 16 2)).mem = (demo_state 0 16 16 2).mem :=
  (g1_write_barrier_post_young_repeat demo_vm (.r 2) (.r 3) (.r 5) (.r 6) (demo_state 0 16 16 2) 3
    (by decide) (by decide) (by decide) (by decide) (by decide)).1

/-! ## Reference stores while marking is inactive -/

theorem marking_active_congr (vm : VM) (s t : Machine) (hr : t.reg rthread = s.reg rthread)
    (hm : ∀ l, satb_cell l = true → t.mem l = s.mem l) :
    marking_active vm t = marking_active vm s := by
  unfold marking_active thread_field
  rw [hr, hm _ (by simp [satb_cell])]

/-- The code of `oop_store_at` after the pre-barrier: the store and, for a
store of a register, the post-barrier.  None of it is an SATB action. -/
theorem store_and_post_satb_quiet (vm : VM) (decorators : DecoratorSet) (type : BasicType)
    (val tmp1 tmp2 tmp3 : Register) :
    ∀ i ∈ (if val = noreg
        then [ Insn.store_at decorators type (Address.of_heap tmp3 0) noreg ]
        else
          (if vm.UseCompressedOops then [ Insn.mov (if vm.UseCompressedOops then rscratch2
            else val) val ] else []) ++
          [ Insn.store_at decorators type (Address.of_heap tmp3 0) val ] ++
          g1_write_barrier_post vm tmp3 (if vm.UseCompressedOops then rscratch2 else val)
            rthread tmp1 tmp2),
      i.quiet satb_cell satb_action := by
  intro i hi
  by_cases hv : val = noreg
  · simp [hv] at hi
    subst hi
    simp [Insn.quiet, Address.of_heap, satb_cell, satb_action]
  · simp only [hv, if_false] at hi
    rcases List.mem_append.mp hi with hi | hi
    · cases hc : vm.UseCompressedOops <;> simp [hc] at hi
      · subst hi
        simp [Insn.quiet, Address.of_heap, satb_cell, satb_action]
      · rcases hi with rfl | rfl
        · exact trivial
        · simp [Insn.quiet, Address.of_heap, satb_cell, satb_action]
    · exact post_satb_quiet vm tmp3 _ tmp1 tmp2 i hi

/-- The code of `oop_store_at` after the pre-barrier does not write the thread
register when the operands are other registers. -/
theorem store_and_post_keep_thread (vm : VM) (decorators : DecoratorSet) (type : BasicType)
    (val tmp1 tmp2 tmp3 : Register)
    (h : tmp1 ≠ rthread ∧ tmp2 ≠ rthread ∧ tmp3 ≠ rthread ∧ val ≠ rthread) :
    ∀ i ∈ (if val = noreg
        then [ Insn.store_at decorators type (Address.of_heap tmp3 0) noreg ]
        else
          (if vm.UseCompressedOops then [ Insn.mov (if vm.UseCompressedOops then rscratch2
            else val) val ] else []) ++
          [ Insn.store_at decorators type (Address.of_heap tmp3 0) val ] ++
          g1_write_barrier_post vm tmp3 (if vm.UseCompressedOops then rscratch2 else val)
            rthread tmp1 tmp2),
      ¬ i.writes rthread := by
  have r1 := h.1.symm
  have r2 := h.2.1.symm
  have r3 := h.2.2.1.symm
  have r4 := h.2.2.2.symm
  by_cases hv : val = noreg <;> cases hc : vm.UseCompressedOops <;>
  simp [hv, hc, g1_write_barrier_post, generate_post_barrier_fast_path,
    generate_post_barrier_slow_path, generate_queue_test_and_insertion, Insn.writes,
    r1, r2, r3, r4]

/-- One reference store with marking inactive: the thread register is kept, no
SATB cell changes and no SATB action is added to the trace. -/
theorem oop_store_at_inactive (vm : VM) (decorators : DecoratorSet) (type : BasicType)
    (dst : Address) (val tmp1 tmp2 tmp3 : Register) (s : Machine)
    (hflag : marking_active vm s = 0)
    (h : tmp1 ≠ rthread ∧ tmp2 ≠ rthread ∧ tmp3 ≠ rthread ∧ val ≠ rthread) :
    (exec vm (oop_store_at vm decorators type dst val tmp1 tmp2 tmp3) s).reg rthread =
      s.reg rthread ∧
    quiet satb_cell satb_action s
      (exec vm (oop_store_at vm decorators type dst val tmp1 tmp2 tmp3) s) := by
  obtain ⟨f1, f2, f3, f4, -⟩ := flatten_run vm dst tmp3 s
  have ft := f4 rthread h.2.2.1.symm
  have hflag1 : marking_active vm (run vm (flatten_object_address dst tmp3) none s).1 = 0 := by
    rw [marking_active_congr vm s _ ft (fun l _ => by rw [f2])]; exact hflag
  have hp := pre_inactive vm tmp3 tmp2 tmp1 rscratch2 (decide (val ≠ noreg)) false _ hflag1
  unfold exec oop_store_at
  simp only []
  rw [run_append, run_append, f1, hp]
  constructor
  · rw [run_reg vm rthread _ (store_and_post_keep_thread vm decorators type val tmp1 tmp2 tmp3 h)]
    simp [h.1.symm, ft]
  · refine quiet_trans _ _ _ _ _ ?_ (run_quiet vm _ _ _
      (store_and_post_satb_quiet vm decorators type val tmp1 tmp2 tmp3) _ _)
    refine ⟨fun l _ => by simp [f2], ?_⟩
    simp [f3, List.filter_append, satb_action, thread_field]

/-- C1. From a state whose marking-active flag reads zero, any finite sequence
of reference stores emitted through `oop_store_at` leaves the SATB index and
every SATB storage slot at their initial values, keeps the flag at zero, and
adds no SATB action to the trace: no load of a previous value, no store into
the SATB queue, no call of `write_ref_field_pre_entry`. -/
theorem marking_inactive_store_sequence (vm : VM) (stores : List StoreSite) (s : Machine)
    (hflag : marking_active vm s = 0)
    (hops : ∀ st ∈ stores, st.tmp1 ≠ rthread ∧ st.tmp2 ≠ rthread ∧ st.tmp3 ≠ rthread ∧
      st.val ≠ rthread) :
    queue_index (store_sequence vm stores s) .satb_mark_queue_index_offset =
      queue_index s .satb_mark_queue_index_offset ∧
    (∀ a, (store_sequence vm stores s).mem (queue_slot .satb_mark_queue_buffer_offset a) =
      s.mem (queue_slot .satb_mark_queue_buffer_offset a)) ∧
    marking_active vm (store_sequence vm stores s) = 0 ∧
    (store_sequence vm stores s).trace.filter satb_action = s.trace.filter satb_action := by
  have key : (store_sequence vm stores s).reg rthread = s.reg rthread ∧
      quiet satb_cell satb_action s (store_sequence vm stores s) := by
    induction stores generalizing s with
    | nil => exact ⟨rfl, quiet_refl _ _ _⟩
    | cons st rest ih =>
      have h1 := hops st (by simp)
      obtain ⟨a1, a2⟩ := oop_store_at_inactive vm st.decorators st.type st.dst st.val st.tmp1
        st.tmp2 st.tmp3 s hflag h1
      have hflag2 : marking_active vm (exec vm (st.code vm) s) = 0 := by
        unfold StoreSite.code
        rw [marking_active_congr vm s _ a1 a2.1]; exact hflag
      obtain ⟨b1, b2⟩ := ih (exec vm (st.code vm) s) hflag2 (fun x hx => hops x (by simp [hx]))
      exact ⟨b1.trans a1, quiet_trans _ _ _ _ _ a2 b2⟩
  obtain ⟨k1, k2, k3⟩ := key
  refine ⟨?_, fun a => k2 _ (by simp [satb_cell, queue_slot]), ?_, k3⟩
  · unfold queue_index thread_field
    rw [k1, k2 _ (by simp [satb_cell])]
  · rw [marking_active_congr vm s _ k1 k2]; exact hflag

/-- Witness of C1: two stores through `oop_store_at` from the example state with
the flag at zero. -/
theorem marking_inactive_store_sequence_witness :
    queue_index (store_sequence demo_vm
      [⟨0, .T_OBJECT, Address.of_heap (.r 2) 0, .r 3, .r 5, .r 6, .r 7⟩,
       ⟨0, .T_OBJECT, Address.of_heap (.r 2) 8, noreg, .r 5, .r 6, .r 7⟩]
      (demo_state 0 16 16 255)) .satb_mark_queue_index_offset =
    queue_index (demo_state 0 16 16 255) .satb_mark_queue_index_offset :=
  (marking_inactive_store_sequence demo_vm
    [⟨0, .T_OBJECT, Address.of_heap (.r 2) 0, .r 3, .r 5, .r 6, .r 7⟩,
     ⟨0, .T_OBJECT, Address.of_heap (.r 2) 8, noreg, .r 5, .r 6, .r 7⟩]
    (demo_state 0 16 16 255) (by decide) (by decide)).1


/-! ## Reference stores while marking is active -/

/-- State after the address computation of `oop_store_at`, as the pre-barrier
sees it. -/
theorem flatten_view (vm : VM) (dst : Address) (tmp3 tmp2 : Register) (s : Machine)
    (h3 : is_temp tmp3) (hn : tmp3 ≠ noreg) :
    marking_active vm (run vm (flatten_object_address dst tmp3) none s).1 = marking_active vm s ∧
    previous_value (run vm (flatten_object_address dst tmp3) none s).1 tmp3 tmp2 =
      s.mem (field_loc (dst.loc s).addr) % 2 ^ 64 ∧
    (∀ f, thread_field (run vm (flatten_object_address dst tmp3) none s).1 f = thread_field s f) ∧
    (∀ f, queue_index (run vm (flatten_object_address dst tmp3) none s).1 f = queue_index s f) ∧
    (∀ f g, insertion_slot (run vm (flatten_object_address dst tmp3) none s).1 f g =
      insertion_slot s f g) := by
  obtain ⟨-, f2, -, f4, f5⟩ := flatten_run vm dst tmp3 s
  have ft := f4 rthread h3.2.symm
  have e1 : ∀ f, thread_field (run vm (flatten_object_address dst tmp3) none s).1 f =
      thread_field s f := fun f => by unfold thread_field; rw [ft]
  have e2 : ∀ f, queue_index (run vm (flatten_object_address dst tmp3) none s).1 f =
      queue_index s f := fun f => by unfold queue_index; rw [e1, f2]
  refine ⟨?_, ?_, e1, e2, ?_⟩
  · unfold marking_active; rw [e1, f2]
  · unfold previous_value; rw [if_pos hn, f5 h3.1, f2]
  · intro f g
    unfold insertion_slot queue_buffer
    rw [e1, e2, f2]

/-- C2. With marking active, a reference store emitted through `oop_store_at`
whose destination field holds a non-null value `P` before the store records
`P`, the value held before the store.  When the SATB index is non-zero, after
the whole operation the storage cell at the decremented index holds `P` and no
call of `write_ref_field_pre_entry` was made.  When the index is zero, exactly
one such call was made, with arguments `(P, thread)`. -/
theorem oop_store_at_records_previous_value (vm : VM) (decorators : DecoratorSet)
    (type : BasicType) (dst : Address) (val tmp1 tmp2 tmp3 : Register) (s : Machine) (P : Nat)
    (hA : oop_store_at_asserts vm val tmp1 tmp2 tmp3)
    (hT : is_temp tmp1 ∧ is_temp tmp2 ∧ is_temp tmp3) (h3 : tmp3 ≠ noreg)
    (hact : marking_active vm s ≠ 0)
    (hP : s.mem (field_loc (dst.loc s).addr) % 2 ^ 64 = P) (hP0 : P ≠ 0) :
    (queue_index s .satb_mark_queue_index_offset ≠ 0 →
      (exec vm (oop_store_at vm decorators type dst val tmp1 tmp2 tmp3) s).mem
        (insertion_slot s .satb_mark_queue_index_offset .satb_mark_queue_buffer_offset) = P ∧
      runtime_calls .write_ref_field_pre_entry
        (exec vm (oop_store_at vm decorators type dst val tmp1 tmp2 tmp3) s).trace =
          runtime_calls .write_ref_field_pre_entry s.trace) ∧
    (queue_index s .satb_mark_queue_index_offset = 0 →
      runtime_calls .write_ref_field_pre_entry
        (exec vm (oop_store_at vm decorators type dst val tmp1 tmp2 tmp3) s).trace =
          runtime_calls .write_ref_field_pre_entry s.trace ++
            [Event.call .write_ref_field_pre_entry P (s.reg rthread)]) := by
  subst hP
  obtain ⟨-, n1, n2, n3, -⟩ := pre_asserts_ne hA.1
  have hT2 : is_temp tmp2 ∧ is_temp tmp1 ∧ is_temp rscratch2 := ⟨hT.2.1, hT.1, by decide⟩
  obtain ⟨f1, f2, f3, f4, f5⟩ := flatten_run vm dst tmp3 s
  obtain ⟨v1, v2, v3, v4, v5⟩ := flatten_view vm dst tmp3 tmp2 s hT.2.2 h3
  have hact1 : marking_active vm (run vm (flatten_object_address dst tmp3) none s).1 ≠ 0 := by
    rw [v1]; exact hact
  have hP1 : previous_value (run vm (flatten_object_address dst tmp3) none s).1 tmp3 tmp2 ≠ 0 := by
    rw [v2]; exact hP0
  have hq := fun p t => run_quiet vm satb_cell satb_action _
    (store_and_post_satb_quiet vm decorators type val tmp1 tmp2 tmp3) p t
  constructor
  · intro hi
    have hi1 : queue_index (run vm (flatten_object_address dst tmp3) none s).1
        .satb_mark_queue_index_offset ≠ 0 := by rw [v4]; exact hi
    obtain ⟨p1, p2, p3, -⟩ := pre_insert vm tmp3 tmp2 tmp1 rscratch2 (decide (val ≠ noreg)) false
      _ hA.1 hT2 hact1 hP1 hi1 _ rfl
    unfold exit_label at p1
    unfold exec at p2 p3
    unfold exec oop_store_at
    simp only []
    rw [run_append, run_append, f1, p1]
    obtain ⟨q1, q2⟩ := hq none
      (run vm (g1_write_barrier_pre vm tmp3 tmp2 rthread tmp1 rscratch2 (decide (val ≠ noreg))
        false) none (run vm (flatten_object_address dst tmp3) none s).1).1
    constructor
    · rw [q1 _ (by simp [satb_cell, insertion_slot, queue_slot]), p2, v5, if_pos rfl, v2]
    · rw [pre_calls_of_satb _ _ q2, p3, f3]
      simp [runtime_calls, List.filter_append]
  · intro hi
    have hi1 : queue_index (run vm (flatten_object_address dst tmp3) none s).1
        .satb_mark_queue_index_offset = 0 := by rw [v4]; exact hi
    obtain ⟨p1, p2, p3⟩ := pre_full vm tmp3 tmp2 tmp1 rscratch2 (decide (val ≠ noreg)) false
      _ hA.1 hT2 hact1 hP1 hi1 _ rfl
    unfold exit_label at p1
    unfold exec at p2 p3
    unfold exec oop_store_at
    simp only []
    rw [run_append, run_append, f1, p1]
    obtain ⟨q1, q2⟩ := hq none
      (run vm (g1_write_barrier_pre vm tmp3 tmp2 rthread tmp1 rscratch2 (decide (val ≠ noreg))
        false) none (run vm (flatten_object_address dst tmp3) none s).1).1
    rw [pre_calls_of_satb _ _ q2, p3, f3, v2, f4 rthread hT.2.2.2.symm]
    simp [runtime_calls, List.filter_append]

/-- Witness of C2: marking active, the field at 8200 holds 13104, SATB index 16:
after the store of register 3 the slot at 36872 holds 13104. -/
theorem oop_store_at_records_previous_value_witness :
    (exec demo_vm (oop_store_at demo_vm 0 .T_OBJECT (Address.of_heap (.r 2) 0) (.r 3) (.r 5)
      (.r 6) (.r 7)) (demo_state 1 16 16 255)).mem
        (insertion_slot (demo_state 1 16 16 255) .satb_mark_queue_index_offset
          .satb_mark_queue_buffer_offset) = 13104 :=
  ((oop_store_at_records_previous_value demo_vm 0 .T_OBJECT (Address.of_heap (.r 2) 0) (.r 3)
    (.r 5) (.r 6) (.r 7) (demo_state 1 16 16 255) 13104 (by decide) (by decide) (by decide)
    (by decide) (by decide) (by decide)).1 (by decide)).1


/-! ## What the post-barrier logs -/

/-- What the post-barrier does to the card of a store across regions of a
non-null reference, by the state of the card. -/
theorem post_card_cases (vm : VM) (store_addr new_val tmp1 tmp2 : Register) (s : Machine)
    (hA : g1_write_barrier_post_asserts store_addr new_val rthread tmp1 tmp2)
    (hz : tmp1 ≠ zr ∧ tmp2 ≠ zr)
    (hr : ¬ same_region vm (s.reg store_addr) (s.reg new_val))
    (hv : s.reg new_val ≠ 0) :
    (card_value (exec vm (g1_write_barrier_post vm store_addr new_val rthread tmp1 tmp2) s)
        (card_address vm (s.reg store_addr)) = dirty_card_val ∨
      card_is_young vm (exec vm (g1_write_barrier_post vm store_addr new_val rthread tmp1 tmp2) s)
        (card_address vm (s.reg store_addr))) ∧
    (card_is_young vm s (card_address vm (s.reg store_addr)) ∨
        card_value s (card_address vm (s.reg store_addr)) = dirty_card_val →
      (exec vm (g1_write_barrier_post vm store_addr new_val rthread tmp1 tmp2) s).mem = s.mem ∧
      ∀ ep, runtime_calls ep
        (exec vm (g1_write_barrier_post vm store_addr new_val rthread tmp1 tmp2) s).trace =
          runtime_calls ep s.trace) ∧
    (¬ card_is_young vm s (card_address vm (s.reg store_addr)) →
      card_value s (card_address vm (s.reg store_addr)) ≠ dirty_card_val →
      (queue_index s .dirty_card_queue_index_offset ≠ 0 →
        (exec vm (g1_write_barrier_post vm store_addr new_val rthread tmp1 tmp2) s).mem
          (insertion_slot s .dirty_card_queue_index_offset .dirty_card_queue_buffer_offset) =
            card_address vm (s.reg store_addr)) ∧
      (queue_index s .dirty_card_queue_index_offset = 0 →
        runtime_calls .write_ref_field_post_entry
          (exec vm (g1_write_barrier_post vm store_addr new_val rthread tmp1 tmp2) s).trace =
            runtime_calls .write_ref_field_post_entry s.trace ++
              [Event.call .write_ref_field_post_entry (card_address vm (s.reg store_addr))
                (s.reg rthread)])) := by
  have n1 : card_loc (card_address vm (s.reg store_addr)) ≠
      insertion_slot s .dirty_card_queue_index_offset .dirty_card_queue_buffer_offset := by
    simp [card_loc, insertion_slot, queue_slot]
  have n2 : card_loc (card_address vm (s.reg store_addr)) ≠
      thread_field s .dirty_card_queue_index_offset := by
    simp [card_loc, thread_field]
  by_cases hy : card_is_young vm s (card_address vm (s.reg store_addr))
  · obtain ⟨-, j2, j3, -, -⟩ := post_young vm store_addr new_val tmp1 tmp2 s hA hz hr hv hy _ rfl
    refine ⟨Or.inr ?_, fun _ => ⟨j2, fun ep => ?_⟩, fun h => absurd hy h⟩
    · unfold card_is_young card_value; rw [j2]; exact hy
    · rw [j3]; simp [runtime_calls, List.filter_append]
  · by_cases hd : card_value s (card_address vm (s.reg store_addr)) = 0
    · obtain ⟨-, j2, j3⟩ := post_dirty vm store_addr new_val tmp1 tmp2 s hA hz hr hv hy hd
      refine ⟨Or.inl ?_, fun _ => ⟨j2, fun ep => ?_⟩, fun _ h => absurd hd h⟩
      · unfold card_value; rw [j2]; exact hd
      · rw [j3]; simp [runtime_calls, List.filter_append]
    · by_cases hi : queue_index s .dirty_card_queue_index_offset = 0
      · obtain ⟨-, j2, j3⟩ := post_full vm store_addr new_val tmp1 tmp2 s hA hz hr hv hy hd hi
          _ rfl
        refine ⟨Or.inl ?_, fun h => ?_, fun _ _ => ⟨fun h => absurd hi h, fun _ => ?_⟩⟩
        · unfold card_value; rw [j2, if_pos rfl]; rfl
        · rcases h with h | h
          · exact absurd h hy
          · exact absurd h hd
        · rw [j3]; simp [runtime_calls, List.filter_append]
      · obtain ⟨-, j2, j3⟩ := post_insert vm store_addr new_val tmp1 tmp2 s hA hz hr hv hy hd hi
          _ rfl
        refine ⟨Or.inl ?_, fun h => ?_, fun _ _ => ⟨fun _ => ?_, fun h => absurd h hi⟩⟩
        · unfold card_value; rw [j2, if_neg n1, if_neg n2, if_pos rfl]; rfl
        · rcases h with h | h
          · exact absurd h hy
          · exact absurd h hd
        · rw [j2, if_pos rfl]

/-- C3, as the code has it. After the post-barrier of a store across regions of
a non-null reference the card of the store address is dirty or young.  If the
card read neither young nor dirty before, its address is in the dirty-card
queue (index non-zero) or was passed to `write_ref_field_post_entry` (index
zero).  If the card already read young or dirty, memory is unchanged and no
runtime call is made: nothing is enqueued or logged. -/
theorem g1_write_barrier_post_logs_clean_card (vm : VM)
    (store_addr new_val tmp1 tmp2 : Register) (s : Machine)
    (hA : g1_write_barrier_post_asserts store_addr new_val rthread tmp1 tmp2)
    (hz : tmp1 ≠ zr ∧ tmp2 ≠ zr)
    (hr : ¬ same_region vm (s.reg store_addr) (s.reg new_val))
    (hv : s.reg new_val ≠ 0) :
    (card_value (exec vm (g1_write_barrier_post vm store_addr new_val rthread tmp1 tmp2) s)
        (card_address vm (s.reg store_addr)) = dirty_card_val ∨
      card_is_young vm (exec vm (g1_write_barrier_post vm store_addr new_val rthread tmp1 tmp2) s)
        (card_address vm (s.reg store_addr))) ∧
    (card_is_young vm s (card_address vm (s.reg store_addr)) ∨
        card_value s (card_address vm (s.reg store_addr)) = dirty_card_val →
      (exec vm (g1_write_barrier_post vm store_addr new_val rthread tmp1 tmp2) s).mem = s.mem ∧
      ∀ ep, runtime_calls ep
        (exec vm (g1_write_barrier_post vm store_addr new_val rthread tmp1 tmp2) s).trace =
          runtime_calls ep s.trace) ∧
    (¬ card_is_young vm s (card_address vm (s.reg store_addr)) →
      card_value s (card_address vm (s.reg store_addr)) ≠ dirty_card_val →
      (queue_index s .dirty_card_queue_index_offset ≠ 0 →
        (exec vm (g1_write_barrier_post vm store_addr new_val rthread tmp1 tmp2) s).mem
          (insertion_slot s .dirty_card_queue_index_offset .dirty_card_queue_buffer_offset) =
            card_address vm (s.reg store_addr)) ∧
      (queue_index s .dirty_card_queue_index_offset = 0 →
        runtime_calls .write_ref_field_post_entry
          (exec vm (g1_write_barrier_post vm store_addr new_val rthread tmp1 tmp2) s).trace =
            runtime_calls .write_ref_field_post_entry s.trace ++
              [Event.call .write_ref_field_post_entry (card_address vm (s.reg store_addr))
                (s.reg rthread)])) :=
  post_card_cases vm store_addr new_val tmp1 tmp2 s hA hz hr hv

/-- Witness of the amended C3: the example store with a clean card (255). -/
theorem g1_write_barrier_post_logs_clean_card_witness :
    (exec demo_vm (g1_write_barrier_post demo_vm (.r 2) (.r 3) rthread (.r 5) (.r 6))
      (demo_state 0 16 16 255)).mem
        (insertion_slot (demo_state 0 16 16 255) .dirty_card_queue_index_offset
          .dirty_card_queue_buffer_offset) =
      card_address demo_vm ((demo_state 0 16 16 255).reg (.r 2)) :=
  ((g1_write_barrier_post_logs_clean_card demo_vm (.r 2) (.r 3) (.r 5) (.r 6)
    (demo_state 0 16 16 255) (by decide) (by decide) (by decide) (by decide)).2.2
      (by decide) (by decide)).1 (by decide)

/-- Counterexample to C3 as stated: the example store crosses regions (address
8200 in region 2, value 20496 in region 5), the value is non-null and the card
at 65552 reads young.  After the post-barrier no cell of the dirty-card storage
holds the card address and no runtime call was made. -/
theorem g1_write_barrier_post_young_not_logged :
    g1_write_barrier_post_asserts (.r 2) (.r 3) rthread (.r 5) (.r 6) ∧
    ¬ same_region demo_vm ((demo_state 0 16 16 2).reg (.r 2)) ((demo_state 0 16 16 2).reg (.r 3)) ∧
    (demo_state 0 16 16 2).reg (.r 3) ≠ 0 ∧
    card_address demo_vm ((demo_state 0 16 16 2).reg (.r 2)) = 65552 ∧
    (∀ a, (exec demo_vm (g1_write_barrier_post demo_vm (.r 2) (.r 3) rthread (.r 5) (.r 6))
      (demo_state 0 16 16 2)).mem (queue_slot .dirty_card_queue_buffer_offset a) ≠ 65552) ∧
    runtime_calls .write_ref_field_post_entry
      (exec demo_vm (g1_write_barrier_post demo_vm (.r 2) (.r 3) rthread (.r 5) (.r 6))
        (demo_state 0 16 16 2)).trace = [] := by
  refine ⟨by decide, by decide, by decide, by decide, ?_, by decide⟩
  intro a
  rw [((post_card_cases demo_vm (.r 2) (.r 3) (.r 5) (.r 6) (demo_state 0 16 16 2) (by decide)
    (by decide) (by decide) (by decide)).2.1 (Or.inl (by decide))).1]
  simp [demo_state, queue_slot]


/-! ## Scenario A: a store across regions with marking inactive -/

/-- The post-barrier on a clean card, run in a state `u` that agrees with `s`
on the thread register and on the cells of the post-barrier. -/
theorem post_clean_from (vm : VM) (store_addr new_val tmp1 tmp2 : Register) (s u : Machine)
    (A V : Nat)
    (hA : g1_write_barrier_post_asserts store_addr new_val rthread tmp1 tmp2)
    (hz : tmp1 ≠ zr ∧ tmp2 ≠ zr)
    (g1 : u.reg store_addr = A) (g2 : u.reg new_val = V)
    (g3 : u.reg rthread = s.reg rthread)
    (g4 : ∀ k, card_cell k = true → u.mem k = s.mem k)
    (hr : ¬ same_region vm A V) (hV : V ≠ 0)
    (hy : ¬ card_is_young vm s (card_address vm A))
    (hd : card_value s (card_address vm A) ≠ dirty_card_val) :
    (exec vm (g1_write_barrier_post vm store_addr new_val rthread tmp1 tmp2) u).mem
      (card_loc (card_address vm A)) = dirty_card_val ∧
    (queue_index s .dirty_card_queue_index_offset ≠ 0 →
      (∀ k, (exec vm (g1_write_barrier_post vm store_addr new_val rthread tmp1 tmp2) u).mem k =
        if k = insertion_slot s .dirty_card_queue_index_offset .dirty_card_queue_buffer_offset
          then card_address vm A
        else if k = thread_field s .dirty_card_queue_index_offset
          then next_index (queue_index s .dirty_card_queue_index_offset)
        else if k = card_loc (card_address vm A) then 0
        else u.mem k) ∧
      (exec vm (g1_write_barrier_post vm store_addr new_val rthread tmp1 tmp2) u).trace =
        u.trace ++
          [Event.load (card_loc (card_address vm A)), Event.membar,
           Event.load (card_loc (card_address vm A)),
           Event.store (card_loc (card_address vm A)) 0,
           Event.load (thread_field s .dirty_card_queue_index_offset),
           Event.store (thread_field s .dirty_card_queue_index_offset)
             (next_index (queue_index s .dirty_card_queue_index_offset)),
           Event.load (thread_field s .dirty_card_queue_buffer_offset),
           Event.store (insertion_slot s .dirty_card_queue_index_offset
             .dirty_card_queue_buffer_offset) (card_address vm A)]) ∧
    (queue_index s .dirty_card_queue_index_offset = 0 →
      (∀ k, (exec vm (g1_write_barrier_post vm store_addr new_val rthread tmp1 tmp2) u).mem k =
        if k = card_loc (card_address vm A) then 0 else u.mem k) ∧
      (exec vm (g1_write_barrier_post vm store_addr new_val rthread tmp1 tmp2) u).trace =
        u.trace ++
          [Event.load (card_loc (card_address vm A)), Event.membar,
           Event.load (card_loc (card_address vm A)),
           Event.store (card_loc (card_address vm A)) 0,
           Event.load (thread_field s .dirty_card_queue_index_offset),
           Event.call .write_ref_field_post_entry (card_address vm A) (s.reg rthread)]) := by
  have e1 : ∀ f, thread_field u f = thread_field s f := fun f => by unfold thread_field; rw [g3]
  have e2 : queue_index u .dirty_card_queue_index_offset =
      queue_index s .dirty_card_queue_index_offset := by
    unfold queue_index; rw [e1, g4 _ (by simp [card_cell, thread_field])]
  have e3 : insertion_slot u .dirty_card_queue_index_offset .dirty_card_queue_buffer_offset =
      insertion_slot s .dirty_card_queue_index_offset .dirty_card_queue_buffer_offset := by
    unfold insertion_slot queue_buffer
    rw [e2, e1, g4 _ (by simp [card_cell, thread_field])]
  have e4 : card_value u (card_address vm A) = card_value s (card_address vm A) := by
    unfold card_value; rw [g4 _ (by simp [card_cell, card_loc])]
  have hr1 : ¬ same_region vm (u.reg store_addr) (u.reg new_val) := by rw [g1, g2]; exact hr
  have hV1 : u.reg new_val ≠ 0 := by rw [g2]; exact hV
  have hy1 : ¬ card_is_young vm u (card_address vm (u.reg store_addr)) := by
    rw [g1]; unfold card_is_young; rw [e4]; exact hy
  have hd1 : card_value u (card_address vm (u.reg store_addr)) ≠ 0 := by
    rw [g1, e4]; exact hd
  have n1 : card_loc (card_address vm A) ≠
      insertion_slot s .dirty_card_queue_index_offset .dirty_card_queue_buffer_offset := by
    simp [card_loc, insertion_slot, queue_slot]
  have n2 : card_loc (card_address vm A) ≠ thread_field s .dirty_card_queue_index_offset := by
    simp [card_loc, thread_field]
  by_cases hi : queue_index s .dirty_card_queue_index_offset = 0
  · obtain ⟨-, j2, j3⟩ := post_full vm store_addr new_val tmp1 tmp2 u hA hz hr1 hV1 hy1 hd1
      (e2.trans hi) _ rfl
    rw [g1] at j2 j3
    rw [e1, g3] at j3
    refine ⟨?_, fun h => absurd hi h, fun _ => ⟨j2, j3⟩⟩
    rw [j2, if_pos rfl]; rfl
  · obtain ⟨-, j2, j3⟩ := post_insert vm store_addr new_val tmp1 tmp2 u hA hz hr1 hV1 hy1 hd1
      (by rw [e2]; exact hi) _ rfl
    rw [g1, e3, e2, e1] at j2
    rw [g1, e3, e2, e1, e1] at j3
    refine ⟨?_, fun _ => ⟨j2, j3⟩, fun h => absurd h hi⟩
    rw [j2, if_neg n1, if_neg n2, if_pos rfl]; rfl

/-- State of `oop_store_at` when the post-barrier starts, for a store of a
register with marking inactive: `tmp3` holds the store address, the register of
the new value holds it, the field was written, and the trace has the load of
the flag and the store. -/
theorem oop_store_at_inactive_head (vm : VM) (decorators : DecoratorSet) (type : BasicType)
    (dst : Address) (val tmp1 tmp2 tmp3 : Register) (s : Machine)
    (hA : oop_store_at_asserts vm val tmp1 tmp2 tmp3)
    (hT : is_temp tmp1 ∧ is_temp tmp2 ∧ is_temp tmp3)
    (hval : val ≠ noreg ∧ val ≠ zr ∧ val ≠ rthread ∧ val ≠ tmp1 ∧ val ≠ tmp3 ∧ val ≠ rscratch2)
    (hflag : marking_active vm s = 0) :
    ∃ u, exec vm (oop_store_at vm decorators type dst val tmp1 tmp2 tmp3) s =
        exec vm (g1_write_barrier_post vm tmp3 (if vm.UseCompressedOops then rscratch2 else val)
          rthread tmp1 tmp2) u ∧
      u.reg tmp3 = (dst.loc s).addr ∧
      u.reg (if vm.UseCompressedOops then rscratch2 else val) = s.reg val ∧
      u.reg rthread = s.reg rthread ∧
      (∀ k, u.mem k = if k = field_loc (dst.loc s).addr then s.reg val else s.mem k) ∧
      u.trace = s.trace ++ [Event.load (thread_field s .satb_mark_queue_active_offset),
        Event.store (field_loc (dst.loc s).addr) (s.reg val)] := by
  obtain ⟨-, n1, n2, n3, d1, d2, d3, d4, d5, d6⟩ := pre_asserts_ne hA.1
  obtain ⟨⟨z1, t1⟩, ⟨z2, t2⟩, ⟨z3, t3⟩⟩ := hT
  obtain ⟨v1, v2, v3, v4, v5, v6⟩ := hval
  obtain ⟨f1, f2, f3, f4, f5⟩ := flatten_run vm dst tmp3 s
  have fv := f4 val v5
  have ft := f4 rthread t3.symm
  have fa := f5 z3
  have hflag1 : marking_active vm (run vm (flatten_object_address dst tmp3) none s).1 = 0 := by
    rw [(flatten_view vm dst tmp3 tmp2 s ⟨z3, t3⟩ (fun e => by
      have := (post_asserts_ne (hA.2 v1)).2.2.2.2.2.1; exact this e)).1]
    exact hflag
  have hp := pre_inactive vm tmp3 tmp2 tmp1 rscratch2 (decide (val ≠ noreg)) false _ hflag1
  have hth : thread_field (run vm (flatten_object_address dst tmp3) none s).1
      .satb_mark_queue_active_offset = thread_field s .satb_mark_queue_active_offset := by
    unfold thread_field; rw [ft]
  cases hc : vm.UseCompressedOops
  · refine ⟨(run vm [Insn.store_at decorators type (Address.of_heap tmp3 0) val] none
      (((run vm (flatten_object_address dst tmp3) none s).1.log
        (Event.load (thread_field s .satb_mark_queue_active_offset))).set tmp1 0)).1, ?_, ?_⟩
    · unfold exec oop_store_at
      simp only [v1, hc, if_false, Bool.false_eq_true, List.nil_append]
      simp only [run_append, f1, hp, hth]
      simp [hc]
    · refine ⟨?_, ?_, ?_, ?_, ?_⟩ <;> try intro k
      all_goals simp [hc, v1, v4, v5, d5, t1.symm, fa, fv, ft, f2, f3, field_loc,
        -Nat.reducePow]
  · refine ⟨(run vm [Insn.mov rscratch2 val,
        Insn.store_at decorators type (Address.of_heap tmp3 0) val] none
      (((run vm (flatten_object_address dst tmp3) none s).1.log
        (Event.load (thread_field s .satb_mark_queue_active_offset))).set tmp1 0)).1, ?_, ?_⟩
    · unfold exec oop_store_at
      simp only [v1, hc, if_false, if_true]
      simp only [run_append, f1, hp, hth]
      simp [hc]
    · refine ⟨?_, ?_, ?_, ?_, ?_⟩ <;> try intro k
      all_goals simp [hc, v1, v2, v3, v4, v5, v6, v3.symm, v5.symm, v6.symm, d5, d6, d6.symm,
        t1.symm, fa, fv, ft, f2, f3, field_loc, -Nat.reducePow]

/-- Scenario A in general: marking inactive, a store of a non-null reference
across regions, card neither young nor dirty. -/
theorem oop_store_at_inactive_clean (vm : VM) (decorators : DecoratorSet) (type : BasicType)
    (dst : Address) (val tmp1 tmp2 tmp3 : Register) (s : Machine)
    (hA : oop_store_at_asserts vm val tmp1 tmp2 tmp3)
    (hT : is_temp tmp1 ∧ is_temp tmp2 ∧ is_temp tmp3)
    (hval : val ≠ noreg ∧ val ≠ zr ∧ val ≠ rthread ∧ val ≠ tmp1 ∧ val ≠ tmp3 ∧ val ≠ rscratch2)
    (hflag : marking_active vm s = 0)
    (hr : ¬ same_region vm (dst.loc s).addr (s.reg val)) (hV : s.reg val ≠ 0)
    (hy : ¬ card_is_young vm s (card_address vm (dst.loc s).addr))
    (hd : card_value s (card_address vm (dst.loc s).addr) ≠ dirty_card_val) :
    (exec vm (oop_store_at vm decorators type dst val tmp1 tmp2 tmp3) s).mem
      (card_loc (card_address vm (dst.loc s).addr)) = dirty_card_val ∧
    (queue_index s .dirty_card_queue_index_offset ≠ 0 →
      (exec vm (oop_store_at vm decorators type dst val tmp1 tmp2 tmp3) s).mem
        (insertion_slot s .dirty_card_queue_index_offset .dirty_card_queue_buffer_offset) =
          card_address vm (dst.loc s).addr ∧
      queue_index (exec vm (oop_store_at vm decorators type dst val tmp1 tmp2 tmp3) s)
        .dirty_card_queue_index_offset =
          next_index (queue_index s .dirty_card_queue_index_offset) ∧
      (exec vm (oop_store_at vm decorators type dst val tmp1 tmp2 tmp3) s).trace =
        s.trace ++
          [Event.load (thread_field s .satb_mark_queue_active_offset),
           Event.store (field_loc (dst.loc s).addr) (s.reg val),
           Event.load (card_loc (card_address vm (dst.loc s).addr)), Event.membar,
           Event.load (card_loc (card_address vm (dst.loc s).addr)),
           Event.store (card_loc (card_address vm (dst.loc s).addr)) 0,
           Event.load (thread_field s .dirty_card_queue_index_offset),
           Event.store (thread_field s .dirty_card_queue_index_offset)
             (next_index (queue_index s .dirty_card_queue_index_offset)),
           Event.load (thread_field s .dirty_card_queue_buffer_offset),
           Event.store (insertion_slot s .dirty_card_queue_index_offset
             .dirty_card_queue_buffer_offset) (card_address vm (dst.loc s).addr)]) ∧
    (queue_index s .dirty_card_queue_index_offset = 0 →
      (∀ a, (exec vm (oop_store_at vm decorators type dst val tmp1 tmp2 tmp3) s).mem
          (queue_slot .dirty_card_queue_buffer_offset a) =
        s.mem (queue_slot .dirty_card_queue_buffer_offset a)) ∧
      queue_index (exec vm (oop_store_at vm decorators type dst val tmp1 tmp2 tmp3) s)
        .dirty_card_queue_index_offset = 0 ∧
      (exec vm (oop_store_at vm decorators type dst val tmp1 tmp2 tmp3) s).trace =
        s.trace ++
          [Event.load (thread_field s .satb_mark_queue_active_offset),
           Event.store (field_loc (dst.loc s).addr) (s.reg val),
           Event.load (card_loc (card_address vm (dst.loc s).addr)), Event.membar,
           Event.load (card_loc (card_address vm (dst.loc s).addr)),
           Event.store (card_loc (card_address vm (dst.loc s).addr)) 0,
           Event.load (thread_field s .dirty_card_queue_index_offset),
           Event.call .write_ref_field_post_entry (card_address vm (dst.loc s).addr)
             (s.reg rthread)]) := by
  obtain ⟨u, hu, g1, g2, g3, g4, g5⟩ := oop_store_at_inactive_head vm decorators type dst val
    tmp1 tmp2 tmp3 s hA hT hval hflag
  have hpa := hA.2 hval.1
  have hz : tmp1 ≠ zr ∧ tmp2 ≠ zr := ⟨hT.1.1, hT.2.1.1⟩
  have g4c : ∀ k, card_cell k = true → u.mem k = s.mem k := by
    intro k hk
    rw [g4]
    have : k ≠ field_loc (dst.loc s).addr := by
      intro e; rw [e] at hk; simp [card_cell, field_loc] at hk
    rw [if_neg this]
  obtain ⟨c1, c2, c3⟩ := post_clean_from vm tmp3 _ tmp1 tmp2 s u _ _ hpa hz g1 g2 g3 g4c hr hV hy hd
  have hth : (exec vm (g1_write_barrier_post vm tmp3
      (if vm.UseCompressedOops then rscratch2 else val) rthread tmp1 tmp2) u).reg rthread =
      s.reg rthread := by
    unfold exec
    rw [post_keeps_thread vm tmp3 _ tmp1 tmp2 ⟨hT.2.2.2, hT.1.2, hT.2.1.2⟩, g3]
  have n3 : thread_field s .dirty_card_queue_index_offset ≠
      insertion_slot s .dirty_card_queue_index_offset .dirty_card_queue_buffer_offset := by
    simp [thread_field, insertion_slot, queue_slot]
  have n4 : thread_field s .dirty_card_queue_index_offset ≠
      card_loc (card_address vm (dst.loc s).addr) := by
    simp [thread_field, card_loc]
  have n5 : thread_field s .dirty_card_queue_index_offset ≠ field_loc (dst.loc s).addr := by
    simp [thread_field, field_loc]
  rw [hu]
  refine ⟨c1, fun hi => ?_, fun hi => ?_⟩
  · obtain ⟨m, t⟩ := c2 hi
    refine ⟨?_, ?_, ?_⟩
    · rw [m, if_pos rfl]
    · unfold queue_index thread_field
      rw [hth]
      have := m (thread_field s .dirty_card_queue_index_offset)
      unfold thread_field at this n3
      rw [this, if_neg n3, if_pos rfl]
      exact Nat.mod_eq_of_lt (Nat.mod_lt _ (Nat.two_pow_pos 64))
    · rw [t, g5]; simp
  · obtain ⟨m, t⟩ := c3 hi
    refine ⟨?_, ?_, ?_⟩
    · intro a
      rw [m, g4]
      have q1 : queue_slot .dirty_card_queue_buffer_offset a ≠
          card_loc (card_address vm (dst.loc s).addr) := by simp [queue_slot, card_loc]
      have q2 : queue_slot .dirty_card_queue_buffer_offset a ≠ field_loc (dst.loc s).addr := by
        simp [queue_slot, field_loc]
      rw [if_neg q1, if_neg q2]
    · unfold queue_index thread_field
      rw [hth]
      have := m (thread_field s .dirty_card_queue_index_offset)
      unfold thread_field at this n4 n5
      rw [this, if_neg n4, g4, if_neg n5]
      exact hi
    · rw [t, g5]; simp

/-- C7, as the code has it (scenario A). With regions of 4096 bytes and marking
inactive, a store through `oop_store_at` of a non-null reference `V` at address
`A` in another region, whose card is clean (neither young nor dirty), leaves
the SATB queue untouched and sets the card of `A` to the dirty value.  When the
dirty-card index is non-zero, the card address of `A` is stored into the
dirty-card queue exactly once (the trace of the whole store has one store into
the queue storage) and the index is decremented by one slot.  When the index is
zero, the queue is left as it was and the card address is passed once to
`write_ref_field_post_entry`. -/
theorem oop_store_at_scenario_a (vm : VM) (decorators : DecoratorSet) (type : BasicType)
    (dst : Address) (val tmp1 tmp2 tmp3 : Register) (s : Machine) (A V : Nat)
    (hL : vm.LogOfHRGrainBytes = 12)
    (hA : oop_store_at_asserts vm val tmp1 tmp2 tmp3)
    (hT : is_temp tmp1 ∧ is_temp tmp2 ∧ is_temp tmp3)
    (hval : val ≠ noreg ∧ val ≠ zr ∧ val ≠ rthread ∧ val ≠ tmp1 ∧ val ≠ tmp3 ∧ val ≠ rscratch2)
    (hflag : marking_active vm s = 0)
    (hAeq : (dst.loc s).addr = A) (hVeq : s.reg val = V)
    (hr : A / 4096 ≠ V / 4096) (hV : V ≠ 0)
    (hy : ¬ card_is_young vm s (card_address vm A))
    (hd : card_value s (card_address vm A) ≠ dirty_card_val) :
    quiet satb_cell satb_action s
      (exec vm (oop_store_at vm decorators type dst val tmp1 tmp2 tmp3) s) ∧
    (exec vm (oop_store_at vm decorators type dst val tmp1 tmp2 tmp3) s).mem
      (card_loc (card_address vm A)) = dirty_card_val ∧
    (queue_index s .dirty_card_queue_index_offset ≠ 0 →
      (exec vm (oop_store_at vm decorators type dst val tmp1 tmp2 tmp3) s).mem
        (insertion_slot s .dirty_card_queue_index_offset .dirty_card_queue_buffer_offset) =
          card_address vm A ∧
      queue_index (exec vm (oop_store_at vm decorators type dst val tmp1 tmp2 tmp3) s)
        .dirty_card_queue_index_offset =
          next_index (queue_index s .dirty_card_queue_index_offset) ∧
      (exec vm (oop_store_at vm decorators type dst val tmp1 tmp2 tmp3) s).trace =
        s.trace ++
          [Event.load (thread_field s .satb_mark_queue_active_offset),
           Event.store (field_loc A) V,
           Event.load (card_loc (card_address vm A)), Event.membar,
           Event.load (card_loc (card_address vm A)),
           Event.store (card_loc (card_address vm A)) 0,
           Event.load (thread_field s .dirty_card_queue_index_offset),
           Event.store (thread_field s .dirty_card_queue_index_offset)
             (next_index (queue_index s .dirty_card_queue_index_offset)),
           Event.load (thread_field s .dirty_card_queue_buffer_offset),
           Event.store (insertion_slot s .dirty_card_queue_index_offset
             .dirty_card_queue_buffer_offset) (card_address vm A)]) ∧
    (queue_index s .dirty_card_queue_index_offset = 0 →
      (∀ a, (exec vm (oop_store_at vm decorators type dst val tmp1 tmp2 tmp3) s).mem
          (queue_slot .dirty_card_queue_buffer_offset a) =
        s.mem (queue_slot .dirty_card_queue_buffer_offset a)) ∧
      queue_index (exec vm (oop_store_at vm decorators type dst val tmp1 tmp2 tmp3) s)
        .dirty_card_queue_index_offset = 0 ∧
      (exec vm (oop_store_at vm decorators type dst val tmp1 tmp2 tmp3) s).trace =
        s.trace ++
          [Event.load (thread_field s .satb_mark_queue_active_offset),
           Event.store (field_loc A) V,
           Event.load (card_loc (card_address vm A)), Event.membar,
           Event.load (card_loc (card_address vm A)),
           Event.store (card_loc (card_address vm A)) 0,
           Event.load (thread_field s .dirty_card_queue_index_offset),
           Event.call .write_ref_field_post_entry (card_address vm A) (s.reg rthread)]) := by
  subst hAeq hVeq
  have hr1 : ¬ same_region vm (dst.loc s).addr (s.reg val) := by
    unfold same_region; rw [hL]; exact hr
  exact ⟨(oop_store_at_inactive vm decorators type dst val tmp1 tmp2 tmp3 s hflag
      ⟨hT.1.2, hT.2.1.2, hT.2.2.2, hval.2.2.1⟩).2,
    oop_store_at_inactive_clean vm decorators type dst val tmp1 tmp2 tmp3 s hA hT hval hflag
      hr1 hV hy hd⟩

/-- Witness of the amended C7: the example store with marking inactive, a clean
card (255) and dirty-card index 16. -/
theorem oop_store_at_scenario_a_witness :
    (exec demo_vm (oop_store_at demo_vm 0 .T_OBJECT (Address.of_heap (.r 2) 0) (.r 3) (.r 5)
      (.r 6) (.r 7)) (demo_state 0 16 16 255)).mem (card_loc (card_address demo_vm 8200)) =
        dirty_card_val ∧
    (exec demo_vm (oop_store_at demo_vm 0 .T_OBJECT (Address.of_heap (.r 2) 0) (.r 3) (.r 5)
      (.r 6) (.r 7)) (demo_state 0 16 16 255)).mem
        (insertion_slot (demo_state 0 16 16 255) .dirty_card_queue_index_offset
          .dirty_card_queue_buffer_offset) = card_address demo_vm 8200 :=
  ⟨(oop_store_at_scenario_a demo_vm 0 .T_OBJECT (Address.of_heap (.r 2) 0) (.r 3) (.r 5) (.r 6)
      (.r 7) (demo_state 0 16 16 255) 8200 20496 (by decide) (by decide) (by decide) (by decide)
      (by decide) (by decide) (by decide) (by decide) (by decide) (by decide) (by decide)).2.1,
   ((oop_store_at_scenario_a demo_vm 0 .T_OBJECT (Address.of_heap (.r 2) 0) (.r 3) (.r 5) (.r 6)
      (.r 7) (demo_state 0 16 16 255) 8200 20496 (by decide) (by decide) (by decide) (by decide)
      (by decide) (by decide) (by decide) (by decide) (by decide) (by decide) (by decide)).2.2.1
      (by decide)).1⟩

/-- Counterexample to C7 as stated: scenario A (regions of 4096 bytes, marking
inactive, store at 8200 in region 2 of the reference 20496 in region 5, card at
65552 clean) with the dirty-card index at zero.  After `oop_store_at` no cell of
the dirty-card storage holds the card address and the index is still zero: the
card address was not inserted into the queue but passed to
`write_ref_field_post_entry`. -/
theorem oop_store_at_scenario_a_full_queue :
    demo_vm.LogOfHRGrainBytes = 12 ∧
    marking_active demo_vm (demo_state 0 16 0 255) = 0 ∧
    ((Address.of_heap (.r 2) 0).loc (demo_state 0 16 0 255)).addr = 8200 ∧
    (demo_state 0 16 0 255).reg (.r 3) = 20496 ∧
    8200 / 4096 ≠ 20496 / 4096 ∧
    card_address demo_vm 8200 = 65552 ∧
    card_value (demo_state 0 16 0 255) 65552 = 255 ∧
    (∀ a, (exec demo_vm (oop_store_at demo_vm 0 .T_OBJECT (Address.of_heap (.r 2) 0) (.r 3)
      (.r 5) (.r 6) (.r 7)) (demo_state 0 16 0 255)).mem
        (queue_slot .dirty_card_queue_buffer_offset a) ≠ 65552) ∧
    queue_index (exec demo_vm (oop_store_at demo_vm 0 .T_OBJECT (Address.of_heap (.r 2) 0)
      (.r 3) (.r 5) (.r 6) (.r 7)) (demo_state 0 16 0 255)) .dirty_card_queue_index_offset = 0 ∧
    runtime_calls .write_ref_field_post_entry
      (exec demo_vm (oop_store_at demo_vm 0 .T_OBJECT (Address.of_heap (.r 2) 0) (.r 3)
        (.r 5) (.r 6) (.r 7)) (demo_state 0 16 0 255)).trace =
      [Event.call .write_ref_field_post_entry 65552 28672] := by
  refine ⟨by decide, by decide, by decide, by decide, by decide, by decide, by decide, ?_,
    by decide, by decide⟩
  intro a
  rw [((oop_store_at_inactive_clean demo_vm 0 .T_OBJECT (Address.of_heap (.r 2) 0) (.r 3) (.r 5)
    (.r 6) (.r 7) (demo_state 0 16 0 255) (by decide) (by decide) (by decide) (by decide)
    (by decide) (by decide) (by decide) (by decide)).2.2 (by decide)).1 a]
  simp [demo_state, queue_slot]


/-! ## Filling a queue -/

/-- One insertion into a queue whose index is not zero. -/
theorem queue_insertion_step (vm : VM) (index_offset buffer_offset : ByteSize) (runtime : Label)
    (value temp1 temp2 : Register) (s : Machine)
    (hf : index_offset ≠ buffer_offset)
    (hz : temp1 ≠ zr ∧ temp2 ≠ zr)
    (ht : temp1 ≠ rthread ∧ temp2 ≠ rthread)
    (hd : value ≠ temp1 ∧ value ≠ temp2 ∧ temp1 ≠ temp2) (hn : temp1 ≠ noreg)
    (hi : queue_index s index_offset ≠ 0) :
    ∀ t, t = exec vm (generate_queue_test_and_insertion index_offset buffer_offset runtime
        rthread value temp1 temp2) s →
    exit_label vm (generate_queue_test_and_insertion index_offset buffer_offset runtime
        rthread value temp1 temp2) s = none ∧
    (∀ k, t.mem k =
      if k = insertion_slot s index_offset buffer_offset then s.reg value
      else if k = thread_field s index_offset then next_index (queue_index s index_offset)
      else s.mem k) ∧
    (∀ x, x ≠ temp1 → x ≠ temp2 → t.reg x = s.reg x) := by
  obtain ⟨z1, z2⟩ := hz
  obtain ⟨t1, t2⟩ := ht
  obtain ⟨d1, d2, d3⟩ := hd
  unfold queue_index thread_field at hi
  intro t h; subst h
  (refine ⟨?_, ?_, ?_⟩ <;> try intro x hx1 hx2) <;>
  simp [exec, exit_label, generate_queue_test_and_insertion, thread_field, insertion_slot,
    queue_slot, queue_index, queue_buffer, next_index, hi, hf, hf.symm, hn, z1, z2, t1, t2, d1, d2, d3,
    t1.symm, t2.symm, d3.symm, -Nat.reducePow, *]

theorem queue_slot_ne (f : ByteSize) (B a b : Nat) (ha : a < 2 ^ 64) (hb : b < 2 ^ 64)
    (hab : a ≠ b) : queue_slot f ((B + a) % 2 ^ 64) ≠ queue_slot f ((B + b) % 2 ^ 64) := by
  intro e
  have e2 : (B + a) % 2 ^ 64 = (B + b) % 2 ^ 64 := congrArg Loc.addr e
  omega

theorem slot_offsets (j k : Nat) (hj : j * wordSize < 2 ^ 64) (hk : k + 2 ≤ j) :
    (j - 1) * wordSize < 2 ^ 64 ∧ (j - 1 - (k + 1)) * wordSize < 2 ^ 64 ∧
    (j - 1) * wordSize ≠ (j - 1 - (k + 1)) * wordSize := by
  unfold wordSize at *
  omega

/-- Invariant of successive insertions: starting with index `j` slots, the
values go to the slots below the index, from the top down. -/
theorem insert_values_spec (vm : VM) (index_offset buffer_offset : ByteSize) (runtime : Label)
    (value temp1 temp2 : Register)
    (hf : index_offset ≠ buffer_offset)
    (hz : temp1 ≠ zr ∧ temp2 ≠ zr)
    (ht : temp1 ≠ rthread ∧ temp2 ≠ rthread)
    (hd : value ≠ temp1 ∧ value ≠ temp2 ∧ temp1 ≠ temp2) (hn : temp1 ≠ noreg)
    (hv : value ≠ zr ∧ value ≠ rthread) (vs : List Nat) :
    ∀ (s : Machine) (j : Nat), queue_index s index_offset = j * wordSize →
      j * wordSize < 2 ^ 64 → vs.length ≤ j →
      (insert_values vm index_offset buffer_offset runtime rthread value temp1 temp2 vs s).reg
        rthread = s.reg rthread ∧
      queue_buffer (insert_values vm index_offset buffer_offset runtime rthread value temp1 temp2
        vs s) buffer_offset = queue_buffer s buffer_offset ∧
      queue_index (insert_values vm index_offset buffer_offset runtime rthread value temp1 temp2
        vs s) index_offset = (j - vs.length) * wordSize ∧
      (∀ k v, vs[k]? = some v →
        (insert_values vm index_offset buffer_offset runtime rthread value temp1 temp2 vs s).mem
          (queue_slot buffer_offset
            ((queue_buffer s buffer_offset + (j - (k + 1)) * wordSize) % 2 ^ 64)) = v % 2 ^ 64) ∧
      (∀ l, l ≠ thread_field s index_offset →
        (∀ k, k < vs.length → l ≠ queue_slot buffer_offset
          ((queue_buffer s buffer_offset + (j - (k + 1)) * wordSize) % 2 ^ 64)) →
        (insert_values vm index_offset buffer_offset runtime rthread value temp1 temp2 vs s).mem l =
          s.mem l) := by
  induction vs with
  | nil =>
    intro s j hi hj hl
    refine ⟨rfl, rfl, ?_, ?_, fun _ _ _ => rfl⟩
    · simpa [insert_values] using hi
    · intro k v h; simp at h
  | cons v rest ih =>
    intro s j hi hj hl
    have hl1 : rest.length + 1 ≤ j := by simpa using hl
    have r0 : (s.set value v).reg rthread = s.reg rthread := by simp [hv.2.symm]
    have tf : ∀ f, thread_field (s.set value v) f = thread_field s f := fun f => by
      unfold thread_field; rw [r0]
    have qi : queue_index (s.set value v) index_offset = j * wordSize := by
      unfold queue_index; rw [tf]; exact hi
    have qb : queue_buffer (s.set value v) buffer_offset = queue_buffer s buffer_offset := by
      unfold queue_buffer; rw [tf]; rfl
    have hi0 : queue_index (s.set value v) index_offset ≠ 0 := by
      rw [qi]; unfold wordSize; omega
    obtain ⟨-, m1, g1⟩ := queue_insertion_step vm index_offset buffer_offset runtime value temp1
      temp2 (s.set value v) hf hz ht hd hn hi0 _ rfl
    have hni : next_index (j * wordSize) = (j - 1) * wordSize := by
      unfold next_index wordSize at *; omega
    have hslot : insertion_slot (s.set value v) index_offset buffer_offset =
        queue_slot buffer_offset ((queue_buffer s buffer_offset + (j - 1) * wordSize) % 2 ^ 64) := by
      unfold insertion_slot; rw [qb, qi, hni]
    rw [hslot, tf, qi, hni] at m1
    have hval : (s.set value v).reg value = v % 2 ^ 64 := by
      simp [hv.1, Machine.reg, Machine.set]
    rw [hval] at m1
    simp only [Machine.mem_set] at m1
    have r1 : (exec vm (generate_queue_test_and_insertion index_offset buffer_offset runtime
        rthread value temp1 temp2) (s.set value v)).reg rthread = s.reg rthread := by
      rw [g1 rthread ht.1.symm ht.2.symm, r0]
    have tf1 : ∀ f, thread_field (exec vm (generate_queue_test_and_insertion index_offset
        buffer_offset runtime rthread value temp1 temp2) (s.set value v)) f = thread_field s f :=
      fun f => by unfold thread_field; rw [r1]
    have nb1 : thread_field s buffer_offset ≠ queue_slot buffer_offset
        ((queue_buffer s buffer_offset + (j - 1) * wordSize) % 2 ^ 64) := by
      simp [thread_field, queue_slot]
    have nb2 : thread_field s buffer_offset ≠ thread_field s index_offset := by
      simp [thread_field, hf.symm]
    have ni1 : thread_field s index_offset ≠ queue_slot buffer_offset
        ((queue_buffer s buffer_offset + (j - 1) * wordSize) % 2 ^ 64) := by
      simp [thread_field, queue_slot]
    have qb1 : queue_buffer (exec vm (generate_queue_test_and_insertion index_offset buffer_offset
        runtime rthread value temp1 temp2) (s.set value v)) buffer_offset =
        queue_buffer s buffer_offset := by
      unfold queue_buffer; rw [tf1, m1, if_neg nb1, if_neg nb2]
    have qi1 : queue_index (exec vm (generate_queue_test_and_insertion index_offset buffer_offset
        runtime rthread value temp1 temp2) (s.set value v)) index_offset = (j - 1) * wordSize := by
      unfold queue_index; rw [tf1, m1, if_neg ni1, if_pos rfl]
      unfold wordSize at *; omega
    have hj1 : (j - 1) * wordSize < 2 ^ 64 := by unfold wordSize at *; omega
    obtain ⟨i1, i2, i3, i4, i5⟩ := ih _ (j - 1) qi1 hj1 (by omega)
    rw [qb1] at i4 i5
    rw [tf1] at i5
    have hdist : ∀ k, k < rest.length →
        queue_slot buffer_offset ((queue_buffer s buffer_offset + (j - 1) * wordSize) % 2 ^ 64) ≠
        queue_slot buffer_offset
          ((queue_buffer s buffer_offset + (j - 1 - (k + 1)) * wordSize) % 2 ^ 64) := by
      intro k hk
      obtain ⟨o1, o2, o3⟩ := slot_offsets j k hj (by omega)
      exact queue_slot_ne _ _ _ _ o1 o2 o3
    simp only [insert_values]
    refine ⟨i1.trans r1, i2.trans qb1, ?_, ?_, ?_⟩
    · have e : j - 1 - rest.length = j - (v :: rest).length := by
        simp only [List.length_cons]; omega
      rw [i3, e]
    · intro k w hk
      cases k with
      | zero =>
        simp at hk; subst hk
        rw [i5 _ ni1.symm hdist, m1, if_pos rfl]
      | succ k =>
        simp at hk
        have := i4 k w hk
        have e : j - 1 - (k + 1) = j - (k + 1 + 1) := by omega
        rw [e] at this
        exact this
    · intro l hl1 hl2
      have a0 := hl2 0 (by simp)
      have a1 : ∀ k, k < rest.length → l ≠ queue_slot buffer_offset
          ((queue_buffer s buffer_offset + (j - 1 - (k + 1)) * wordSize) % 2 ^ 64) := by
        intro k hk
        have := hl2 (k + 1) (by simpa using hk)
        have e : j - 1 - (k + 1) = j - (k + 1 + 1) := by omega
        rw [e]; exact this
      rw [i5 l hl1 a1, m1, if_neg a0, if_neg hl1]

/-- The insertion code branches to the runtime label exactly when the index
reads zero. -/
theorem queue_insertion_exit (vm : VM) (index_offset buffer_offset : ByteSize) (runtime : Label)
    (value temp1 temp2 : Register) (s : Machine) (hz : temp1 ≠ zr) :
    exit_label vm (generate_queue_test_and_insertion index_offset buffer_offset runtime
        rthread value temp1 temp2) s = some runtime ↔ queue_index s index_offset = 0 := by
  unfold queue_index thread_field
  by_cases h : s.mem ⟨Space.thread index_offset, s.reg rthread⟩ % 2 ^ 64 = 0 <;>
  simp [exit_label, generate_queue_test_and_insertion, h, hz, -Nat.reducePow]

/-- C11. A queue whose storage has capacity `c` bytes, `c = m * wordSize`,
starts with index `c`.  After the insertion code of
`generate_queue_test_and_insertion` has run once for each of `n ≤ m` values,
the `k`-th value (counted from one) lies at byte offset `c - k * wordSize` of
the storage, so the entries fill the storage from the top down, and the index
is `c - n * wordSize`.  The index is zero exactly when `m` values have been
inserted, and exactly then the next execution of the insertion code, whatever
its value, branches to the runtime label. -/
theorem insert_values_back_to_front (vm : VM) (index_offset buffer_offset : ByteSize)
    (runtime : Label) (value temp1 temp2 : Register) (s : Machine) (c m : Nat) (vs : List Nat)
    (hf : index_offset ≠ buffer_offset)
    (hz : temp1 ≠ zr ∧ temp2 ≠ zr)
    (ht : temp1 ≠ rthread ∧ temp2 ≠ rthread)
    (hd : value ≠ temp1 ∧ value ≠ temp2 ∧ temp1 ≠ temp2) (hn : temp1 ≠ noreg)
    (hv : value ≠ zr ∧ value ≠ rthread)
    (hc : c = m * wordSize) (hlt : c < 2 ^ 64)
    (hidx : queue_index s index_offset = c) (hlen : vs.length ≤ m) :
    (∀ k v, vs[k]? = some v →
      (insert_values vm index_offset buffer_offset runtime rthread value temp1 temp2 vs s).mem
        (queue_slot buffer_offset
          ((queue_buffer s buffer_offset + (c - (k + 1) * wordSize)) % 2 ^ 64)) = v % 2 ^ 64) ∧
    queue_index (insert_values vm index_offset buffer_offset runtime rthread value temp1 temp2
      vs s) index_offset = c - vs.length * wordSize ∧
    (queue_index (insert_values vm index_offset buffer_offset runtime rthread value temp1 temp2
      vs s) index_offset = 0 ↔ vs.length = m) ∧
    (∀ w, exit_label vm (generate_queue_test_and_insertion index_offset buffer_offset runtime
        rthread value temp1 temp2)
        ((insert_values vm index_offset buffer_offset runtime rthread value temp1 temp2
          vs s).set value w) = some runtime ↔ vs.length = m) := by
  subst hc
  obtain ⟨i1, -, i3, i4, -⟩ := insert_values_spec vm index_offset buffer_offset runtime value
    temp1 temp2 hf hz ht hd hn hv vs s m hidx hlt hlen
  have hzero : (m - vs.length) * wordSize = 0 ↔ vs.length = m := by
    unfold wordSize; omega
  refine ⟨?_, ?_, ?_, ?_⟩
  · intro k v hk
    rw [← Nat.sub_mul]
    exact i4 k v hk
  · rw [i3, Nat.sub_mul]
  · rw [i3]; exact hzero
  · intro w
    rw [queue_insertion_exit vm index_offset buffer_offset runtime value temp1 temp2 _ hz.1]
    have e : queue_index ((insert_values vm index_offset buffer_offset runtime rthread value
        temp1 temp2 vs s).set value w) index_offset =
        queue_index (insert_values vm index_offset buffer_offset runtime rthread value
          temp1 temp2 vs s) index_offset := by
      unfold queue_index thread_field
      simp [hv.2.symm]
    rw [e, i3]; exact hzero

/-- Witness of C11: the SATB queue of the example state has capacity 16 and
index 16; after the insertion of 111 and 222 the slot at offset 8 holds 111 and
the slot at offset 0 holds 222. -/
theorem insert_values_back_to_front_witness :
    (insert_values demo_vm .satb_mark_queue_index_offset .satb_mark_queue_buffer_offset .runtime
      rthread (.r 5) (.r 6) (.r 7) [111, 222] (demo_state 1 16 16 255)).mem
        (queue_slot .satb_mark_queue_buffer_offset 36872) = 111 ∧
    (insert_values demo_vm .satb_mark_queue_index_offset .satb_mark_queue_buffer_offset .runtime
      rthread (.r 5) (.r 6) (.r 7) [111, 222] (demo_state 1 16 16 255)).mem
        (queue_slot .satb_mark_queue_buffer_offset 36864) = 222 :=
  ⟨(insert_values_back_to_front demo_vm .satb_mark_queue_index_offset
      .satb_mark_queue_buffer_offset .runtime (.r 5) (.r 6) (.r 7) (demo_state 1 16 16 255) 16 2
      [111, 222] (by decide) (by decide) (by decide) (by decide) (by decide) (by decide)
      (by decide) (by decide) (by decide) (by decide)).1 0 111 rfl,
   (insert_values_back_to_front demo_vm .satb_mark_queue_index_offset
      .satb_mark_queue_buffer_offset .runtime (.r 5) (.r 6) (.r 7) (demo_state 1 16 16 255) 16 2
      [111, 222] (by decide) (by decide) (by decide) (by decide) (by decide) (by decide)
      (by decide) (by decide) (by decide) (by decide)).1 1 222 rfl⟩


/-! ## The region test -/

/-- C12. For all words `a` and `b` and every region shift
`k = LogOfHRGrainBytes`, `(a xor b) >> k` is zero if and only if `a` and `b`
lie in the same naturally aligned region of `2 ^ k` bytes
(`a / 2 ^ k = b / 2 ^ k`).  The fast path of the post-barrier computes this
value into `tmp1`, and its first branch, `cbz tmp1, done`, is taken exactly for
stores within one region. -/
theorem post_barrier_region_test (vm : VM) (store_addr new_val tmp1 tmp2 : Register)
    (done : Label) (new_val_may_be_null : Bool) (s : Machine) (hz : tmp1 ≠ zr) :
    (∀ a b : Nat, (a ^^^ b) >>> vm.LogOfHRGrainBytes = 0 ↔
      a / 2 ^ vm.LogOfHRGrainBytes = b / 2 ^ vm.LogOfHRGrainBytes) ∧
    (exec vm ((generate_post_barrier_fast_path vm store_addr new_val tmp1 tmp2 done
        new_val_may_be_null).take 2) s).reg tmp1 =
      (s.reg store_addr ^^^ s.reg new_val) >>> vm.LogOfHRGrainBytes ∧
    (exit_label vm ((generate_post_barrier_fast_path vm store_addr new_val tmp1 tmp2 done
        new_val_may_be_null).take 3) s = some done ↔
      same_region vm (s.reg store_addr) (s.reg new_val)) := by
  refine ⟨fun a b => region_test_eq_zero vm a b, ?_, ?_⟩
  · simp [exec, generate_post_barrier_fast_path, hz, -Nat.reducePow]
  · rw [← region_test_eq_zero]
    by_cases h : (s.reg store_addr ^^^ s.reg new_val) >>> vm.LogOfHRGrainBytes = 0 <;>
    simp [exit_label, generate_post_barrier_fast_path, hz, h, -Nat.reducePow]

/-- Witness of C12: the example store (address 8200, value 20496, regions of
4096 bytes) does not take the first exit. -/
theorem post_barrier_region_test_witness :
    ¬ exit_label demo_vm ((generate_post_barrier_fast_path demo_vm (.r 2) (.r 3) (.r 5) (.r 6)
      .done true).take 3) (demo_state 0 16 16 255) = some .done :=
  fun h => absurd ((post_barrier_region_test demo_vm (.r 2) (.r 3) (.r 5) (.r 6) .done true
    (demo_state 0 16 16 255) (by decide)).2.2.mp h) (by decide)

/-! ## The pre-barrier on a null previous value -/

/-- Path of the pre-barrier with marking active and a null previous value. -/
theorem pre_null (vm : VM) (obj pre_val tmp1 tmp2 : Register) (tosca_live expand_call : Bool)
    (s : Machine)
    (hA : g1_write_barrier_pre_asserts obj pre_val rthread tmp1 tmp2 expand_call)
    (hT : is_temp pre_val ∧ is_temp tmp1 ∧ is_temp tmp2)
    (hact : marking_active vm s ≠ 0)
    (hP : previous_value s obj pre_val = 0) :
    exit_label vm (g1_write_barrier_pre vm obj pre_val rthread tmp1 tmp2 tosca_live
      expand_call) s = none ∧
    (exec vm (g1_write_barrier_pre vm obj pre_val rthread tmp1 tmp2 tosca_live
      expand_call) s).mem = s.mem ∧
    (exec vm (g1_write_barrier_pre vm obj pre_val rthread tmp1 tmp2 tosca_live
      expand_call) s).trace = s.trace ++
        ([Event.load (thread_field s .satb_mark_queue_active_offset)] ++
         (if obj ≠ noreg then [Event.load (field_loc (s.reg obj))] else [])) := by
  obtain ⟨-, n1, n2, n3, d1, d2, d3, d4, d5, d6⟩ := pre_asserts_ne hA
  obtain ⟨⟨z1, t1⟩, ⟨z2, t2⟩, ⟨z3, t3⟩⟩ := hT
  unfold marking_active thread_field at hact
  unfold previous_value field_loc at hP
  by_cases hw : vm.byte_width_of_active = 4 <;> simp only [hw, if_true, if_false] at hact <;>
  by_cases ho : obj = noreg <;>
  simp only [ho, ne_eq, not_true, not_false_eq_true, if_true, if_false] at hP <;>
  cases expand_call <;>
  simp [exec, exit_label, g1_write_barrier_pre, generate_pre_barrier_fast_path,
    generate_pre_barrier_slow_path, generate_queue_test_and_insertion,
    thread_field, previous_value, field_loc, hw, ho, hact, hP,
    n1, n2, n3, d1, d2, d3, d4, d5, d6, z1, z2, z3, t1, t2, t3,
    d1.symm, d2.symm, d3.symm, t1.symm, t2.symm, t3.symm, -Nat.reducePow]

/-- The assertions of the pre-barrier still hold when the object register is
replaced by `noreg`. -/
theorem pre_asserts_noreg {obj pre_val thread tmp1 tmp2 : Register} {expand_call : Bool}
    (hA : g1_write_barrier_pre_asserts obj pre_val thread tmp1 tmp2 expand_call) :
    g1_write_barrier_pre_asserts noreg pre_val thread tmp1 tmp2 expand_call := by
  refine ⟨hA.1, ?_, hA.2.2.1, hA.2.2.2⟩
  have h := hA.2.1
  unfold different_registers at *
  by_cases ho : obj = noreg
  · subst ho; exact h
  · rw [List.filter_cons_of_pos (by simpa using ho)] at h
    rw [List.filter_cons_of_neg (by simp)]
    exact (List.nodup_cons.mp h).2

/-- C13. With marking active and a null previous value (loaded from the field
at `obj`, or supplied in `pre_val` when `obj` is `noreg`), the pre-barrier is a
no-op: control reaches `done`, no memory cell changes (so the SATB index and
storage are as before) and no runtime call is made.  When `obj` is `noreg` the
only memory access of that run is the load of the marking flag: nothing is
loaded from the heap, and the value supplied in `pre_val` is the value tested.
It is also the value logged: when it is not null it is written to the SATB
slot at the new index, or, with index zero, passed to
`write_ref_field_pre_entry`, again without any load from the heap. -/
theorem g1_write_barrier_pre_null (vm : VM) (obj pre_val tmp1 tmp2 : Register)
    (tosca_live expand_call : Bool) (s : Machine)
    (hA : g1_write_barrier_pre_asserts obj pre_val rthread tmp1 tmp2 expand_call)
    (hT : is_temp pre_val ∧ is_temp tmp1 ∧ is_temp tmp2)
    (hact : marking_active vm s ≠ 0) :
    (previous_value s obj pre_val = 0 →
      exit_label vm (g1_write_barrier_pre vm obj pre_val rthread tmp1 tmp2 tosca_live
        expand_call) s = none ∧
      (exec vm (g1_write_barrier_pre vm obj pre_val rthread tmp1 tmp2 tosca_live
        expand_call) s).mem = s.mem ∧
      (∀ ep, runtime_calls ep (exec vm (g1_write_barrier_pre vm obj pre_val rthread tmp1 tmp2
        tosca_live expand_call) s).trace = runtime_calls ep s.trace)) ∧
    (s.reg pre_val = 0 →
      (exec vm (g1_write_barrier_pre vm noreg pre_val rthread tmp1 tmp2 tosca_live
        expand_call) s).mem = s.mem ∧
      (exec vm (g1_write_barrier_pre vm noreg pre_val rthread tmp1 tmp2 tosca_live
        expand_call) s).trace =
          s.trace ++ [Event.load (thread_field s .satb_mark_queue_active_offset)]) ∧
    (s.reg pre_val ≠ 0 → queue_index s .satb_mark_queue_index_offset ≠ 0 →
      (exec vm (g1_write_barrier_pre vm noreg pre_val rthread tmp1 tmp2 tosca_live
        expand_call) s).mem
          (insertion_slot s .satb_mark_queue_index_offset .satb_mark_queue_buffer_offset) =
            s.reg pre_val ∧
      (exec vm (g1_write_barrier_pre vm noreg pre_val rthread tmp1 tmp2 tosca_live
        expand_call) s).trace = s.trace ++
          [Event.load (thread_field s .satb_mark_queue_active_offset),
           Event.load (thread_field s .satb_mark_queue_index_offset),
           Event.store (thread_field s .satb_mark_queue_index_offset)
             (next_index (queue_index s .satb_mark_queue_index_offset)),
           Event.load (thread_field s .satb_mark_queue_buffer_offset),
           Event.store (insertion_slot s .satb_mark_queue_index_offset
             .satb_mark_queue_buffer_offset) (s.reg pre_val)]) ∧
    (s.reg pre_val ≠ 0 → queue_index s .satb_mark_queue_index_offset = 0 →
      (exec vm (g1_write_barrier_pre vm noreg pre_val rthread tmp1 tmp2 tosca_live
        expand_call) s).trace = s.trace ++
          [Event.load (thread_field s .satb_mark_queue_active_offset),
           Event.load (thread_field s .satb_mark_queue_index_offset),
           Event.call .write_ref_field_pre_entry (s.reg pre_val) (s.reg rthread)]) := by
  have pv : previous_value s noreg pre_val = s.reg pre_val := by simp [previous_value]
  have hN := pre_asserts_noreg hA
  refine ⟨fun hP => ?_, fun hP => ?_, fun hP hi => ?_, fun hP hi => ?_⟩
  · obtain ⟨h1, h2, h3⟩ := pre_null vm obj pre_val tmp1 tmp2 tosca_live expand_call s hA hT hact hP
    refine ⟨h1, h2, fun ep => ?_⟩
    rw [h3]
    by_cases ho : obj = noreg <;> simp [runtime_calls, List.filter_append, ho]
  · obtain ⟨-, h2, h3⟩ := pre_null vm noreg pre_val tmp1 tmp2 tosca_live expand_call s hN hT hact
      (pv.trans hP)
    refine ⟨h2, ?_⟩
    rw [h3]; simp
  · obtain ⟨-, h2, h3, -⟩ := pre_insert vm noreg pre_val tmp1 tmp2 tosca_live expand_call s hN hT
      hact (by rw [pv]; exact hP) hi _ rfl
    refine ⟨?_, ?_⟩
    · rw [h2, if_pos rfl, pv]
    · rw [h3, pv]; simp
  · obtain ⟨-, -, h3⟩ := pre_full vm noreg pre_val tmp1 tmp2 tosca_live expand_call s hN hT
      hact (by rw [pv]; exact hP) hi _ rfl
    rw [h3, pv]; simp

/-- Witness of C13: marking active in the example state with the field at 8200
holding null; the pre-barrier of a store to it leaves memory as it is. -/
theorem g1_write_barrier_pre_null_witness :
    (exec demo_vm (g1_write_barrier_pre demo_vm (.r 2) (.r 6) rthread (.r 5) rscratch2 true false)
      ((demo_state 1 16 16 255).write (field_loc 8200) 0)).mem =
      ((demo_state 1 16 16 255).write (field_loc 8200) 0).mem :=
  ((g1_write_barrier_pre_null demo_vm (.r 2) (.r 6) (.r 5) rscratch2 true false
    ((demo_state 1 16 16 255).write (field_loc 8200) 0) (by decide) (by decide)
    (by decide)).1 (by decide)).2.1

/-! ## The array-range pre-barrier -/

/-- C15. When the decorators contain `IS_DEST_UNINITIALIZED`,
`gen_write_ref_array_pre_barrier` emits no instruction: the emitted code is
empty, so from every state, whether or not marking is active, its execution
ends in the same state (no flag read, no register or memory change, no runtime
call). -/
theorem gen_write_ref_array_pre_barrier_dest_uninitialized (vm : VM)
    (decorators : DecoratorSet) (addr count : Register) (saved_regs : List Register)
    (s : Machine) (h : decorators &&& vm.IS_DEST_UNINITIALIZED ≠ 0) :
    gen_write_ref_array_pre_barrier vm decorators addr count saved_regs = [] ∧
    run vm (gen_write_ref_array_pre_barrier vm decorators addr count saved_regs) none s =
      (s, none) := by
  have e : gen_write_ref_array_pre_barrier vm decorators addr count saved_regs = [] := by
    simp [gen_write_ref_array_pre_barrier, h]
  rw [e]
  exact ⟨rfl, rfl⟩

/-- Witness of C15: the decorator set of the example holding only
`IS_DEST_UNINITIALIZED`. -/
theorem gen_write_ref_array_pre_barrier_dest_uninitialized_witness :
    gen_write_ref_array_pre_barrier demo_vm 2097152 (.r 2) (.r 3) [.r 2, .r 3] = [] :=
  (gen_write_ref_array_pre_barrier_dest_uninitialized demo_vm 2097152 (.r 2) (.r 3) [.r 2, .r 3]
    (demo_state 1 16 16 255) (by decide)).1


/-- C16. When `IS_DEST_UNINITIALIZED` is not set, the code emitted by
`gen_write_ref_array_pre_barrier` loads the marking-active flag once and
accesses no other memory cell.  If the flag is non-zero it makes exactly one
runtime call (the narrow entry under compressed references, the plain entry
otherwise) whose first argument is the original value of `addr` and whose
second argument is the original value of `count`, for every pair of registers
other than `rscratch1`, the swapped pair `count == c_rarg0`, `addr == c_rarg1`
included.  If the flag is zero it makes no call.  Control reaches `done` and no
memory cell changes. -/
theorem gen_write_ref_array_pre_barrier_call (vm : VM) (decorators : DecoratorSet)
    (addr count : Register) (saved_regs : List Register) (s : Machine)
    (h : decorators &&& vm.IS_DEST_UNINITIALIZED = 0)
    (ha : addr ≠ rscratch1) (hc : count ≠ rscratch1) :
    exit_label vm (gen_write_ref_array_pre_barrier vm decorators addr count saved_regs) s =
      none ∧
    (exec vm (gen_write_ref_array_pre_barrier vm decorators addr count saved_regs) s).mem =
      s.mem ∧
    (exec vm (gen_write_ref_array_pre_barrier vm decorators addr count saved_regs) s).trace =
      s.trace ++ [Event.load (thread_field s .satb_mark_queue_active_offset)] ++
        (if marking_active vm s = 0 then []
         else [Event.call
           (if vm.UseCompressedOops then G1BarrierSetRuntime.write_ref_array_pre_narrow_oop_entry
            else G1BarrierSetRuntime.write_ref_array_pre_oop_entry)
           (s.reg addr) (s.reg count)]) := by
  unfold marking_active thread_field
  by_cases hw : vm.byte_width_of_active = 4 <;> simp only [hw, if_true, if_false] <;>
  by_cases hact : s.mem ⟨Space.thread .satb_mark_queue_active_offset, s.reg rthread⟩ %
      2 ^ (if vm.byte_width_of_active = 4 then 32 else 8) = 0 <;>
  simp only [hw, if_true, if_false] at hact <;>
  by_cases h0 : count = c_rarg0 <;> by_cases h1 : addr = c_rarg1 <;>
  cases hu : vm.UseCompressedOops <;>
  (try subst h0) <;> (try subst h1) <;>
  simp [exec, exit_label, gen_write_ref_array_pre_barrier, do_call, -Nat.reducePow, *]

/-- Witness of C16: the swapped case, `addr` in `c_rarg1` holding 4096 and
`count` in `c_rarg0` holding 7, with marking active. -/
theorem gen_write_ref_array_pre_barrier_call_witness :
    (exec demo_vm (gen_write_ref_array_pre_barrier demo_vm 0 c_rarg1 c_rarg0 [c_rarg0, c_rarg1])
      (((demo_state 1 16 16 255).set c_rarg1 4096).set c_rarg0 7)).trace =
      [Event.load ⟨Space.thread .satb_mark_queue_active_offset, 28672⟩,
       Event.call .write_ref_array_pre_oop_entry 4096 7] :=
  (gen_write_ref_array_pre_barrier_call demo_vm 0 c_rarg1 c_rarg0 [c_rarg0, c_rarg1]
    (((demo_state 1 16 16 255).set c_rarg1 4096).set c_rarg0 7) (by decide) (by decide)
    (by decide)).2.2.trans (by decide)

/-! ## The re-read of the card -/

/-- C17. For a store of a non-null reference across regions whose card does not
read young but reads the dirty value at the re-read of the slow path, the
post-barrier is a no-op: control reaches `done`, no memory cell changes (the
card byte is not written, the dirty-card index and storage are as before), no
runtime call is made, and the only actions are the two loads of the card
around the fence. -/
theorem g1_write_barrier_post_already_dirty (vm : VM) (store_addr new_val tmp1 tmp2 : Register)
    (s : Machine)
    (hA : g1_write_barrier_post_asserts store_addr new_val rthread tmp1 tmp2)
    (hz : tmp1 ≠ zr ∧ tmp2 ≠ zr)
    (hr : ¬ same_region vm (s.reg store_addr) (s.reg new_val))
    (hv : s.reg new_val ≠ 0)
    (hy : ¬ card_is_young vm s (card_address vm (s.reg store_addr)))
    (hd : card_value s (card_address vm (s.reg store_addr)) = dirty_card_val) :
    exit_label vm (g1_write_barrier_post vm store_addr new_val rthread tmp1 tmp2) s = none ∧
    (exec vm (g1_write_barrier_post vm store_addr new_val rthread tmp1 tmp2) s).mem = s.mem ∧
    (∀ ep, runtime_calls ep
      (exec vm (g1_write_barrier_post vm store_addr new_val rthread tmp1 tmp2) s).trace =
        runtime_calls ep s.trace) ∧
    (exec vm (g1_write_barrier_post vm store_addr new_val rthread tmp1 tmp2) s).trace =
      s.trace ++ [Event.load (card_loc (card_address vm (s.reg store_addr))), Event.membar,
        Event.load (card_loc (card_address vm (s.reg store_addr)))] := by
  obtain ⟨h1, h2, h3⟩ := post_dirty vm store_addr new_val tmp1 tmp2 s hA hz hr hv hy hd
  refine ⟨h1, h2, fun ep => ?_, h3⟩
  rw [h3]; simp [runtime_calls, List.filter_append]

/-- Witness of C17: the example store with its card already dirty. -/
theorem g1_write_barrier_post_already_dirty_witness :
    (exec demo_vm (g1_write_barrier_post demo_vm (.r 2) (.r 3) rthread (.r 5) (.r 6))
      (demo_state 0 16 16 0)).mem = (demo_state 0 16 16 0).mem :=
  (g1_write_barrier_post_already_dirty demo_vm (.r 2) (.r 3) (.r 5) (.r 6) (demo_state 0 16 16 0)
    (by decide) (by decide) (by decide) (by decide) (by decide) (by decide)).2.1

/-! ## Loads through weak and phantom references -/

/-- Code of `load_at` for a reference loaded through a weak or phantom
reference. -/
theorem load_at_on_reference (vm : VM) (decorators : DecoratorSet) (type : BasicType)
    (dst : Register) (src : Address) (tmp1 tmp2 : Register)
    (href : is_reference_type type = true)
    (hdec : decorators &&& vm.ON_WEAK_OOP_REF ≠ 0 ∨ decorators &&& vm.ON_PHANTOM_OOP_REF ≠ 0) :
    load_at vm decorators type dst src tmp1 tmp2 =
      [Insn.load_at decorators type dst src, Insn.enter] ++
      g1_write_barrier_pre vm noreg dst rthread tmp1 tmp2 true true ++ [Insn.leave] := by
  simp [load_at, href, hdec]

/-- Code of `load_at` for any other load. -/
theorem load_at_plain (vm : VM) (decorators : DecoratorSet) (type : BasicType)
    (dst : Register) (src : Address) (tmp1 tmp2 : Register)
    (h : ¬ (is_reference_type type = true ∧
      (decorators &&& vm.ON_WEAK_OOP_REF ≠ 0 ∨ decorators &&& vm.ON_PHANTOM_OOP_REF ≠ 0))) :
    load_at vm decorators type dst src tmp1 tmp2 = [Insn.load_at decorators type dst src] := by
  simp only [load_at]
  rw [if_neg]
  · rfl
  · intro hc
    apply h
    simpa using hc

/-- State in which the pre-barrier of `load_at` starts: the reference has been
loaded into `dst` and the frame has been entered. -/
theorem load_at_head (vm : VM) (decorators : DecoratorSet) (type : BasicType)
    (dst : Register) (src : Address) (s : Machine)
    (href : is_reference_type type = true) (hd : is_temp dst) :
    ∃ u, run vm [Insn.load_at decorators type dst src, Insn.enter] none s = (u, none) ∧
      u.mem = s.mem ∧ u.trace = s.trace ++ [Event.load (src.loc s)] ∧
      u.reg rthread = s.reg rthread ∧ u.reg dst = s.mem (src.loc s) % 2 ^ 64 := by
  have hl : do_load_at type dst src s = do_load 64 dst src s := by
    cases type <;> simp [is_reference_type] at href <;> rfl
  refine ⟨do_push [rfp, lr] (do_load 64 dst src s), ?_, ?_, ?_, ?_, ?_⟩
  · simp only [run, step, hl]
  · simp [do_load]
  · simp [do_load]
  · simp [do_load, hd.2.symm]
  · simp [do_load, hd.1, -Nat.reducePow]

/-- C14. `load_at` emits the SATB pre-barrier if and only if the loaded type is
a reference type and the decorators contain `ON_WEAK_OOP_REF` or
`ON_PHANTOM_OOP_REF`: in that case the code is the plain load, `enter`, the
pre-barrier with `obj = noreg` and `pre_val = dst`, and `leave`; for every
other load the code is the plain load alone.  When the barrier is emitted, marking
is active and the loaded referent `R` is not null, `R` is written to the SATB
slot at the new index (index non-zero) or passed with the thread to
`write_ref_field_pre_entry` (index zero); the referent is loaded once, by the
plain load, and not again by the barrier. -/
theorem load_at_keeps_referent_alive (vm : VM) (decorators : DecoratorSet) (type : BasicType)
    (dst : Register) (src : Address) (tmp1 tmp2 : Register) (s : Machine) (R : Nat)
    (hA : g1_write_barrier_pre_asserts noreg dst rthread tmp1 tmp2 true)
    (hT : is_temp dst ∧ is_temp tmp1 ∧ is_temp tmp2) :
    (g1_write_barrier_pre vm noreg dst rthread tmp1 tmp2 true true <:+:
        load_at vm decorators type dst src tmp1 tmp2 ↔
      (is_reference_type type = true ∧
        (decorators &&& vm.ON_WEAK_OOP_REF ≠ 0 ∨ decorators &&& vm.ON_PHANTOM_OOP_REF ≠ 0))) ∧
    (is_reference_type type = true ∧
        (decorators &&& vm.ON_WEAK_OOP_REF ≠ 0 ∨ decorators &&& vm.ON_PHANTOM_OOP_REF ≠ 0) →
      load_at vm decorators type dst src tmp1 tmp2 =
        [Insn.load_at decorators type dst src, Insn.enter] ++
        g1_write_barrier_pre vm noreg dst rthread tmp1 tmp2 true true ++ [Insn.leave]) ∧
    (¬ (is_reference_type type = true ∧
        (decorators &&& vm.ON_WEAK_OOP_REF ≠ 0 ∨ decorators &&& vm.ON_PHANTOM_OOP_REF ≠ 0)) →
      load_at vm decorators type dst src tmp1 tmp2 = [Insn.load_at decorators type dst src]) ∧
    (is_reference_type type = true →
      (decorators &&& vm.ON_WEAK_OOP_REF ≠ 0 ∨ decorators &&& vm.ON_PHANTOM_OOP_REF ≠ 0) →
      marking_active vm s ≠ 0 → s.mem (src.loc s) % 2 ^ 64 = R → R ≠ 0 →
      (queue_index s .satb_mark_queue_index_offset ≠ 0 →
        (exec vm (load_at vm decorators type dst src tmp1 tmp2) s).mem
          (insertion_slot s .satb_mark_queue_index_offset .satb_mark_queue_buffer_offset) = R ∧
        (exec vm (load_at vm decorators type dst src tmp1 tmp2) s).trace = s.trace ++
          [Event.load (src.loc s),
           Event.load (thread_field s .satb_mark_queue_active_offset),
           Event.load (thread_field s .satb_mark_queue_index_offset),
           Event.store (thread_field s .satb_mark_queue_index_offset)
             (next_index (queue_index s .satb_mark_queue_index_offset)),
           Event.load (thread_field s .satb_mark_queue_buffer_offset),
           Event.store (insertion_slot s .satb_mark_queue_index_offset
             .satb_mark_queue_buffer_offset) R]) ∧
      (queue_index s .satb_mark_queue_index_offset = 0 →
        (exec vm (load_at vm decorators type dst src tmp1 tmp2) s).trace = s.trace ++
          [Event.load (src.loc s),
           Event.load (thread_field s .satb_mark_queue_active_offset),
           Event.load (thread_field s .satb_mark_queue_index_offset),
           Event.call .write_ref_field_pre_entry R (s.reg rthread)])) := by
  refine ⟨⟨fun hin => ?_, fun hc => ?_⟩, fun hc => load_at_on_reference vm decorators type dst
    src tmp1 tmp2 hc.1 hc.2, load_at_plain vm decorators type dst src tmp1 tmp2, ?_⟩
  · by_contra hc
    rw [load_at_plain vm decorators type dst src tmp1 tmp2 hc] at hin
    have hlen := hin.length_le
    simp [g1_write_barrier_pre, generate_pre_barrier_slow_path] at hlen
    omega
  · rw [load_at_on_reference vm decorators type dst src tmp1 tmp2 hc.1 hc.2]
    exact ⟨_, _, rfl⟩
  · intro href hdec hact hR hR0
    subst hR
    obtain ⟨u, hu, u1, u2, u3, u4⟩ := load_at_head vm decorators type dst src s href hT.1
    have tf : ∀ f, thread_field u f = thread_field s f := fun f => by
      unfold thread_field; rw [u3]
    have qi : ∀ f, queue_index u f = queue_index s f := fun f => by
      unfold queue_index; rw [tf, u1]
    have sl : ∀ f g, insertion_slot u f g = insertion_slot s f g := fun f g => by
      unfold insertion_slot queue_buffer; rw [tf, qi, u1]
    have hact1 : marking_active vm u ≠ 0 := by
      rw [marking_active_congr vm s u u3 (fun l _ => by rw [u1])]; exact hact
    have pv : previous_value u noreg dst = s.mem (src.loc s) % 2 ^ 64 := by
      simp [previous_value, u4]
    have hP : previous_value u noreg dst ≠ 0 := by rw [pv]; exact hR0
    rw [load_at_on_reference vm decorators type dst src tmp1 tmp2 href hdec]
    unfold exec
    rw [run_append, run_append, hu]
    constructor
    · intro hi
      obtain ⟨p1, p2, p3, -⟩ := pre_insert vm noreg dst tmp1 tmp2 true true u hA hT hact1 hP
        (by rw [qi]; exact hi) _ rfl
      unfold exit_label at p1
      unfold exec at p2 p3
      rw [p1]
      simp only [run, step, mem_do_pop, trace_do_pop]
      refine ⟨?_, ?_⟩
      · rw [p2, sl, if_pos rfl, pv]
      · rw [p3, u2, sl, tf, tf, tf, qi, pv]; simp
    · intro hi
      obtain ⟨p1, -, p3⟩ := pre_full vm noreg dst tmp1 tmp2 true true u hA hT hact1 hP
        (by rw [qi]; exact hi) _ rfl
      unfold exit_label at p1
      unfold exec at p3
      rw [p1]
      simp only [run, step, trace_do_pop]
      rw [p3, u2, tf, tf, pv, u3]; simp

/-- Witness of C14: a weak reference load in the example state with marking
active; the field at 8200 holds the referent 13104, which goes to the SATB slot
at 36872. -/
theorem load_at_keeps_referent_alive_witness :
    (exec demo_vm (load_at demo_vm 32768 .T_OBJECT (.r 4) (Address.of_heap (.r 2) 0) (.r 5)
      (.r 6)) (demo_state 1 16 16 255)).mem
        (insertion_slot (demo_state 1 16 16 255) .satb_mark_queue_index_offset
          .satb_mark_queue_buffer_offset) = 13104 :=
  (((load_at_keeps_referent_alive demo_vm 32768 .T_OBJECT (.r 4) (Address.of_heap (.r 2) 0)
    (.r 5) (.r 6) (demo_state 1 16 16 255) 13104 (by decide) (by decide)).2.2.2
      (by decide) (by decide) (by decide) (by decide) (by decide)).1 (by decide)).1


/-! ## One terminal action -/

/-- The pre-barrier reaches `done` and adds at most one queue insertion or
runtime call to the trace. -/
theorem pre_one_action (vm : VM) (obj pre_val tmp1 tmp2 : Register)
    (tosca_live expand_call : Bool) (s : Machine)
    (hA : g1_write_barrier_pre_asserts obj pre_val rthread tmp1 tmp2 expand_call)
    (hT : is_temp pre_val ∧ is_temp tmp1 ∧ is_temp tmp2) :
    exit_label vm (g1_write_barrier_pre vm obj pre_val rthread tmp1 tmp2 tosca_live
      expand_call) s = none ∧
    ∃ added, (exec vm (g1_write_barrier_pre vm obj pre_val rthread tmp1 tmp2 tosca_live
        expand_call) s).trace = s.trace ++ added ∧
      (queue_insertions added).length + (all_runtime_calls added).length ≤ 1 := by
  by_cases hact : marking_active vm s = 0
  · have h := pre_inactive vm obj pre_val tmp1 tmp2 tosca_live expand_call s hact
    refine ⟨by rw [exit_label, h], _, by rw [exec, h]; simp; rfl, ?_⟩
    simp [queue_insertions, all_runtime_calls, thread_field]
  · by_cases hP : previous_value s obj pre_val = 0
    · obtain ⟨h1, -, h3⟩ := pre_null vm obj pre_val tmp1 tmp2 tosca_live expand_call s hA hT hact hP
      refine ⟨h1, _, h3, ?_⟩
      by_cases ho : obj = noreg <;>
        simp [queue_insertions, all_runtime_calls, thread_field, field_loc, ho,
          List.filter_append]
    · by_cases hi : queue_index s .satb_mark_queue_index_offset = 0
      · obtain ⟨h1, -, h3⟩ := pre_full vm obj pre_val tmp1 tmp2 tosca_live expand_call s hA hT
          hact hP hi _ rfl
        refine ⟨h1, _, h3, ?_⟩
        by_cases ho : obj = noreg <;>
          simp [queue_insertions, all_runtime_calls, thread_field, field_loc, ho,
            List.filter_append]
      · obtain ⟨h1, -, h3, -⟩ := pre_insert vm obj pre_val tmp1 tmp2 tosca_live expand_call s hA hT
          hact hP hi _ rfl
        refine ⟨h1, _, h3, ?_⟩
        by_cases ho : obj = noreg <;>
          simp [queue_insertions, all_runtime_calls, thread_field, field_loc, insertion_slot,
            queue_slot, ho, List.filter_append]

/-- The post-barrier reaches `done` and adds at most one queue insertion or
runtime call to the trace. -/
theorem post_one_action (vm : VM) (store_addr new_val tmp1 tmp2 : Register) (s : Machine)
    (hA : g1_write_barrier_post_asserts store_addr new_val rthread tmp1 tmp2)
    (hz : tmp1 ≠ zr ∧ tmp2 ≠ zr) :
    exit_label vm (g1_write_barrier_post vm store_addr new_val rthread tmp1 tmp2) s = none ∧
    ∃ added, (exec vm (g1_write_barrier_post vm store_addr new_val rthread tmp1 tmp2) s).trace =
        s.trace ++ added ∧
      (queue_insertions added).length + (all_runtime_calls added).length ≤ 1 := by
  by_cases h : same_region vm (s.reg store_addr) (s.reg new_val) ∨ s.reg new_val = 0
  · obtain ⟨h1, -, h3⟩ := post_no_op vm store_addr new_val tmp1 tmp2 s hA h
    exact ⟨h1, [], by rw [h3]; simp, by simp [queue_insertions, all_runtime_calls]⟩
  · obtain ⟨hr, hv⟩ := not_or.mp h
    by_cases hy : card_is_young vm s (card_address vm (s.reg store_addr))
    · obtain ⟨h1, -, h3, -⟩ := post_young vm store_addr new_val tmp1 tmp2 s hA hz hr hv hy _ rfl
      exact ⟨h1, _, h3, by simp [queue_insertions, all_runtime_calls, card_loc]⟩
    · by_cases hd : card_value s (card_address vm (s.reg store_addr)) = 0
      · obtain ⟨h1, -, h3⟩ := post_dirty vm store_addr new_val tmp1 tmp2 s hA hz hr hv hy hd
        exact ⟨h1, _, h3, by simp [queue_insertions, all_runtime_calls, card_loc]⟩
      · by_cases hi : queue_index s .dirty_card_queue_index_offset = 0
        · obtain ⟨h1, -, h3⟩ := post_full vm store_addr new_val tmp1 tmp2 s hA hz hr hv hy hd hi
            _ rfl
          exact ⟨h1, _, h3, by simp [queue_insertions, all_runtime_calls, card_loc, thread_field]⟩
        · obtain ⟨h1, -, h3⟩ := post_insert vm store_addr new_val tmp1 tmp2 s hA hz hr hv hy hd hi
            _ rfl
          exact ⟨h1, _, h3, by simp [queue_insertions, all_runtime_calls, card_loc, thread_field,
            insertion_slot, queue_slot]⟩

theorem one_action_cases (a b : List Event) (h : a.length + b.length ≤ 1) :
    (a = [] ∧ b = []) ∨ (a.length = 1 ∧ b = []) ∨ (a = [] ∧ b.length = 1) := by
  rcases Nat.eq_zero_or_pos a.length with ha | ha
  · rcases Nat.eq_zero_or_pos b.length with hb | hb
    · exact Or.inl ⟨List.length_eq_zero.mp ha, List.length_eq_zero.mp hb⟩
    · exact Or.inr (Or.inr ⟨List.length_eq_zero.mp ha, by omega⟩)
  · exact Or.inr (Or.inl ⟨by omega, List.length_eq_zero.mp (by omega)⟩)

/-- C18. One execution of the pre-barrier and one execution of the
post-barrier each reach `done`, and what each adds to the trace holds exactly
one terminal action out of three: no store into a queue and no runtime call
(no-op), or one store into a queue and no runtime call (insertion), or one
runtime call and no store into a queue.  A queue insertion and a runtime call
never both happen, and neither happens twice. -/
theorem barrier_one_terminal_action (vm : VM) (obj pre_val tmp1 tmp2 : Register)
    (tosca_live expand_call : Bool) (store_addr new_val ptmp1 ptmp2 : Register) (s : Machine)
    (hA : g1_write_barrier_pre_asserts obj pre_val rthread tmp1 tmp2 expand_call)
    (hT : is_temp pre_val ∧ is_temp tmp1 ∧ is_temp tmp2)
    (hB : g1_write_barrier_post_asserts store_addr new_val rthread ptmp1 ptmp2)
    (hz : ptmp1 ≠ zr ∧ ptmp2 ≠ zr) :
    (exit_label vm (g1_write_barrier_pre vm obj pre_val rthread tmp1 tmp2 tosca_live
        expand_call) s = none ∧
      ∃ added, (exec vm (g1_write_barrier_pre vm obj pre_val rthread tmp1 tmp2 tosca_live
          expand_call) s).trace = s.trace ++ added ∧
        ((queue_insertions added = [] ∧ all_runtime_calls added = []) ∨
         ((queue_insertions added).length = 1 ∧ all_runtime_calls added = []) ∨
         (queue_insertions added = [] ∧ (all_runtime_calls added).length = 1))) ∧
    (exit_label vm (g1_write_barrier_post vm store_addr new_val rthread ptmp1 ptmp2) s = none ∧
      ∃ added, (exec vm (g1_write_barrier_post vm store_addr new_val rthread ptmp1 ptmp2)
          s).trace = s.trace ++ added ∧
        ((queue_insertions added = [] ∧ all_runtime_calls added = []) ∨
         ((queue_insertions added).length = 1 ∧ all_runtime_calls added = []) ∨
         (queue_insertions added = [] ∧ (all_runtime_calls added).length = 1))) := by
  obtain ⟨e1, a1, t1, c1⟩ := pre_one_action vm obj pre_val tmp1 tmp2 tosca_live expand_call s hA hT
  obtain ⟨e2, a2, t2, c2⟩ := post_one_action vm store_addr new_val ptmp1 ptmp2 s hB hz
  exact ⟨⟨e1, a1, t1, one_action_cases _ _ c1⟩, ⟨e2, a2, t2, one_action_cases _ _ c2⟩⟩

/-- Witness of C18: the example store with marking active, a free SATB slot
and a clean card; both barriers reach `done`. -/
theorem barrier_one_terminal_action_witness :
    exit_label demo_vm (g1_write_barrier_pre demo_vm (.r 2) (.r 6) rthread (.r 5) rscratch2
      true false) (demo_state 1 16 16 255) = none ∧
    exit_label demo_vm (g1_write_barrier_post demo_vm (.r 2) (.r 3) rthread (.r 5) (.r 6))
      (demo_state 1 16 16 255) = none :=
  ⟨(barrier_one_terminal_action demo_vm (.r 2) (.r 6) (.r 5) rscratch2 true false (.r 2) (.r 3)
      (.r 5) (.r 6) (demo_state 1 16 16 255) (by decide) (by decide) (by decide)
      (by decide)).1.1,
   (barrier_one_terminal_action demo_vm (.r 2) (.r 6) (.r 5) rscratch2 true false (.r 2) (.r 3)
      (.r 5) (.r 6) (demo_state 1 16 16 255) (by decide) (by decide) (by decide)
      (by decide)).2.1⟩


/-! ## The optimizing tier -/

theorem run_with_stub_fallthrough (vm : VM) (site stub : List Insn) (s : Machine)
    (h : (run vm site none s).2 = none) :
    run_with_stub vm site stub s = some (run vm site none s).1 := by
  unfold run_with_stub
  rcases hr : run vm site none s with ⟨t, _ | l⟩
  · rfl
  · rw [hr] at h; cases h

theorem run_with_stub_through (vm : VM) (site stub : List Insn) (s : Machine) (l k : Label)
    (h1 : (run vm site none s).2 = some l)
    (h2 : (run vm stub (some l) (run vm site none s).1).2 = some k)
    (h3 : (run vm site (some k) (run vm stub (some l) (run vm site none s).1).1).2 = none) :
    run_with_stub vm site stub s =
      some (run vm site (some k) (run vm stub (some l) (run vm site none s).1).1).1 := by
  unfold run_with_stub
  rcases hr : run vm site none s with ⟨t, _ | l1⟩
  · rw [hr] at h1; cases h1
  · rw [hr] at h1 h2 h3
    simp only [Option.some.injEq] at h1
    subst h1
    simp only at h2 h3 ⊢
    rcases hr2 : run vm stub (some l1) t with ⟨u, _ | k1⟩
    · rw [hr2] at h2; cases h2
    · rw [hr2] at h2 h3
      simp only [Option.some.injEq] at h2
      subst h2
      simp only at h3 ⊢
      rcases hr3 : run vm site (some k1) u with ⟨v, _ | m⟩
      · rfl
      · rw [hr3] at h3; cases h3

theorem entry_point_at_pre (vm : VM) :
    entry_point_at vm (vm.entry_address .write_ref_field_pre_entry % 2 ^ 64) =
      some .write_ref_field_pre_entry := by
  simp [entry_point_at, runtime_entry_points]

/-- A pop of the registers pushed in an earlier state `w` restores their
values: a register that holds `v` before the pop and held `v` in `w` holds `v`
after the pop. -/
theorem reg_do_pop_restore (regs : List Register) (w : Machine) (x : Register) (v : Nat) :
    ∀ (t : Machine) (rest : List Nat), t.stack = regs.map w.reg ++ rest → t.reg x = v →
      w.reg x = v → (do_pop regs t).reg x = v := by
  induction regs with
  | nil => intro t rest _ hx _; exact hx
  | cons y ys ih =>
    intro t rest hst hx hw
    rw [do_pop]
    apply ih _ rest
    · simp [Machine.set, hst]
    · rw [hst]
      by_cases hxy : x = y
      · subst hxy
        by_cases hzr : x = zr
        · subst hzr; simpa using hw
        · simpa [hzr, -Nat.reducePow] using hw
      · rw [Machine.reg_set_ne _ _ _ _ hxy]
        exact hx
    · exact hw

/-- The inline part of the optimizing-tier pre-barrier falls through when
marking is inactive. -/
theorem c2_pre_inactive (vm : VM) (obj pre_val tmp1 tmp2 : Register) (stub : G1PreBarrierStubC2)
    (s : Machine) (h : marking_active vm s = 0) :
    run_with_stub vm (g1_write_barrier_pre_c2 vm obj pre_val rthread tmp1 tmp2 stub).1
      (generate_c2_pre_barrier_stub vm (g1_write_barrier_pre_c2 vm obj pre_val rthread tmp1 tmp2 stub).2) s =
      some ((s.log (Event.load (thread_field s .satb_mark_queue_active_offset))).set tmp1 0) := by
  unfold marking_active thread_field at h
  have e : run vm (g1_write_barrier_pre_c2 vm obj pre_val rthread tmp1 tmp2 stub).1 none s =
      ((s.log (Event.load (thread_field s .satb_mark_queue_active_offset))).set tmp1 0, none) := by
    by_cases hw : vm.byte_width_of_active = 4 <;> simp only [hw, if_true, if_false] at h <;>
    by_cases hz : tmp1 = zr <;>
    simp [g1_write_barrier_pre_c2, generate_pre_barrier_fast_path, thread_field, hw, h, hz,
      -Nat.reducePow]
  rw [run_with_stub_fallthrough vm _ _ s (by rw [e]), e]

/-- With marking active the optimizing-tier pre-barrier runs its stub and comes
back to the continuation. -/
theorem c2_pre_active (vm : VM) (obj pre_val tmp1 tmp2 : Register) (stub : G1PreBarrierStubC2)
    (s : Machine) (hz : tmp1 ≠ zr) (hact : marking_active vm s ≠ 0)
    (h2 : (run vm (generate_c2_pre_barrier_stub vm (g1_write_barrier_pre_c2 vm obj pre_val rthread tmp1 tmp2 stub).2) (some .entry)
      (run vm (g1_write_barrier_pre_c2 vm obj pre_val rthread tmp1 tmp2 stub).1 none s).1).2 = some .continuation) :
    run_with_stub vm (g1_write_barrier_pre_c2 vm obj pre_val rthread tmp1 tmp2 stub).1
      (generate_c2_pre_barrier_stub vm (g1_write_barrier_pre_c2 vm obj pre_val rthread tmp1 tmp2 stub).2) s =
      some (run vm (generate_c2_pre_barrier_stub vm (g1_write_barrier_pre_c2 vm obj pre_val rthread tmp1 tmp2 stub).2) (some .entry)
        (run vm (g1_write_barrier_pre_c2 vm obj pre_val rthread tmp1 tmp2 stub).1 none s).1).1 := by
  unfold marking_active thread_field at hact
  have h1 : (run vm (g1_write_barrier_pre_c2 vm obj pre_val rthread tmp1 tmp2 stub).1 none s).2 = some .entry := by
    by_cases hw : vm.byte_width_of_active = 4 <;> simp only [hw, if_true, if_false] at hact <;>
    simp [g1_write_barrier_pre_c2, generate_pre_barrier_fast_path, hw, hact, hz, -Nat.reducePow]
  have h3 : ∀ t, run vm (g1_write_barrier_pre_c2 vm obj pre_val rthread tmp1 tmp2 stub).1 (some .continuation) t = (t, none) := by
    intro t
    by_cases hw : vm.byte_width_of_active = 4 <;>
    simp [g1_write_barrier_pre_c2, generate_pre_barrier_fast_path, hw]
  rw [run_with_stub_through vm _ _ s .entry .continuation h1 h2 (by rw [h3]), h3]

/-- Path of the stub of the optimizing-tier pre-barrier on a null previous
value. -/
theorem c2_pre_null (vm : VM) (obj pre_val tmp1 tmp2 : Register) (expand_call : Bool)
    (stub : G1PreBarrierStubC2)
    (s : Machine)
    (hA : g1_write_barrier_pre_asserts obj pre_val rthread tmp1 tmp2 expand_call)
    (hT : is_temp pre_val ∧ is_temp tmp1 ∧ is_temp tmp2)
    (hact : marking_active vm s ≠ 0)
    (hP : previous_value s obj pre_val = 0) :
    ∀ t, t = run vm (generate_c2_pre_barrier_stub vm (g1_write_barrier_pre_c2 vm obj pre_val rthread tmp1 tmp2 stub).2) (some .entry) (run vm (g1_write_barrier_pre_c2 vm obj pre_val rthread tmp1 tmp2 stub).1 none s).1 →
      t.2 = some .continuation ∧
      t.1.mem = s.mem ∧
      t.1.trace = s.trace ++
        ([Event.load (thread_field s .satb_mark_queue_active_offset)] ++
         (if obj ≠ noreg then [Event.load (field_loc (s.reg obj))] else [])) ∧
      t.1.reg rthread = s.reg rthread := by
  obtain ⟨-, n1, n2, n3, d1, d2, d3, d4, d5, d6⟩ := pre_asserts_ne hA
  obtain ⟨⟨z1, t1⟩, ⟨z2, t2⟩, ⟨z3, t3⟩⟩ := hT
  unfold marking_active thread_field at hact
  unfold previous_value field_loc at hP
  have he := entry_point_at_pre vm
  intro t ht; subst ht
  by_cases hw : vm.byte_width_of_active = 4 <;> simp only [hw, if_true, if_false] at hact <;>
  by_cases ho : obj = noreg <;>
  simp only [ho, ne_eq, not_true, not_false_eq_true, if_true, if_false] at hP <;>
  by_cases hc : c_rarg0 = pre_val <;> (try subst hc) <;>
  refine ⟨?_, ?_, ?_, ?_⟩ <;>
  simp [g1_write_barrier_pre_c2, generate_c2_pre_barrier_stub, generate_c2_barrier_runtime_call,
    G1PreBarrierStubC2.initialize_registers, generate_pre_barrier_fast_path,
    generate_pre_barrier_slow_path, generate_queue_test_and_insertion, do_call, do_blr,
    thread_field, insertion_slot, queue_slot, queue_index, queue_buffer, next_index,
    previous_value, field_loc, hw, ho, hact, hP, he,
    n1, n2, n3, d1, d2, d3, d4, d5, d6, z1, z2, z3, t1, t2, t3,
    d1.symm, d2.symm, d3.symm, t1.symm, t2.symm, t3.symm, -Nat.reducePow, *]

/-- Path of the stub of the optimizing-tier pre-barrier that inserts the
previous value. -/
theorem c2_pre_insert (vm : VM) (obj pre_val tmp1 tmp2 : Register) (expand_call : Bool)
    (stub : G1PreBarrierStubC2)
    (s : Machine)
    (hA : g1_write_barrier_pre_asserts obj pre_val rthread tmp1 tmp2 expand_call)
    (hT : is_temp pre_val ∧ is_temp tmp1 ∧ is_temp tmp2)
    (hact : marking_active vm s ≠ 0)
    (hP : previous_value s obj pre_val ≠ 0)
    (hi : queue_index s .satb_mark_queue_index_offset ≠ 0) :
    ∀ t, t = run vm (generate_c2_pre_barrier_stub vm (g1_write_barrier_pre_c2 vm obj pre_val rthread tmp1 tmp2 stub).2) (some .entry) (run vm (g1_write_barrier_pre_c2 vm obj pre_val rthread tmp1 tmp2 stub).1 none s).1 →
      t.2 = some .continuation ∧
      (∀ k, t.1.mem k =
        if k = insertion_slot s .satb_mark_queue_index_offset .satb_mark_queue_buffer_offset
          then previous_value s obj pre_val
        else if k = thread_field s .satb_mark_queue_index_offset
          then next_index (queue_index s .satb_mark_queue_index_offset)
        else s.mem k) ∧
      t.1.trace = s.trace ++
        ([Event.load (thread_field s .satb_mark_queue_active_offset)] ++
         (if obj ≠ noreg then [Event.load (field_loc (s.reg obj))] else []) ++
         [Event.load (thread_field s .satb_mark_queue_index_offset),
          Event.store (thread_field s .satb_mark_queue_index_offset)
            (next_index (queue_index s .satb_mark_queue_index_offset)),
          Event.load (thread_field s .satb_mark_queue_buffer_offset),
          Event.store (insertion_slot s .satb_mark_queue_index_offset
            .satb_mark_queue_buffer_offset) (previous_value s obj pre_val)]) ∧
      t.1.reg rthread = s.reg rthread := by
  obtain ⟨-, n1, n2, n3, d1, d2, d3, d4, d5, d6⟩ := pre_asserts_ne hA
  obtain ⟨⟨z1, t1⟩, ⟨z2, t2⟩, ⟨z3, t3⟩⟩ := hT
  unfold marking_active thread_field at hact
  unfold previous_value field_loc at hP
  unfold queue_index thread_field at hi
  have he := entry_point_at_pre vm
  intro t ht; subst ht
  by_cases hw : vm.byte_width_of_active = 4 <;> simp only [hw, if_true, if_false] at hact <;>
  by_cases ho : obj = noreg <;>
  simp only [ho, ne_eq, not_true, not_false_eq_true, if_true, if_false] at hP <;>
  by_cases hc : c_rarg0 = pre_val <;> (try subst hc) <;>
  (refine ⟨?_, ?_, ?_, ?_⟩ <;> try intro k) <;>
  simp [g1_write_barrier_pre_c2, generate_c2_pre_barrier_stub, generate_c2_barrier_runtime_call,
    G1PreBarrierStubC2.initialize_registers, generate_pre_barrier_fast_path,
    generate_pre_barrier_slow_path, generate_queue_test_and_insertion, do_call, do_blr,
    thread_field, insertion_slot, queue_slot, queue_index, queue_buffer, next_index,
    previous_value, field_loc, hw, ho, hact, hP, he,
    n1, n2, n3, d1, d2, d3, d4, d5, d6, z1, z2, z3, t1, t2, t3,
    d1.symm, d2.symm, d3.symm, t1.symm, t2.symm, t3.symm, -Nat.reducePow, *]

/-- Path of the stub of the optimizing-tier pre-barrier that calls the
runtime. -/
theorem c2_pre_full (vm : VM) (obj pre_val tmp1 tmp2 : Register) (expand_call : Bool)
    (stub : G1PreBarrierStubC2)
    (s : Machine)
    (hA : g1_write_barrier_pre_asserts obj pre_val rthread tmp1 tmp2 expand_call)
    (hT : is_temp pre_val ∧ is_temp tmp1 ∧ is_temp tmp2)
    (hact : marking_active vm s ≠ 0)
    (hP : previous_value s obj pre_val ≠ 0)
    (hi : queue_index s .satb_mark_queue_index_offset = 0) :
    ∀ t, t = run vm (generate_c2_pre_barrier_stub vm (g1_write_barrier_pre_c2 vm obj pre_val rthread tmp1 tmp2 stub).2) (some .entry) (run vm (g1_write_barrier_pre_c2 vm obj pre_val rthread tmp1 tmp2 stub).1 none s).1 →
      t.2 = some .continuation ∧
      t.1.mem = s.mem ∧
      t.1.trace = s.trace ++
        ([Event.load (thread_field s .satb_mark_queue_active_offset)] ++
         (if obj ≠ noreg then [Event.load (field_loc (s.reg obj))] else []) ++
         [Event.load (thread_field s .satb_mark_queue_index_offset),
          Event.call .write_ref_field_pre_entry (previous_value s obj pre_val) (s.reg rthread)]) ∧
      t.1.reg rthread = s.reg rthread := by
  obtain ⟨-, n1, n2, n3, d1, d2, d3, d4, d5, d6⟩ := pre_asserts_ne hA
  obtain ⟨⟨z1, t1⟩, ⟨z2, t2⟩, ⟨z3, t3⟩⟩ := hT
  unfold marking_active thread_field at hact
  unfold previous_value field_loc at hP
  unfold queue_index thread_field at hi
  have he := entry_point_at_pre vm
  intro t ht; subst ht
  by_cases hw : vm.byte_width_of_active = 4 <;> simp only [hw, if_true, if_false] at hact <;>
  by_cases ho : obj = noreg <;>
  simp only [ho, ne_eq, not_true, not_false_eq_true, if_true, if_false] at hP <;>
  by_cases hc : c_rarg0 = pre_val <;> (try subst hc) <;>
  refine ⟨?_, ?_, ?_, ?_⟩ <;>
  simp [g1_write_barrier_pre_c2, generate_c2_pre_barrier_stub, generate_c2_barrier_runtime_call,
    G1PreBarrierStubC2.initialize_registers, generate_pre_barrier_fast_path,
    generate_pre_barrier_slow_path, generate_queue_test_and_insertion, do_call, do_blr,
    thread_field, insertion_slot, queue_slot, queue_index, queue_buffer, next_index,
    previous_value, field_loc, hw, ho, hact, hP, he,
    n1, n2, n3, d1, d2, d3, d4, d5, d6, z1, z2, z3, t1, t2, t3,
    d1.symm, d2.symm, d3.symm, t1.symm, t2.symm, t3.symm, -Nat.reducePow, *] <;>
  (refine reg_do_pop_restore _ _ _ _ _ s.stack rfl ?_ ?_) <;>
  simp [t1.symm, t2.symm, t3.symm]


/-- The optimizing-tier pre-barrier ends in a state with the memory, the trace
and the thread register of the inline pre-barrier. -/
theorem c2_pre_same (vm : VM) (obj pre_val tmp1 tmp2 : Register)
    (tosca_live expand_call : Bool) (stub : G1PreBarrierStubC2) (s : Machine)
    (hA : g1_write_barrier_pre_asserts obj pre_val rthread tmp1 tmp2 expand_call)
    (hT : is_temp pre_val ∧ is_temp tmp1 ∧ is_temp tmp2) :
    ∃ t, run_with_stub vm (g1_write_barrier_pre_c2 vm obj pre_val rthread tmp1 tmp2 stub).1
        (generate_c2_pre_barrier_stub vm
          (g1_write_barrier_pre_c2 vm obj pre_val rthread tmp1 tmp2 stub).2) s = some t ∧
      t.mem = (exec vm (g1_write_barrier_pre vm obj pre_val rthread tmp1 tmp2 tosca_live
        expand_call) s).mem ∧
      t.trace = (exec vm (g1_write_barrier_pre vm obj pre_val rthread tmp1 tmp2 tosca_live
        expand_call) s).trace ∧
      t.reg rthread = (exec vm (g1_write_barrier_pre vm obj pre_val rthread tmp1 tmp2 tosca_live
        expand_call) s).reg rthread := by
  have hth := pre_keeps_thread vm obj pre_val tmp1 tmp2 tosca_live expand_call
    ⟨hT.1.2, hT.2.1.2, hT.2.2.2⟩ none s
  unfold exec
  rw [hth]
  by_cases hact : marking_active vm s = 0
  · rw [c2_pre_inactive vm obj pre_val tmp1 tmp2 stub s hact,
      pre_inactive vm obj pre_val tmp1 tmp2 tosca_live expand_call s hact]
    exact ⟨_, rfl, rfl, rfl, by simp [hT.2.1.2.symm]⟩
  · by_cases hP : previous_value s obj pre_val = 0
    · obtain ⟨b1, b2, b3, b4⟩ := c2_pre_null vm obj pre_val tmp1 tmp2 expand_call stub s hA hT
        hact hP _ rfl
      obtain ⟨-, a2, a3⟩ := pre_null vm obj pre_val tmp1 tmp2 tosca_live expand_call s hA hT
        hact hP
      unfold exec at a2 a3
      rw [c2_pre_active vm obj pre_val tmp1 tmp2 stub s hT.2.1.1 hact b1, a2, a3]
      exact ⟨_, rfl, b2, b3, b4⟩
    · by_cases hi : queue_index s .satb_mark_queue_index_offset = 0
      · obtain ⟨b1, b2, b3, b4⟩ := c2_pre_full vm obj pre_val tmp1 tmp2 expand_call stub s hA hT
          hact hP hi _ rfl
        obtain ⟨-, a2, a3⟩ := pre_full vm obj pre_val tmp1 tmp2 tosca_live expand_call s hA hT
          hact hP hi _ rfl
        unfold exec at a2 a3
        rw [c2_pre_active vm obj pre_val tmp1 tmp2 stub s hT.2.1.1 hact b1, a2, a3]
        exact ⟨_, rfl, b2, b3, b4⟩
      · obtain ⟨b1, b2, b3, b4⟩ := c2_pre_insert vm obj pre_val tmp1 tmp2 expand_call stub s hA hT
          hact hP hi _ rfl
        obtain ⟨-, a2, a3, -⟩ := pre_insert vm obj pre_val tmp1 tmp2 tosca_live expand_call s hA hT
          hact hP hi _ rfl
        unfold exec at a2 a3
        rw [c2_pre_active vm obj pre_val tmp1 tmp2 stub s hT.2.1.1 hact b1, a3]
        refine ⟨_, rfl, ?_, b3, b4⟩
        funext k
        rw [b2, a2]

/-- C19. On the same operands and from the same state, the optimizing-tier
pre-barrier (the code of `g1_write_barrier_pre_c2` at the call site, with the
block of `generate_c2_pre_barrier_stub` entered at the stub's entry label and
left at its continuation label) comes back to the continuation, and the state
there has the same marking flag, the same SATB index, the same SATB storage
and the same runtime calls with the same arguments as the state after the
fully inline `g1_write_barrier_pre`, for either value of `tosca_live` and
`expand_call` and whatever registers the stub saves; the whole memory and the
whole trace are in fact the same. -/
theorem g1_write_barrier_pre_c2_refines (vm : VM) (obj pre_val tmp1 tmp2 : Register)
    (tosca_live expand_call : Bool) (stub : G1PreBarrierStubC2) (s : Machine)
    (hA : g1_write_barrier_pre_asserts obj pre_val rthread tmp1 tmp2 expand_call)
    (hT : is_temp pre_val ∧ is_temp tmp1 ∧ is_temp tmp2) :
    ∃ t, run_with_stub vm (g1_write_barrier_pre_c2 vm obj pre_val rthread tmp1 tmp2 stub).1
        (generate_c2_pre_barrier_stub vm
          (g1_write_barrier_pre_c2 vm obj pre_val rthread tmp1 tmp2 stub).2) s = some t ∧
      marking_active vm t = marking_active vm (exec vm (g1_write_barrier_pre vm obj pre_val
        rthread tmp1 tmp2 tosca_live expand_call) s) ∧
      queue_index t .satb_mark_queue_index_offset =
        queue_index (exec vm (g1_write_barrier_pre vm obj pre_val rthread tmp1 tmp2 tosca_live
          expand_call) s) .satb_mark_queue_index_offset ∧
      (∀ a, t.mem (queue_slot .satb_mark_queue_buffer_offset a) =
        (exec vm (g1_write_barrier_pre vm obj pre_val rthread tmp1 tmp2 tosca_live
          expand_call) s).mem (queue_slot .satb_mark_queue_buffer_offset a)) ∧
      (∀ ep, runtime_calls ep t.trace =
        runtime_calls ep (exec vm (g1_write_barrier_pre vm obj pre_val rthread tmp1 tmp2
          tosca_live expand_call) s).trace) ∧
      t.mem = (exec vm (g1_write_barrier_pre vm obj pre_val rthread tmp1 tmp2 tosca_live
        expand_call) s).mem ∧
      t.trace = (exec vm (g1_write_barrier_pre vm obj pre_val rthread tmp1 tmp2 tosca_live
        expand_call) s).trace := by
  obtain ⟨t, h0, h1, h2, h3⟩ := c2_pre_same vm obj pre_val tmp1 tmp2 tosca_live expand_call stub
    s hA hT
  refine ⟨t, h0, ?_, ?_, fun a => by rw [h1], fun ep => by rw [h2], h1, h2⟩
  · unfold marking_active thread_field; rw [h1, h3]
  · unfold queue_index thread_field; rw [h1, h3]

/-- Witness of C19: the example store with marking active and the SATB index at
zero; the optimizing tier makes the runtime call of the inline barrier. -/
theorem g1_write_barrier_pre_c2_refines_witness :
    ∃ t, run_with_stub demo_vm
        (g1_write_barrier_pre_c2 demo_vm (.r 2) (.r 6) rthread (.r 5) (.r 7)
          ⟨⟨[.r 2, .r 3]⟩, noreg, noreg, noreg, noreg, noreg⟩).1
        (generate_c2_pre_barrier_stub demo_vm
          (g1_write_barrier_pre_c2 demo_vm (.r 2) (.r 6) rthread (.r 5) (.r 7)
            ⟨⟨[.r 2, .r 3]⟩, noreg, noreg, noreg, noreg, noreg⟩).2)
        (demo_state 1 0 16 255) = some t ∧
      t.trace = (exec demo_vm (g1_write_barrier_pre demo_vm (.r 2) (.r 6) rthread (.r 5) (.r 7)
        true false) (demo_state 1 0 16 255)).trace :=
  (g1_write_barrier_pre_c2_refines demo_vm (.r 2) (.r 6) (.r 5) (.r 7) true false
    ⟨⟨[.r 2, .r 3]⟩, noreg, noreg, noreg, noreg, noreg⟩ (demo_state 1 0 16 255) (by decide)
    (by decide)).imp (fun _ h => ⟨h.1, h.2.2.2.2.2.2⟩)


/-! ## The optimizing-tier post-barrier -/

/-- The inline part of the optimizing-tier post-barrier on a store within one
region, or of a null value that may be null. -/
theorem c2_post_no_op (vm : VM) (store_addr new_val tmp1 tmp2 : Register)
    (stub : G1PostBarrierStubC2) (s : Machine)
    (hA : g1_write_barrier_post_asserts store_addr new_val rthread tmp1 tmp2)
    (hz : tmp1 ≠ zr ∧ tmp2 ≠ zr)
    (h : same_region vm (s.reg store_addr) (s.reg new_val) ∨
      (s.reg new_val = 0 ∧ stub.barrier_data &&& vm.G1C2BarrierPostNotNull = 0)) :
    ∀ r, r = run vm (g1_write_barrier_post_c2 vm store_addr new_val rthread tmp1 tmp2 stub).1 none s →
      r.2 = none ∧ r.1.mem = s.mem ∧ r.1.trace = s.trace ∧ r.1.reg rthread = s.reg rthread := by
  obtain ⟨-, ⟨a1, a2, a3, a4, a5⟩, ⟨b1, b2, b3, b4⟩, ⟨c1, c2⟩, ⟨e1, e2, e3⟩, ⟨n1, n2, n3, n4⟩⟩ :=
    post_asserts_ne hA
  obtain ⟨z1, z2⟩ := hz
  intro r hr; subst hr
  by_cases hs : same_region vm (s.reg store_addr) (s.reg new_val)
  · have hx := (region_test_eq_zero vm _ _).mpr hs
    by_cases hb : stub.barrier_data &&& vm.G1C2BarrierPostNotNull = 0 <;>
    refine ⟨?_, ?_, ?_, ?_⟩ <;>
  simp [g1_write_barrier_post_c2, generate_c2_post_barrier_stub, generate_c2_barrier_runtime_call,
    G1PostBarrierStubC2.initialize_registers, generate_post_barrier_fast_path,
    generate_post_barrier_slow_path, generate_queue_test_and_insertion, do_call, do_blr,
    card_loc, card_address, thread_field, insertion_slot, queue_slot, queue_index, queue_buffer,
    next_index,
    a1, a2, a3, a4, a5, b1, b2, b3, b4, c1, c2, e1, e2, e3, z1, z2, n1, n2, n3, n4,
    e1.symm, e2.symm, e3.symm, c1.symm, c2.symm, -Nat.reducePow, *]
  · have hx : ¬ (s.reg store_addr ^^^ s.reg new_val) >>> vm.LogOfHRGrainBytes = 0 :=
      fun e => hs ((region_test_eq_zero vm _ _).mp e)
    obtain ⟨hv, hb⟩ := h.resolve_left hs
    rw [hv, Nat.xor_zero] at hx
    refine ⟨?_, ?_, ?_, ?_⟩ <;>
  simp [g1_write_barrier_post_c2, generate_c2_post_barrier_stub, generate_c2_barrier_runtime_call,
    G1PostBarrierStubC2.initialize_registers, generate_post_barrier_fast_path,
    generate_post_barrier_slow_path, generate_queue_test_and_insertion, do_call, do_blr,
    card_loc, card_address, thread_field, insertion_slot, queue_slot, queue_index, queue_buffer,
    next_index,
    a1, a2, a3, a4, a5, b1, b2, b3, b4, c1, c2, e1, e2, e3, z1, z2, n1, n2, n3, n4,
    e1.symm, e2.symm, e3.symm, c1.symm, c2.symm, -Nat.reducePow, *]

/-- The inline part of the optimizing-tier post-barrier on a young card. -/
theorem c2_post_young (vm : VM) (store_addr new_val tmp1 tmp2 : Register)
    (stub : G1PostBarrierStubC2) (s : Machine)
    (hA : g1_write_barrier_post_asserts store_addr new_val rthread tmp1 tmp2)
    (hz : tmp1 ≠ zr ∧ tmp2 ≠ zr)
    (hr : ¬ same_region vm (s.reg store_addr) (s.reg new_val))
    (hv : s.reg new_val ≠ 0 ∨ stub.barrier_data &&& vm.G1C2BarrierPostNotNull ≠ 0)
    (hy : card_is_young vm s (card_address vm (s.reg store_addr))) :
    ∀ r, r = run vm (g1_write_barrier_post_c2 vm store_addr new_val rthread tmp1 tmp2 stub).1 none s →
      r.2 = none ∧ r.1.mem = s.mem ∧
      r.1.trace = s.trace ++ [Event.load (card_loc (card_address vm (s.reg store_addr)))] ∧
      r.1.reg rthread = s.reg rthread := by
  obtain ⟨-, ⟨a1, a2, a3, a4, a5⟩, ⟨b1, b2, b3, b4⟩, ⟨c1, c2⟩, ⟨e1, e2, e3⟩, ⟨n1, n2, n3, n4⟩⟩ :=
    post_asserts_ne hA
  obtain ⟨z1, z2⟩ := hz
  have hv1 : stub.barrier_data &&& vm.G1C2BarrierPostNotNull = 0 → ¬ s.reg new_val = 0 :=
    fun hb => hv.resolve_right (fun h => h hb)
  have hx : ¬ (s.reg store_addr ^^^ s.reg new_val) >>> vm.LogOfHRGrainBytes = 0 :=
    fun e => hr ((region_test_eq_zero vm _ _).mp e)
  unfold card_is_young card_value card_loc card_address at hy
  intro r hr; subst hr
  by_cases hb : stub.barrier_data &&& vm.G1C2BarrierPostNotNull = 0 <;>
  refine ⟨?_, ?_, ?_, ?_⟩ <;>
  simp [g1_write_barrier_post_c2, generate_c2_post_barrier_stub, generate_c2_barrier_runtime_call,
    G1PostBarrierStubC2.initialize_registers, generate_post_barrier_fast_path,
    generate_post_barrier_slow_path, generate_queue_test_and_insertion, do_call, do_blr,
    card_loc, card_address, thread_field, insertion_slot, queue_slot, queue_index, queue_buffer,
    next_index,
    a1, a2, a3, a4, a5, b1, b2, b3, b4, c1, c2, e1, e2, e3, z1, z2, n1, n2, n3, n4,
    e1.symm, e2.symm, e3.symm, c1.symm, c2.symm, -Nat.reducePow, *]

/-- When the card is not young the optimizing-tier post-barrier runs its stub
and comes back to the continuation. -/
theorem c2_post_active (vm : VM) (store_addr new_val tmp1 tmp2 : Register)
    (stub : G1PostBarrierStubC2) (s : Machine)
    (hA : g1_write_barrier_post_asserts store_addr new_val rthread tmp1 tmp2)
    (hz : tmp1 ≠ zr ∧ tmp2 ≠ zr)
    (hr : ¬ same_region vm (s.reg store_addr) (s.reg new_val))
    (hv : s.reg new_val ≠ 0 ∨ stub.barrier_data &&& vm.G1C2BarrierPostNotNull ≠ 0)
    (hy : ¬ card_is_young vm s (card_address vm (s.reg store_addr)))
    (h2 : (run vm (generate_c2_post_barrier_stub vm (g1_write_barrier_post_c2 vm store_addr new_val rthread tmp1 tmp2 stub).2) (some .entry) (run vm (g1_write_barrier_post_c2 vm store_addr new_val rthread tmp1 tmp2 stub).1 none s).1).2 = some .continuation) :
    run_with_stub vm (g1_write_barrier_post_c2 vm store_addr new_val rthread tmp1 tmp2 stub).1 (generate_c2_post_barrier_stub vm (g1_write_barrier_post_c2 vm store_addr new_val rthread tmp1 tmp2 stub).2) s = some (run vm (generate_c2_post_barrier_stub vm (g1_write_barrier_post_c2 vm store_addr new_val rthread tmp1 tmp2 stub).2) (some .entry) (run vm (g1_write_barrier_post_c2 vm store_addr new_val rthread tmp1 tmp2 stub).1 none s).1).1 := by
  obtain ⟨-, ⟨a1, a2, a3, a4, a5⟩, ⟨b1, b2, b3, b4⟩, ⟨c1, c2⟩, ⟨e1, e2, e3⟩, ⟨n1, n2, n3, n4⟩⟩ :=
    post_asserts_ne hA
  obtain ⟨z1, z2⟩ := hz
  have hv1 : stub.barrier_data &&& vm.G1C2BarrierPostNotNull = 0 → ¬ s.reg new_val = 0 :=
    fun hb => hv.resolve_right (fun h => h hb)
  have hx : ¬ (s.reg store_addr ^^^ s.reg new_val) >>> vm.LogOfHRGrainBytes = 0 :=
    fun e => hr ((region_test_eq_zero vm _ _).mp e)
  unfold card_is_young card_value card_loc card_address at hy
  have h1 : (run vm (g1_write_barrier_post_c2 vm store_addr new_val rthread tmp1 tmp2 stub).1 none s).2 = some .entry := by
    by_cases hb : stub.barrier_data &&& vm.G1C2BarrierPostNotNull = 0 <;>
  simp [g1_write_barrier_post_c2, generate_c2_post_barrier_stub, generate_c2_barrier_runtime_call,
    G1PostBarrierStubC2.initialize_registers, generate_post_barrier_fast_path,
    generate_post_barrier_slow_path, generate_queue_test_and_insertion, do_call, do_blr,
    card_loc, card_address, thread_field, insertion_slot, queue_slot, queue_index, queue_buffer,
    next_index,
    a1, a2, a3, a4, a5, b1, b2, b3, b4, c1, c2, e1, e2, e3, z1, z2, n1, n2, n3, n4,
    e1.symm, e2.symm, e3.symm, c1.symm, c2.symm, -Nat.reducePow, *]
  have h3 : ∀ t, run vm (g1_write_barrier_post_c2 vm store_addr new_val rthread tmp1 tmp2 stub).1 (some .continuation) t = (t, none) := by
    intro t
    by_cases hb : stub.barrier_data &&& vm.G1C2BarrierPostNotNull = 0 <;>
    simp [g1_write_barrier_post_c2, generate_post_barrier_fast_path, hb]
  rw [run_with_stub_through vm _ _ s .entry .continuation h1 h2 (by rw [h3]), h3]

theorem entry_point_at_post (vm : VM)
    (h : vm.entry_address .write_ref_field_pre_entry % 2 ^ 64 ≠
      vm.entry_address .write_ref_field_post_entry % 2 ^ 64) :
    entry_point_at vm (vm.entry_address .write_ref_field_post_entry % 2 ^ 64) =
      some .write_ref_field_post_entry := by
  simp [entry_point_at, runtime_entry_points, List.find?, h, -Nat.reducePow]

/-- Path of the stub of the optimizing-tier post-barrier on a card that reads
dirty at the re-read. -/
theorem c2_post_dirty (vm : VM) (store_addr new_val tmp1 tmp2 : Register)
    (stub : G1PostBarrierStubC2) (s : Machine)
    (hA : g1_write_barrier_post_asserts store_addr new_val rthread tmp1 tmp2)
    (hz : tmp1 ≠ zr ∧ tmp2 ≠ zr)
    (hr : ¬ same_region vm (s.reg store_addr) (s.reg new_val))
    (hv : s.reg new_val ≠ 0 ∨ stub.barrier_data &&& vm.G1C2BarrierPostNotNull ≠ 0)
    (hy : ¬ card_is_young vm s (card_address vm (s.reg store_addr)))
    (hd : card_value s (card_address vm (s.reg store_addr)) = 0) :
    ∀ t, t = run vm (generate_c2_post_barrier_stub vm (g1_write_barrier_post_c2 vm store_addr new_val rthread tmp1 tmp2 stub).2) (some .entry) (run vm (g1_write_barrier_post_c2 vm store_addr new_val rthread tmp1 tmp2 stub).1 none s).1 →
      t.2 = some .continuation ∧
      t.1.mem = s.mem ∧
      t.1.trace = s.trace ++ [Event.load (card_loc (card_address vm (s.reg store_addr))),
        Event.membar, Event.load (card_loc (card_address vm (s.reg store_addr)))] ∧
      t.1.reg rthread = s.reg rthread := by
  obtain ⟨-, ⟨a1, a2, a3, a4, a5⟩, ⟨b1, b2, b3, b4⟩, ⟨c1, c2⟩, ⟨e1, e2, e3⟩, ⟨n1, n2, n3, n4⟩⟩ :=
    post_asserts_ne hA
  obtain ⟨z1, z2⟩ := hz
  have hv1 : stub.barrier_data &&& vm.G1C2BarrierPostNotNull = 0 → ¬ s.reg new_val = 0 :=
    fun hb => hv.resolve_right (fun h => h hb)
  have hx : ¬ (s.reg store_addr ^^^ s.reg new_val) >>> vm.LogOfHRGrainBytes = 0 :=
    fun e => hr ((region_test_eq_zero vm _ _).mp e)
  unfold card_is_young card_value card_loc card_address at hy
  unfold card_value card_loc card_address at hd
  rw [hd] at hy
  intro t ht; subst ht
  by_cases hb : stub.barrier_data &&& vm.G1C2BarrierPostNotNull = 0 <;>
  by_cases hc : c_rarg0 = tmp1 <;> (try subst hc) <;>
  refine ⟨?_, ?_, ?_, ?_⟩ <;>
  simp [g1_write_barrier_post_c2, generate_c2_post_barrier_stub, generate_c2_barrier_runtime_call,
    G1PostBarrierStubC2.initialize_registers, generate_post_barrier_fast_path,
    generate_post_barrier_slow_path, generate_queue_test_and_insertion, do_call, do_blr,
    card_loc, card_address, thread_field, insertion_slot, queue_slot, queue_index, queue_buffer,
    next_index,
    a1, a2, a3, a4, a5, b1, b2, b3, b4, c1, c2, e1, e2, e3, z1, z2, n1, n2, n3, n4,
    e1.symm, e2.symm, e3.symm, c1.symm, c2.symm, -Nat.reducePow, *]

/-- Path of the stub of the optimizing-tier post-barrier that inserts the card
address. -/
theorem c2_post_insert (vm : VM) (store_addr new_val tmp1 tmp2 : Register)
    (stub : G1PostBarrierStubC2) (s : Machine)
    (hA : g1_write_barrier_post_asserts store_addr new_val rthread tmp1 tmp2)
    (hz : tmp1 ≠ zr ∧ tmp2 ≠ zr)
    (hr : ¬ same_region vm (s.reg store_addr) (s.reg new_val))
    (hv : s.reg new_val ≠ 0 ∨ stub.barrier_data &&& vm.G1C2BarrierPostNotNull ≠ 0)
    (hy : ¬ card_is_young vm s (card_address vm (s.reg store_addr)))
    (hd : card_value s (card_address vm (s.reg store_addr)) ≠ 0)
    (hi : queue_index s .dirty_card_queue_index_offset ≠ 0) :
    ∀ t, t = run vm (generate_c2_post_barrier_stub vm (g1_write_barrier_post_c2 vm store_addr new_val rthread tmp1 tmp2 stub).2) (some .entry) (run vm (g1_write_barrier_post_c2 vm store_addr new_val rthread tmp1 tmp2 stub).1 none s).1 →
      t.2 = some .continuation ∧
      (∀ k, t.1.mem k =
        if k = insertion_slot s .dirty_card_queue_index_offset .dirty_card_queue_buffer_offset
          then card_address vm (s.reg store_addr)
        else if k = thread_field s .dirty_card_queue_index_offset
          then next_index (queue_index s .dirty_card_queue_index_offset)
        else if k = card_loc (card_address vm (s.reg store_addr)) then 0
        else s.mem k) ∧
      t.1.trace = s.trace ++
        [Event.load (card_loc (card_address vm (s.reg store_addr))), Event.membar,
         Event.load (card_loc (card_address vm (s.reg store_addr))),
         Event.store (card_loc (card_address vm (s.reg store_addr))) 0,
         Event.load (thread_field s .dirty_card_queue_index_offset),
         Event.store (thread_field s .dirty_card_queue_index_offset)
           (next_index (queue_index s .dirty_card_queue_index_offset)),
         Event.load (thread_field s .dirty_card_queue_buffer_offset),
         Event.store (insertion_slot s .dirty_card_queue_index_offset
           .dirty_card_queue_buffer_offset) (card_address vm (s.reg store_addr))] ∧
      t.1.reg rthread = s.reg rthread := by
  obtain ⟨-, ⟨a1, a2, a3, a4, a5⟩, ⟨b1, b2, b3, b4⟩, ⟨c1, c2⟩, ⟨e1, e2, e3⟩, ⟨n1, n2, n3, n4⟩⟩ :=
    post_asserts_ne hA
  obtain ⟨z1, z2⟩ := hz
  have hv1 : stub.barrier_data &&& vm.G1C2BarrierPostNotNull = 0 → ¬ s.reg new_val = 0 :=
    fun hb => hv.resolve_right (fun h => h hb)
  have hx : ¬ (s.reg store_addr ^^^ s.reg new_val) >>> vm.LogOfHRGrainBytes = 0 :=
    fun e => hr ((region_test_eq_zero vm _ _).mp e)
  unfold card_is_young card_value card_loc card_address at hy
  unfold card_value card_loc card_address at hd
  unfold queue_index thread_field at hi
  intro t ht; subst ht
  by_cases hb : stub.barrier_data &&& vm.G1C2BarrierPostNotNull = 0 <;>
  by_cases hc : c_rarg0 = tmp1 <;> (try subst hc) <;>
  (refine ⟨?_, ?_, ?_, ?_⟩ <;> try intro k) <;>
  simp [g1_write_barrier_post_c2, generate_c2_post_barrier_stub, generate_c2_barrier_runtime_call,
    G1PostBarrierStubC2.initialize_registers, generate_post_barrier_fast_path,
    generate_post_barrier_slow_path, generate_queue_test_and_insertion, do_call, do_blr,
    card_loc, card_address, thread_field, insertion_slot, queue_slot, queue_index, queue_buffer,
    next_index,
    a1, a2, a3, a4, a5, b1, b2, b3, b4, c1, c2, e1, e2, e3, z1, z2, n1, n2, n3, n4,
    e1.symm, e2.symm, e3.symm, c1.symm, c2.symm, -Nat.reducePow, *]

/-- Path of the stub of the optimizing-tier post-barrier that calls the
runtime. -/
theorem c2_post_full (vm : VM) (store_addr new_val tmp1 tmp2 : Register)
    (stub : G1PostBarrierStubC2) (s : Machine)
    (hA : g1_write_barrier_post_asserts store_addr new_val rthread tmp1 tmp2)
    (hz : tmp1 ≠ zr ∧ tmp2 ≠ zr)
    (hr : ¬ same_region vm (s.reg store_addr) (s.reg new_val))
    (hv : s.reg new_val ≠ 0 ∨ stub.barrier_data &&& vm.G1C2BarrierPostNotNull ≠ 0)
    (hy : ¬ card_is_young vm s (card_address vm (s.reg store_addr)))
    (hd : card_value s (card_address vm (s.reg store_addr)) ≠ 0)
    (hi : queue_index s .dirty_card_queue_index_offset = 0)
    (he : entry_point_at vm (vm.entry_address .write_ref_field_post_entry % 2 ^ 64) =
      some .write_ref_field_post_entry) :
    ∀ t, t = run vm (generate_c2_post_barrier_stub vm (g1_write_barrier_post_c2 vm store_addr new_val rthread tmp1 tmp2 stub).2) (some .entry) (run vm (g1_write_barrier_post_c2 vm store_addr new_val rthread tmp1 tmp2 stub).1 none s).1 →
      t.2 = some .continuation ∧
      (∀ k, t.1.mem k =
        if k = card_loc (card_address vm (s.reg store_addr)) then 0 else s.mem k) ∧
      t.1.trace = s.trace ++
        [Event.load (card_loc (card_address vm (s.reg store_addr))), Event.membar,
         Event.load (card_loc (card_address vm (s.reg store_addr))),
         Event.store (card_loc (card_address vm (s.reg store_addr))) 0,
         Event.load (thread_field s .dirty_card_queue_index_offset),
         Event.call .write_ref_field_post_entry (card_address vm (s.reg store_addr))
           (s.reg rthread)] ∧
      t.1.reg rthread = s.reg rthread := by
  obtain ⟨-, ⟨a1, a2, a3, a4, a5⟩, ⟨b1, b2, b3, b4⟩, ⟨c1, c2⟩, ⟨e1, e2, e3⟩, ⟨n1, n2, n3, n4⟩⟩ :=
    post_asserts_ne hA
  obtain ⟨z1, z2⟩ := hz
  have hv1 : stub.barrier_data &&& vm.G1C2BarrierPostNotNull = 0 → ¬ s.reg new_val = 0 :=
    fun hb => hv.resolve_right (fun h => h hb)
  have hx : ¬ (s.reg store_addr ^^^ s.reg new_val) >>> vm.LogOfHRGrainBytes = 0 :=
    fun e => hr ((region_test_eq_zero vm _ _).mp e)
  unfold card_is_young card_value card_loc card_address at hy
  unfold card_value card_loc card_address at hd
  unfold queue_index thread_field at hi
  intro t ht; subst ht
  by_cases hb : stub.barrier_data &&& vm.G1C2BarrierPostNotNull = 0 <;>
  by_cases hc : c_rarg0 = tmp1 <;> (try subst hc) <;>
  (refine ⟨?_, ?_, ?_, ?_⟩ <;> try intro k) <;>
  simp [g1_write_barrier_post_c2, generate_c2_post_barrier_stub, generate_c2_barrier_runtime_call,
    G1PostBarrierStubC2.initialize_registers, generate_post_barrier_fast_path,
    generate_post_barrier_slow_path, generate_queue_test_and_insertion, do_call, do_blr,
    card_loc, card_address, thread_field, insertion_slot, queue_slot, queue_index, queue_buffer,
    next_index,
    a1, a2, a3, a4, a5, b1, b2, b3, b4, c1, c2, e1, e2, e3, z1, z2, n1, n2, n3, n4,
    e1.symm, e2.symm, e3.symm, c1.symm, c2.symm, -Nat.reducePow, *] <;>
  (refine reg_do_pop_restore _ _ _ _ _ s.stack rfl ?_ ?_) <;>
  simp [c1.symm, c2.symm]

/-- The optimizing-tier post-barrier ends in a state with the memory, the
trace and the thread register of the inline post-barrier. -/
theorem c2_post_same (vm : VM) (store_addr new_val tmp1 tmp2 : Register)
    (stub : G1PostBarrierStubC2) (s : Machine)
    (hA : g1_write_barrier_post_asserts store_addr new_val rthread tmp1 tmp2)
    (hz : tmp1 ≠ zr ∧ tmp2 ≠ zr)
    (hE : vm.entry_address .write_ref_field_pre_entry % 2 ^ 64 ≠
      vm.entry_address .write_ref_field_post_entry % 2 ^ 64)
    (h : s.reg new_val ≠ 0 ∨ stub.barrier_data &&& vm.G1C2BarrierPostNotNull = 0) :
    ∃ t, run_with_stub vm (g1_write_barrier_post_c2 vm store_addr new_val rthread tmp1 tmp2 stub).1
        (generate_c2_post_barrier_stub vm
          (g1_write_barrier_post_c2 vm store_addr new_val rthread tmp1 tmp2 stub).2) s = some t ∧
      t.mem = (exec vm (g1_write_barrier_post vm store_addr new_val rthread tmp1 tmp2) s).mem ∧
      t.trace = (exec vm (g1_write_barrier_post vm store_addr new_val rthread tmp1 tmp2) s).trace ∧
      t.reg rthread = (exec vm (g1_write_barrier_post vm store_addr new_val rthread tmp1 tmp2) s).reg rthread := by
  obtain ⟨-, ⟨-, a2, -, -, -⟩, -, ⟨c1, c2⟩, -, -⟩ := post_asserts_ne hA
  have hth := post_keeps_thread vm store_addr new_val tmp1 tmp2 ⟨a2, c1, c2⟩ none s
  have he := entry_point_at_post vm hE
  by_cases hn : same_region vm (s.reg store_addr) (s.reg new_val) ∨ s.reg new_val = 0
  · have hn2 : same_region vm (s.reg store_addr) (s.reg new_val) ∨
        (s.reg new_val = 0 ∧ stub.barrier_data &&& vm.G1C2BarrierPostNotNull = 0) := by
      rcases hn with hn | hn
      · exact Or.inl hn
      · exact Or.inr ⟨hn, h.resolve_left (fun e => e hn)⟩
    obtain ⟨b1, b2, b3, b4⟩ := c2_post_no_op vm store_addr new_val tmp1 tmp2 stub s hA hz hn2 _ rfl
    obtain ⟨-, p2, p3⟩ := post_no_op vm store_addr new_val tmp1 tmp2 s hA hn
    rw [run_with_stub_fallthrough vm _ _ s b1, p2, p3]
    unfold exec; rw [hth]
    exact ⟨_, rfl, b2, b3, b4⟩
  · obtain ⟨hr, hv⟩ := not_or.mp hn
    by_cases hy : card_is_young vm s (card_address vm (s.reg store_addr))
    · obtain ⟨b1, b2, b3, b4⟩ := c2_post_young vm store_addr new_val tmp1 tmp2 stub s hA hz hr (Or.inl hv)
        hy _ rfl
      obtain ⟨-, p2, p3, -⟩ := post_young vm store_addr new_val tmp1 tmp2 s hA hz hr hv hy _ rfl
      rw [run_with_stub_fallthrough vm _ _ s b1, p2, p3]
      unfold exec; rw [hth]
      exact ⟨_, rfl, b2, b3, b4⟩
    · by_cases hd : card_value s (card_address vm (s.reg store_addr)) = 0
      · obtain ⟨b1, b2, b3, b4⟩ := c2_post_dirty vm store_addr new_val tmp1 tmp2 stub s hA hz hr
          (Or.inl hv) hy hd _ rfl
        obtain ⟨-, p2, p3⟩ := post_dirty vm store_addr new_val tmp1 tmp2 s hA hz hr hv hy hd
        rw [c2_post_active vm store_addr new_val tmp1 tmp2 stub s hA hz hr (Or.inl hv) hy b1, p2, p3]
        unfold exec; rw [hth]
        exact ⟨_, rfl, b2, b3, b4⟩
      · by_cases hi : queue_index s .dirty_card_queue_index_offset = 0
        · obtain ⟨b1, b2, b3, b4⟩ := c2_post_full vm store_addr new_val tmp1 tmp2 stub s hA hz hr
            (Or.inl hv) hy hd hi he _ rfl
          obtain ⟨-, p2, p3⟩ := post_full vm store_addr new_val tmp1 tmp2 s hA hz hr hv hy hd hi
            _ rfl
          rw [c2_post_active vm store_addr new_val tmp1 tmp2 stub s hA hz hr (Or.inl hv) hy b1, p3]
          unfold exec; rw [hth]
          refine ⟨_, rfl, ?_, b3, b4⟩
          funext k
          rw [b2]; unfold exec at p2; rw [p2]
        · obtain ⟨b1, b2, b3, b4⟩ := c2_post_insert vm store_addr new_val tmp1 tmp2 stub s hA hz
            hr (Or.inl hv) hy hd hi _ rfl
          obtain ⟨-, p2, p3⟩ := post_insert vm store_addr new_val tmp1 tmp2 s hA hz hr hv hy hd hi
            _ rfl
          rw [c2_post_active vm store_addr new_val tmp1 tmp2 stub s hA hz hr (Or.inl hv) hy b1, p3]
          unfold exec; rw [hth]
          refine ⟨_, rfl, ?_, b3, b4⟩
          funext k
          rw [b2]; unfold exec at p2; rw [p2]

/-- C20. On the same operands and from the same state, when the new value is
not null or the barrier data of the stub lack `G1C2BarrierPostNotNull`, the
optimizing-tier post-barrier (the code of `g1_write_barrier_post_c2` at the
call site, with the block of `generate_c2_post_barrier_stub` entered at the
stub's entry label and left at its continuation label) comes back to the
continuation, and the state there has the same card table, the same
dirty-card index, the same dirty-card storage and the same runtime calls with
the same arguments as the state after the fully inline
`g1_write_barrier_post`, whatever registers the stub saves; the whole memory
and the whole trace are in fact the same.  The two field entry points of the
runtime lie at different addresses. -/
theorem g1_write_barrier_post_c2_refines (vm : VM) (store_addr new_val tmp1 tmp2 : Register)
    (stub : G1PostBarrierStubC2) (s : Machine)
    (hA : g1_write_barrier_post_asserts store_addr new_val rthread tmp1 tmp2)
    (hz : tmp1 ≠ zr ∧ tmp2 ≠ zr)
    (hE : vm.entry_address .write_ref_field_pre_entry % 2 ^ 64 ≠
      vm.entry_address .write_ref_field_post_entry % 2 ^ 64)
    (h : s.reg new_val ≠ 0 ∨ stub.barrier_data &&& vm.G1C2BarrierPostNotNull = 0) :
    ∃ t, run_with_stub vm (g1_write_barrier_post_c2 vm store_addr new_val rthread tmp1 tmp2 stub).1
        (generate_c2_post_barrier_stub vm
          (g1_write_barrier_post_c2 vm store_addr new_val rthread tmp1 tmp2 stub).2) s = some t ∧
      (∀ a, t.mem (card_loc a) = (exec vm (g1_write_barrier_post vm store_addr new_val rthread tmp1 tmp2) s).mem (card_loc a)) ∧
      queue_index t .dirty_card_queue_index_offset =
        queue_index (exec vm (g1_write_barrier_post vm store_addr new_val rthread tmp1 tmp2) s) .dirty_card_queue_index_offset ∧
      (∀ a, t.mem (queue_slot .dirty_card_queue_buffer_offset a) =
        (exec vm (g1_write_barrier_post vm store_addr new_val rthread tmp1 tmp2) s).mem (queue_slot .dirty_card_queue_buffer_offset a)) ∧
      (∀ ep, runtime_calls ep t.trace = runtime_calls ep (exec vm (g1_write_barrier_post vm store_addr new_val rthread tmp1 tmp2) s).trace) ∧
      t.mem = (exec vm (g1_write_barrier_post vm store_addr new_val rthread tmp1 tmp2) s).mem ∧
      t.trace = (exec vm (g1_write_barrier_post vm store_addr new_val rthread tmp1 tmp2) s).trace := by
  obtain ⟨t, h0, h1, h2, h3⟩ := c2_post_same vm store_addr new_val tmp1 tmp2 stub s hA hz hE h
  refine ⟨t, h0, fun a => by rw [h1], ?_, fun a => by rw [h1], fun ep => by rw [h2], h1, h2⟩
  unfold queue_index thread_field; rw [h1, h3]

/-- Witness of C20: the example store with a clean card and the dirty-card
index at zero; the optimizing tier makes the runtime call of the inline
barrier. -/
theorem g1_write_barrier_post_c2_refines_witness :
    ∃ t, run_with_stub demo_vm
        (g1_write_barrier_post_c2 demo_vm (.r 2) (.r 3) rthread (.r 5) (.r 6)
          ⟨⟨[.r 2, .r 3]⟩, noreg, noreg, noreg, noreg, 4⟩).1
        (generate_c2_post_barrier_stub demo_vm
          (g1_write_barrier_post_c2 demo_vm (.r 2) (.r 3) rthread (.r 5) (.r 6)
            ⟨⟨[.r 2, .r 3]⟩, noreg, noreg, noreg, noreg, 4⟩).2)
        (demo_state 0 16 0 255) = some t ∧
      t.trace = (exec demo_vm (g1_write_barrier_post demo_vm (.r 2) (.r 3) rthread (.r 5) (.r 6))
        (demo_state 0 16 0 255)).trace :=
  (g1_write_barrier_post_c2_refines demo_vm (.r 2) (.r 3) (.r 5) (.r 6)
    ⟨⟨[.r 2, .r 3]⟩, noreg, noreg, noreg, noreg, 4⟩ (demo_state 0 16 0 255) (by decide)
    (by decide) (by decide) (by decide)).imp (fun _ h => ⟨h.1, h.2.2.2.2.2.2⟩)


/-! ## The index of a queue stays inside the storage -/

/-- One insertion into a queue whose index is not zero: the accesses. -/
theorem queue_insertion_trace (vm : VM) (index_offset buffer_offset : ByteSize) (runtime : Label)
    (value temp1 temp2 : Register) (s : Machine)
    (hf : index_offset ≠ buffer_offset)
    (hz : temp1 ≠ zr ∧ temp2 ≠ zr)
    (ht : temp1 ≠ rthread ∧ temp2 ≠ rthread)
    (hd : value ≠ temp1 ∧ value ≠ temp2 ∧ temp1 ≠ temp2) (hn : temp1 ≠ noreg)
    (hi : queue_index s index_offset ≠ 0) :
    (exec vm (generate_queue_test_and_insertion index_offset buffer_offset runtime
        rthread value temp1 temp2) s).trace = s.trace ++
      [Event.load (thread_field s index_offset),
       Event.store (thread_field s index_offset) (next_index (queue_index s index_offset)),
       Event.load (thread_field s buffer_offset),
       Event.store (insertion_slot s index_offset buffer_offset) (s.reg value)] := by
  obtain ⟨z1, z2⟩ := hz
  obtain ⟨t1, t2⟩ := ht
  obtain ⟨d1, d2, d3⟩ := hd
  unfold queue_index thread_field at hi
  simp [exec, generate_queue_test_and_insertion, thread_field, insertion_slot,
    queue_slot, queue_index, queue_buffer, next_index, hi, hf, hf.symm, hn, z1, z2, t1, t2, d1, d2,
    d3, t1.symm, t2.symm, d3.symm, -Nat.reducePow]

/-- The insertion code at index zero: nothing is stored and no register but
`temp1` changes. -/
theorem queue_insertion_at_zero (vm : VM) (index_offset buffer_offset : ByteSize)
    (runtime : Label) (value temp1 temp2 : Register) (s : Machine)
    (hi : queue_index s index_offset = 0) :
    (exec vm (generate_queue_test_and_insertion index_offset buffer_offset runtime
        rthread value temp1 temp2) s).mem = s.mem ∧
    (exec vm (generate_queue_test_and_insertion index_offset buffer_offset runtime
        rthread value temp1 temp2) s).trace = s.trace ++ [Event.load (thread_field s index_offset)] ∧
    (∀ x, x ≠ temp1 → (exec vm (generate_queue_test_and_insertion index_offset buffer_offset
        runtime rthread value temp1 temp2) s).reg x = s.reg x) := by
  unfold queue_index thread_field at hi
  refine ⟨?_, ?_, fun x hx => ?_⟩ <;>
  by_cases hz : temp1 = zr <;> (try subst hz) <;>
  simp [exec, generate_queue_test_and_insertion, thread_field, hi, -Nat.reducePow, *]

/-- C22. If the index of a queue is a multiple of `wordSize` and at most the
capacity `c` of the storage in bytes, then after the code of
`generate_queue_test_and_insertion` the index is again a multiple of `wordSize`
and at most `c`.  At index zero the code branches to the runtime label and
stores nothing.  At a non-zero index `i` the index is at least `wordSize`, so
the 64-bit subtraction `i - wordSize` does not wrap around; the new index is
`i - wordSize`, and the only store besides that of the index is the 64-bit store
of the value at byte offset `o = i - wordSize` of the storage, with
`o + wordSize ≤ c`: inside the storage. -/
theorem queue_index_invariant (vm : VM) (index_offset buffer_offset : ByteSize)
    (runtime : Label) (value temp1 temp2 : Register) (s : Machine) (c i : Nat)
    (hf : index_offset ≠ buffer_offset)
    (hz : temp1 ≠ zr ∧ temp2 ≠ zr)
    (ht : temp1 ≠ rthread ∧ temp2 ≠ rthread)
    (hd : value ≠ temp1 ∧ value ≠ temp2 ∧ temp1 ≠ temp2) (hn : temp1 ≠ noreg)
    (hi : queue_index s index_offset = i) (hm : wordSize ∣ i) (hc : i ≤ c) :
    wordSize ∣ queue_index (exec vm (generate_queue_test_and_insertion index_offset
      buffer_offset runtime rthread value temp1 temp2) s) index_offset ∧
    queue_index (exec vm (generate_queue_test_and_insertion index_offset
      buffer_offset runtime rthread value temp1 temp2) s) index_offset ≤ c ∧
    (i = 0 →
      exit_label vm (generate_queue_test_and_insertion index_offset buffer_offset runtime
        rthread value temp1 temp2) s = some runtime ∧
      (exec vm (generate_queue_test_and_insertion index_offset buffer_offset runtime
        rthread value temp1 temp2) s).mem = s.mem) ∧
    (i ≠ 0 →
      wordSize ≤ i ∧ next_index i = i - wordSize ∧
      exit_label vm (generate_queue_test_and_insertion index_offset buffer_offset runtime
        rthread value temp1 temp2) s = none ∧
      queue_index (exec vm (generate_queue_test_and_insertion index_offset
        buffer_offset runtime rthread value temp1 temp2) s) index_offset = i - wordSize ∧
      (exec vm (generate_queue_test_and_insertion index_offset buffer_offset runtime
        rthread value temp1 temp2) s).trace = s.trace ++
        [Event.load (thread_field s index_offset),
         Event.store (thread_field s index_offset) (i - wordSize),
         Event.load (thread_field s buffer_offset),
         Event.store (queue_slot buffer_offset
           ((queue_buffer s buffer_offset + (i - wordSize)) % 2 ^ 64)) (s.reg value)] ∧
      (i - wordSize) + wordSize ≤ c) := by
  have hlt : i < 2 ^ 64 := by rw [← hi]; exact Nat.mod_lt _ (Nat.two_pow_pos 64)
  by_cases h0 : i = 0
  · subst h0
    obtain ⟨m, -, r⟩ := queue_insertion_at_zero vm index_offset buffer_offset runtime value temp1
      temp2 s hi
    have q : queue_index (exec vm (generate_queue_test_and_insertion index_offset
        buffer_offset runtime rthread value temp1 temp2) s) index_offset = 0 := by
      unfold queue_index thread_field
      rw [m, r rthread ht.1.symm]; exact hi
    refine ⟨by rw [q]; exact hm, by rw [q]; exact hc, fun _ => ⟨?_, m⟩, fun h => absurd rfl h⟩
    exact (queue_insertion_exit vm index_offset buffer_offset runtime value temp1 temp2 s
      hz.1).mpr hi
  · have hne : queue_index s index_offset ≠ 0 := by rw [hi]; exact h0
    have hle : wordSize ≤ i := Nat.le_of_dvd (Nat.pos_of_ne_zero h0) hm
    have hni : next_index i = i - wordSize := by
      unfold next_index wordSize at *; omega
    obtain ⟨e, m, r⟩ := queue_insertion_step vm index_offset buffer_offset runtime value temp1
      temp2 s hf hz ht hd hn hne _ rfl
    have tr := queue_insertion_trace vm index_offset buffer_offset runtime value temp1 temp2 s
      hf hz ht hd hn hne
    have n1 : thread_field s index_offset ≠ insertion_slot s index_offset buffer_offset := by
      simp [thread_field, insertion_slot, queue_slot]
    have q : queue_index (exec vm (generate_queue_test_and_insertion index_offset
        buffer_offset runtime rthread value temp1 temp2) s) index_offset = i - wordSize := by
      unfold queue_index thread_field
      rw [r rthread ht.1.symm ht.2.symm]
      have := m (thread_field s index_offset)
      unfold thread_field at this n1
      rw [this, if_neg n1, if_pos rfl]
      rw [hi, hni]
      exact Nat.mod_eq_of_lt (by omega)
    refine ⟨?_, ?_, fun h => absurd h h0, fun _ => ⟨hle, hni, e, q, ?_, by omega⟩⟩
    · rw [q]; exact (Nat.dvd_sub' hm (dvd_refl _))
    · rw [q]; omega
    · rw [tr, hi, hni]
      simp [insertion_slot, hi, hni]

/-- Witness of C22: the SATB queue of the example state, capacity 16, index
16; after one insertion the index is 8. -/
theorem queue_index_invariant_witness :
    queue_index (exec demo_vm (generate_queue_test_and_insertion .satb_mark_queue_index_offset
      .satb_mark_queue_buffer_offset .runtime rthread (.r 5) (.r 6) (.r 7))
      (demo_state 1 16 16 255)) .satb_mark_queue_index_offset = 16 - wordSize :=
  ((queue_index_invariant demo_vm .satb_mark_queue_index_offset .satb_mark_queue_buffer_offset
    .runtime (.r 5) (.r 6) (.r 7) (demo_state 1 16 16 255) 16 16 (by decide) (by decide)
    (by decide) (by decide) (by decide) (by decide) (by decide) (by decide)).2.2.2
      (by decide)).2.2.2.1


/-! ## What the barriers leave unchanged -/

/-- On its no-op exits the post-barrier writes no register but `tmp1`. -/
theorem post_no_op_regs (vm : VM) (store_addr new_val tmp1 tmp2 : Register) (s : Machine)
    (hA : g1_write_barrier_post_asserts store_addr new_val rthread tmp1 tmp2)
    (h : same_region vm (s.reg store_addr) (s.reg new_val) ∨ s.reg new_val = 0) :
    ∀ x, x ≠ tmp1 →
      (exec vm (g1_write_barrier_post vm store_addr new_val rthread tmp1 tmp2) s).reg x =
        s.reg x := by
  obtain ⟨-, ⟨a1, a2, a3, a4, a5⟩, ⟨b1, b2, b3, b4⟩, ⟨c1, c2⟩, ⟨e1, e2, e3⟩, ⟨n1, n2, n3, n4⟩⟩ :=
    post_asserts_ne hA
  intro x hx
  by_cases hz : tmp1 = zr
  · subst hz
    simp [exec, g1_write_barrier_post, generate_post_barrier_fast_path,
      generate_post_barrier_slow_path, generate_queue_test_and_insertion, hx, -Nat.reducePow]
  · by_cases hr : same_region vm (s.reg store_addr) (s.reg new_val)
    · have hx2 := (region_test_eq_zero vm _ _).mpr hr
      simp [exec, g1_write_barrier_post, generate_post_barrier_fast_path,
        generate_post_barrier_slow_path, generate_queue_test_and_insertion, hz, hx, hx2,
        -Nat.reducePow]
    · have hx2 : ¬ (s.reg store_addr ^^^ s.reg new_val) >>> vm.LogOfHRGrainBytes = 0 :=
        fun e => hr ((region_test_eq_zero vm _ _).mp e)
      have hv : s.reg new_val = 0 := h.resolve_left hr
      rw [hv, Nat.xor_zero] at hx2
      simp [exec, g1_write_barrier_post, generate_post_barrier_fast_path,
        generate_post_barrier_slow_path, generate_queue_test_and_insertion, hz, hx, hx2, hv,
        b2, -Nat.reducePow]

/-- A pop of the registers pushed in an earlier state `w` gives each of them
the value it had in `w`. -/
theorem reg_do_pop_saved (regs : List Register) (w : Machine) (x : Register) (hx : x ∈ regs) :
    ∀ (t : Machine) (rest : List Nat), t.stack = regs.map w.reg ++ rest →
      (do_pop regs t).reg x = w.reg x := by
  induction regs with
  | nil => simp at hx
  | cons y ys ih =>
    intro t rest hst
    rw [do_pop]
    by_cases hys : x ∈ ys
    · exact ih hys _ rest (by simp [Machine.set, hst])
    · have hxy : x = y := by
        rcases List.mem_cons.mp hx with h | h
        · exact h
        · exact absurd h hys
      subst hxy
      rw [reg_do_pop ys _ x hys, hst]
      by_cases hzr : x = zr
      · subst hzr; simp
      · simp [hzr, -Nat.reducePow]

/-- The post-barrier leaves the register of the store address as it is. -/
theorem post_store_addr (vm : VM) (store_addr new_val tmp1 tmp2 : Register) (s : Machine)
    (hA : g1_write_barrier_post_asserts store_addr new_val rthread tmp1 tmp2)
    (hz : tmp1 ≠ zr ∧ tmp2 ≠ zr) :
    (exec vm (g1_write_barrier_post vm store_addr new_val rthread tmp1 tmp2) s).reg store_addr =
      s.reg store_addr := by
  obtain ⟨-, ⟨a1, a2, a3, a4, a5⟩, ⟨b1, b2, b3, b4⟩, ⟨c1, c2⟩, ⟨e1, e2, e3⟩, ⟨n1, n2, n3, n4⟩⟩ :=
    post_asserts_ne hA
  by_cases h : same_region vm (s.reg store_addr) (s.reg new_val) ∨ s.reg new_val = 0
  · exact post_no_op_regs vm store_addr new_val tmp1 tmp2 s hA h _ a3
  · obtain ⟨hr, hv⟩ := not_or.mp h
    obtain ⟨z1, z2⟩ := hz
    have hx : ¬ (s.reg store_addr ^^^ s.reg new_val) >>> vm.LogOfHRGrainBytes = 0 :=
      fun e => hr ((region_test_eq_zero vm _ _).mp e)
    by_cases hy : card_is_young vm s (card_address vm (s.reg store_addr))
    · exact (post_young vm store_addr new_val tmp1 tmp2 s hA ⟨z1, z2⟩ hr hv hy _ rfl).2.2.2.2 _
        a3 a4
    · unfold card_is_young card_value card_loc card_address at hy
      by_cases hd : s.mem ⟨Space.card_table,
          (s.reg store_addr >>> vm.card_shift + vm.byte_map_base) % 2 ^ 64⟩ % 2 ^ 8 = 0
      · rw [hd] at hy
        simp [exec, g1_write_barrier_post, generate_post_barrier_fast_path,
          generate_post_barrier_slow_path, generate_queue_test_and_insertion,
          card_loc, card_address, hx, hv, hy, hd,
          a1, a2, a3, a4, a5, b1, b2, b3, b4, c1, c2, e1, e2, e3, z1, z2, n1, n2, n3, n4,
          e1.symm, -Nat.reducePow]
      · by_cases hi : s.mem ⟨Space.thread .dirty_card_queue_index_offset, s.reg rthread⟩ %
            2 ^ 64 = 0
        · by_cases hc : c_rarg0 = tmp1 <;> (try subst hc) <;>
          simp [exec, g1_write_barrier_post, generate_post_barrier_fast_path,
            generate_post_barrier_slow_path, generate_queue_test_and_insertion, do_call, pass_arg,
            card_loc, card_address, thread_field, hx, hv, hy, hd, hi,
            a1, a2, a3, a4, a5, b1, b2, b3, b4, c1, c2, e1, e2, e3, z1, z2, n1, n2, n3, n4,
            e1.symm, e2.symm, e3.symm, c1.symm, c2.symm, -Nat.reducePow, *] <;>
          (refine (reg_do_pop_saved _ _ _ (by simp) _ s.stack rfl).trans ?_) <;>
          simp [a3, a4, a5]
        · simp [exec, g1_write_barrier_post, generate_post_barrier_fast_path,
            generate_post_barrier_slow_path, generate_queue_test_and_insertion, do_call,
            card_loc, card_address, thread_field, hx, hv, hy, hd, hi,
            a1, a2, a3, a4, a5, b1, b2, b3, b4, c1, c2, e1, e2, e3, z1, z2, n1, n2, n3, n4,
            e1.symm, e2.symm, e3.symm, c1.symm, c2.symm, -Nat.reducePow]

/-- C23. Running the post-barrier a second time, directly after a first run
on the same operand registers, changes nothing: the memory after the second
run is the memory after the first, and what the second run adds to the trace
holds no store at all (so no card write and no insertion into the dirty-card
queue) and no runtime call.  After the first run the store is within one
region or of null, or its card reads young or dirty; this holds whatever the
young card value is. -/
theorem g1_write_barrier_post_twice (vm : VM) (store_addr new_val tmp1 tmp2 : Register)
    (s : Machine)
    (hA : g1_write_barrier_post_asserts store_addr new_val rthread tmp1 tmp2)
    (hz : tmp1 ≠ zr ∧ tmp2 ≠ zr) :
    (exec vm (g1_write_barrier_post vm store_addr new_val rthread tmp1 tmp2) (exec vm (g1_write_barrier_post vm store_addr new_val rthread tmp1 tmp2) s)).mem = (exec vm (g1_write_barrier_post vm store_addr new_val rthread tmp1 tmp2) s).mem ∧
    ∃ added, (exec vm (g1_write_barrier_post vm store_addr new_val rthread tmp1 tmp2) (exec vm (g1_write_barrier_post vm store_addr new_val rthread tmp1 tmp2) s)).trace = (exec vm (g1_write_barrier_post vm store_addr new_val rthread tmp1 tmp2) s).trace ++ added ∧
      (∀ l v, Event.store l v ∉ added) ∧
      card_writes added = [] ∧ queue_insertions added = [] ∧ all_runtime_calls added = [] := by
  obtain ⟨-, ⟨-, -, a3, -, -⟩, ⟨-, b2, -, -⟩, -, -, -⟩ := post_asserts_ne hA
  have hsa := post_store_addr vm store_addr new_val tmp1 tmp2 s hA hz
  by_cases h1 : same_region vm ((exec vm (g1_write_barrier_post vm store_addr new_val rthread tmp1 tmp2) s).reg store_addr) ((exec vm (g1_write_barrier_post vm store_addr new_val rthread tmp1 tmp2) s).reg new_val) ∨
      (exec vm (g1_write_barrier_post vm store_addr new_val rthread tmp1 tmp2) s).reg new_val = 0
  · obtain ⟨-, m, t⟩ := post_no_op vm store_addr new_val tmp1 tmp2 _ hA h1
    exact ⟨m, [], by rw [t]; simp, by simp, rfl, rfl, rfl⟩
  · obtain ⟨hr1, hv1⟩ := not_or.mp h1
    by_cases hy1 : card_is_young vm (exec vm (g1_write_barrier_post vm store_addr new_val rthread tmp1 tmp2) s)
        (card_address vm ((exec vm (g1_write_barrier_post vm store_addr new_val rthread tmp1 tmp2) s).reg store_addr))
    · obtain ⟨-, m, t, -⟩ := post_young vm store_addr new_val tmp1 tmp2 _ hA hz hr1 hv1 hy1 _ rfl
      exact ⟨m, _, t, by simp, by simp [card_writes, card_loc],
        by simp [queue_insertions, card_loc], by simp [all_runtime_calls]⟩
    · have h0 : ¬ (same_region vm (s.reg store_addr) (s.reg new_val) ∨ s.reg new_val = 0) := by
        intro h
        apply h1
        rw [post_no_op_regs vm store_addr new_val tmp1 tmp2 s hA h _ a3,
          post_no_op_regs vm store_addr new_val tmp1 tmp2 s hA h _ b2]
        exact h
      obtain ⟨hr, hv⟩ := not_or.mp h0
      have hc := (post_card_cases vm store_addr new_val tmp1 tmp2 s hA hz hr hv).1
      rw [← hsa] at hc
      have hd1 : card_value (exec vm (g1_write_barrier_post vm store_addr new_val rthread tmp1 tmp2) s)
          (card_address vm ((exec vm (g1_write_barrier_post vm store_addr new_val rthread tmp1 tmp2) s).reg store_addr)) = 0 := hc.resolve_right hy1
      obtain ⟨-, m, t⟩ := post_dirty vm store_addr new_val tmp1 tmp2 _ hA hz hr1 hv1 hy1 hd1
      exact ⟨m, _, t, by simp, by simp [card_writes, card_loc],
        by simp [queue_insertions, card_loc], by simp [all_runtime_calls]⟩

/-- Witness of C23: the example store with a clean card; the first run dirties
the card and inserts it, the second run leaves memory as it is. -/
theorem g1_write_barrier_post_twice_witness :
    (exec demo_vm (g1_write_barrier_post demo_vm (.r 2) (.r 3) rthread (.r 5) (.r 6))
      (exec demo_vm (g1_write_barrier_post demo_vm (.r 2) (.r 3) rthread (.r 5) (.r 6))
        (demo_state 0 16 16 255))).mem =
    (exec demo_vm (g1_write_barrier_post demo_vm (.r 2) (.r 3) rthread (.r 5) (.r 6))
      (demo_state 0 16 16 255)).mem :=
  (g1_write_barrier_post_twice demo_vm (.r 2) (.r 3) (.r 5) (.r 6) (demo_state 0 16 16 255)
    (by decide) (by decide)).1


/-! ## The baseline compiler: the shared runtime stubs -/

@[simp] theorem lr_ne_noreg : lr ≠ Register.noreg := by intro h; cases h
@[simp] theorem noreg_ne_lr : Register.noreg ≠ lr := by intro h; cases h
@[simp] theorem lr_ne_c_rarg0 : lr ≠ c_rarg0 := by intro h; cases h
@[simp] theorem c_rarg0_ne_lr : c_rarg0 ≠ lr := by intro h; cases h
@[simp] theorem lr_ne_c_rarg1 : lr ≠ c_rarg1 := by intro h; cases h
@[simp] theorem c_rarg1_ne_lr : c_rarg1 ≠ lr := by intro h; cases h
@[simp] theorem lr_ne_rscratch1 : lr ≠ rscratch1 := by intro h; cases h
@[simp] theorem rscratch1_ne_lr : rscratch1 ≠ lr := by intro h; cases h
@[simp] theorem lr_ne_rscratch2 : lr ≠ rscratch2 := by intro h; cases h
@[simp] theorem rscratch2_ne_lr : rscratch2 ≠ lr := by intro h; cases h
@[simp] theorem lr_ne_rthread : lr ≠ rthread := by intro h; cases h
@[simp] theorem rthread_ne_lr : rthread ≠ lr := by intro h; cases h
@[simp] theorem lr_ne_rfp : lr ≠ rfp := by intro h; cases h
@[simp] theorem rfp_ne_lr : rfp ≠ lr := by intro h; cases h
@[simp] theorem lr_ne_zr : lr ≠ zr := by intro h; cases h
@[simp] theorem zr_ne_lr : zr ≠ lr := by intro h; cases h
@[simp] theorem rfp_ne_c_rarg0 : rfp ≠ c_rarg0 := by intro h; cases h
@[simp] theorem c_rarg0_ne_rfp : c_rarg0 ≠ rfp := by intro h; cases h
@[simp] theorem rfp_ne_c_rarg1 : rfp ≠ c_rarg1 := by intro h; cases h
@[simp] theorem c_rarg1_ne_rfp : c_rarg1 ≠ rfp := by intro h; cases h
@[simp] theorem rfp_ne_rscratch1 : rfp ≠ rscratch1 := by intro h; cases h
@[simp] theorem rscratch1_ne_rfp : rscratch1 ≠ rfp := by intro h; cases h
@[simp] theorem rfp_ne_rscratch2 : rfp ≠ rscratch2 := by intro h; cases h
@[simp] theorem rscratch2_ne_rfp : rscratch2 ≠ rfp := by intro h; cases h
@[simp] theorem rfp_ne_rthread : rfp ≠ rthread := by intro h; cases h
@[simp] theorem rthread_ne_rfp : rthread ≠ rfp := by intro h; cases h
@[simp] theorem rfp_ne_zr : rfp ≠ zr := by intro h; cases h
@[simp] theorem zr_ne_rfp : zr ≠ rfp := by intro h; cases h

@[simp] theorem mod_shiftRight_mod (n k : Nat) :
    (n % 2 ^ 64) >>> k % 2 ^ 64 = (n % 2 ^ 64) >>> k :=
  Nat.mod_eq_of_lt (shiftRight_lt _ _ (Nat.mod_lt _ (Nat.two_pow_pos 64)))

theorem c1_card_address (vm : VM) (a : Nat) :
    (vm.byte_map_base + a >>> vm.card_shift) % 2 ^ 64 = card_address vm a := by
  unfold card_address
  rw [Nat.add_comm]

@[simp] theorem card_address_mod (vm : VM) (a : Nat) :
    card_address vm a % 2 ^ 64 = card_address vm a := by
  unfold card_address
  exact Nat.mod_mod _ _

/-- The shared post-barrier stub keeps the thread register. -/
theorem c1_post_keeps_thread (vm : VM) (p : Option Label) (s : Machine) :
    (run vm (generate_c1_post_barrier_runtime_stub vm) p s).1.reg rthread = s.reg rthread := by
  apply run_reg
  simp [generate_c1_post_barrier_runtime_stub, Insn.writes, rthread_not_clobbered]

/-- Path of the shared post-barrier stub on a young card. -/
theorem c1_post_young (vm : VM) (s : Machine)
    (hy : card_is_young vm s (card_address vm (s.mem ⟨Space.parameter, 0⟩ % 2 ^ 64))) :
    exit_label vm (generate_c1_post_barrier_runtime_stub vm) s = none ∧
    (exec vm (generate_c1_post_barrier_runtime_stub vm) s).mem = s.mem ∧
    (exec vm (generate_c1_post_barrier_runtime_stub vm) s).trace = s.trace ++
      [Event.load ⟨Space.parameter, 0⟩, Event.load (card_loc (card_address vm (s.mem ⟨Space.parameter, 0⟩ % 2 ^ 64)))] := by
  unfold card_is_young card_value card_loc at hy
  refine ⟨?_, ?_, ?_⟩ <;>
  simp [exec, exit_label, generate_c1_post_barrier_runtime_stub, c1_card_address,
    card_loc, hy, -Nat.reducePow]

/-- Path of the shared post-barrier stub on a card that reads dirty at the
re-read. -/
theorem c1_post_dirty (vm : VM) (s : Machine)
    (hy : ¬ card_is_young vm s (card_address vm (s.mem ⟨Space.parameter, 0⟩ % 2 ^ 64)))
    (hd : card_value s (card_address vm (s.mem ⟨Space.parameter, 0⟩ % 2 ^ 64)) = 0) :
    exit_label vm (generate_c1_post_barrier_runtime_stub vm) s = none ∧
    (exec vm (generate_c1_post_barrier_runtime_stub vm) s).mem = s.mem ∧
    (exec vm (generate_c1_post_barrier_runtime_stub vm) s).trace = s.trace ++
      [Event.load ⟨Space.parameter, 0⟩, Event.load (card_loc (card_address vm (s.mem ⟨Space.parameter, 0⟩ % 2 ^ 64))), Event.membar,
       Event.load (card_loc (card_address vm (s.mem ⟨Space.parameter, 0⟩ % 2 ^ 64)))] := by
  unfold card_is_young card_value card_loc at hy
  unfold card_value card_loc at hd
  rw [hd] at hy
  refine ⟨?_, ?_, ?_⟩ <;>
  simp [exec, exit_label, generate_c1_post_barrier_runtime_stub, c1_card_address,
    card_loc, hy, hd, -Nat.reducePow]

/-- Path of the shared post-barrier stub that inserts the card address. -/
theorem c1_post_insert (vm : VM) (s : Machine)
    (hy : ¬ card_is_young vm s (card_address vm (s.mem ⟨Space.parameter, 0⟩ % 2 ^ 64)))
    (hd : card_value s (card_address vm (s.mem ⟨Space.parameter, 0⟩ % 2 ^ 64)) ≠ 0)
    (hi : queue_index s .dirty_card_queue_index_offset ≠ 0) :
    exit_label vm (generate_c1_post_barrier_runtime_stub vm) s = none ∧
    (∀ k, (exec vm (generate_c1_post_barrier_runtime_stub vm) s).mem k =
      if k = insertion_slot s .dirty_card_queue_index_offset .dirty_card_queue_buffer_offset
        then (card_address vm (s.mem ⟨Space.parameter, 0⟩ % 2 ^ 64))
      else if k = thread_field s .dirty_card_queue_index_offset
        then next_index (queue_index s .dirty_card_queue_index_offset)
      else if k = card_loc (card_address vm (s.mem ⟨Space.parameter, 0⟩ % 2 ^ 64)) then 0
      else s.mem k) ∧
    (exec vm (generate_c1_post_barrier_runtime_stub vm) s).trace = s.trace ++
      [Event.load ⟨Space.parameter, 0⟩, Event.load (card_loc (card_address vm (s.mem ⟨Space.parameter, 0⟩ % 2 ^ 64))), Event.membar,
       Event.load (card_loc (card_address vm (s.mem ⟨Space.parameter, 0⟩ % 2 ^ 64))),
       Event.store (card_loc (card_address vm (s.mem ⟨Space.parameter, 0⟩ % 2 ^ 64))) 0,
       Event.load (thread_field s .dirty_card_queue_index_offset),
       Event.store (thread_field s .dirty_card_queue_index_offset)
         (next_index (queue_index s .dirty_card_queue_index_offset)),
       Event.load (thread_field s .dirty_card_queue_buffer_offset),
       Event.store (insertion_slot s .dirty_card_queue_index_offset
         .dirty_card_queue_buffer_offset) (card_address vm (s.mem ⟨Space.parameter, 0⟩ % 2 ^ 64))] := by
  unfold card_is_young card_value card_loc at hy
  unfold card_value card_loc at hd
  unfold queue_index thread_field at hi
  (refine ⟨?_, ?_, ?_⟩ <;> try intro k) <;>
  simp [exec, exit_label, generate_c1_post_barrier_runtime_stub, c1_card_address, do_call,
    card_loc, thread_field, insertion_slot, queue_slot, queue_index, queue_buffer, next_index,
    hy, hd, hi, -Nat.reducePow]

/-- Path of the shared post-barrier stub that calls the runtime. -/
theorem c1_post_full (vm : VM) (s : Machine)
    (hy : ¬ card_is_young vm s (card_address vm (s.mem ⟨Space.parameter, 0⟩ % 2 ^ 64)))
    (hd : card_value s (card_address vm (s.mem ⟨Space.parameter, 0⟩ % 2 ^ 64)) ≠ 0)
    (hi : queue_index s .dirty_card_queue_index_offset = 0) :
    exit_label vm (generate_c1_post_barrier_runtime_stub vm) s = none ∧
    (∀ k, (exec vm (generate_c1_post_barrier_runtime_stub vm) s).mem k = if k = card_loc (card_address vm (s.mem ⟨Space.parameter, 0⟩ % 2 ^ 64)) then 0 else s.mem k) ∧
    (exec vm (generate_c1_post_barrier_runtime_stub vm) s).trace = s.trace ++
      [Event.load ⟨Space.parameter, 0⟩, Event.load (card_loc (card_address vm (s.mem ⟨Space.parameter, 0⟩ % 2 ^ 64))), Event.membar,
       Event.load (card_loc (card_address vm (s.mem ⟨Space.parameter, 0⟩ % 2 ^ 64))),
       Event.store (card_loc (card_address vm (s.mem ⟨Space.parameter, 0⟩ % 2 ^ 64))) 0,
       Event.load (thread_field s .dirty_card_queue_index_offset),
       Event.call .write_ref_field_post_entry (card_address vm (s.mem ⟨Space.parameter, 0⟩ % 2 ^ 64)) (s.reg rthread)] := by
  unfold card_is_young card_value card_loc at hy
  unfold card_value card_loc at hd
  unfold queue_index thread_field at hi
  (refine ⟨?_, ?_, ?_⟩ <;> try intro k) <;>
  simp [exec, exit_label, generate_c1_post_barrier_runtime_stub, c1_card_address, do_call,
    card_loc, thread_field, insertion_slot, queue_slot, queue_index, queue_buffer, next_index,
    hy, hd, hi, -Nat.reducePow]

/-- The shared pre-barrier stub keeps the thread register. -/
theorem c1_pre_keeps_thread (vm : VM) (p : Option Label) (s : Machine) :
    (run vm (generate_c1_pre_barrier_runtime_stub vm) p s).1.reg rthread = s.reg rthread := by
  apply run_reg
  by_cases hw : vm.byte_width_of_active = 4 <;>
  simp [generate_c1_pre_barrier_runtime_stub, Insn.writes, rthread_not_clobbered, hw, r0]

/-- Path of the shared pre-barrier stub while marking is inactive. -/
theorem c1_pre_inactive (vm : VM) (s : Machine) (h : marking_active vm s = 0) :
    exit_label vm (generate_c1_pre_barrier_runtime_stub vm) s = none ∧
    (exec vm (generate_c1_pre_barrier_runtime_stub vm) s).mem = s.mem ∧
    (exec vm (generate_c1_pre_barrier_runtime_stub vm) s).trace = s.trace ++
      [Event.load (thread_field s .satb_mark_queue_active_offset)] := by
  unfold marking_active thread_field at h
  by_cases hw : vm.byte_width_of_active = 4 <;> simp only [hw, if_true, if_false] at h <;>
  refine ⟨?_, ?_, ?_⟩ <;>
  simp [exec, exit_label, generate_c1_pre_barrier_runtime_stub, thread_field, hw, h,
    -Nat.reducePow]

/-- Path of the shared pre-barrier stub that inserts the previous value. -/
theorem c1_pre_insert (vm : VM) (s : Machine)
    (hact : marking_active vm s ≠ 0)
    (hi : queue_index s .satb_mark_queue_index_offset ≠ 0) :
    exit_label vm (generate_c1_pre_barrier_runtime_stub vm) s = none ∧
    (∀ k, (exec vm (generate_c1_pre_barrier_runtime_stub vm) s).mem k =
      if k = insertion_slot s .satb_mark_queue_index_offset .satb_mark_queue_buffer_offset
        then (s.mem ⟨Space.parameter, 0⟩ % 2 ^ 64)
      else if k = thread_field s .satb_mark_queue_index_offset
        then next_index (queue_index s .satb_mark_queue_index_offset)
      else s.mem k) ∧
    (exec vm (generate_c1_pre_barrier_runtime_stub vm) s).trace = s.trace ++
      [Event.load (thread_field s .satb_mark_queue_active_offset),
       Event.load (thread_field s .satb_mark_queue_index_offset),
       Event.store (thread_field s .satb_mark_queue_index_offset)
         (next_index (queue_index s .satb_mark_queue_index_offset)),
       Event.load (thread_field s .satb_mark_queue_buffer_offset),
       Event.load ⟨Space.parameter, 0⟩,
       Event.store (insertion_slot s .satb_mark_queue_index_offset
         .satb_mark_queue_buffer_offset) (s.mem ⟨Space.parameter, 0⟩ % 2 ^ 64)] := by
  unfold marking_active thread_field at hact
  unfold queue_index thread_field at hi
  by_cases hw : vm.byte_width_of_active = 4 <;> simp only [hw, if_true, if_false] at hact <;>
  (refine ⟨?_, ?_, ?_⟩ <;> try intro k) <;>
  simp [exec, exit_label, generate_c1_pre_barrier_runtime_stub, r0,
    thread_field, insertion_slot, queue_slot, queue_index, queue_buffer, next_index,
    hw, hact, hi, -Nat.reducePow] <;>
  rw [Nat.add_comm (_ - wordSize) _]

/-- Path of the shared pre-barrier stub that calls the runtime. -/
theorem c1_pre_full (vm : VM) (s : Machine)
    (hact : marking_active vm s ≠ 0)
    (hi : queue_index s .satb_mark_queue_index_offset = 0) :
    exit_label vm (generate_c1_pre_barrier_runtime_stub vm) s = none ∧
    (exec vm (generate_c1_pre_barrier_runtime_stub vm) s).mem = s.mem ∧
    (exec vm (generate_c1_pre_barrier_runtime_stub vm) s).trace = s.trace ++
      [Event.load (thread_field s .satb_mark_queue_active_offset),
       Event.load (thread_field s .satb_mark_queue_index_offset),
       Event.load ⟨Space.parameter, 0⟩,
       Event.call .write_ref_field_pre_entry (s.mem ⟨Space.parameter, 0⟩ % 2 ^ 64) (s.reg rthread)] := by
  unfold marking_active thread_field at hact
  unfold queue_index thread_field at hi
  by_cases hw : vm.byte_width_of_active = 4 <;> simp only [hw, if_true, if_false] at hact <;>
  refine ⟨?_, ?_, ?_⟩ <;>
  simp [exec, exit_label, generate_c1_pre_barrier_runtime_stub, r0, do_call,
    thread_field, hw, hact, hi, -Nat.reducePow]


/-! ## The post-barrier stub of the baseline compiler -/

/-- The post-barrier stub of the baseline compiler, entered at its entry label:
a null new value goes to the continuation at once; otherwise the store address
is stored as parameter 0, the shared stub runs, and the stub branches to the
continuation. -/
theorem run_c1_post_stub (vm : VM) (stub : G1PostBarrierStub) (s : Machine) :
    run_c1 vm (gen_post_barrier_stub stub) (some .entry) s =
      if s.reg stub.new_val = 0 then (s, some .continuation)
      else (exec vm (generate_c1_post_barrier_runtime_stub vm)
        (s.write ⟨Space.parameter, 0⟩ (s.reg stub.addr)), some .continuation) := by
  by_cases h : s.reg stub.new_val = 0 <;>
  simp [run_c1, gen_post_barrier_stub, Insn.call_target, Insn.binds, step, exec,
    c1_runtime_code_blob, h, -Nat.reducePow]

/-- Card cells are not the parameter area. -/
theorem card_cell_ne_parameter (k : Loc) (n : Nat) (h : card_cell k = true) :
    k ≠ ⟨Space.parameter, n⟩ := by
  intro e; subst e; simp [card_cell] at h

/-- The post-barrier path of the baseline compiler and the inline post-barrier
on a store that crosses regions: same card cells, same runtime calls. -/
theorem c1_post_same (vm : VM) (stub : G1PostBarrierStub) (tmp1 tmp2 : Register) (s : Machine)
    (hA : g1_write_barrier_post_asserts stub.addr stub.new_val rthread tmp1 tmp2)
    (hz : tmp1 ≠ zr ∧ tmp2 ≠ zr)
    (hr : ¬ same_region vm (s.reg stub.addr) (s.reg stub.new_val)) :
    ∃ t added, run_c1 vm (gen_post_barrier_stub stub) (some .entry) s = (t, some .continuation) ∧
      (s.reg stub.new_val = 0 → t = s) ∧
      (∀ k, card_cell k = true → t.mem k =
        (exec vm (g1_write_barrier_post vm stub.addr stub.new_val rthread tmp1 tmp2) s).mem k) ∧
      t.trace = s.trace ++ added ∧
      (∀ ep, runtime_calls ep t.trace = runtime_calls ep
        (exec vm (g1_write_barrier_post vm stub.addr stub.new_val rthread tmp1 tmp2) s).trace) ∧
      (∀ e, e ∈ all_runtime_calls added → e = Event.call .write_ref_field_post_entry
        (card_address vm (s.reg stub.addr)) (s.reg rthread)) := by
  rw [run_c1_post_stub]
  by_cases hv : s.reg stub.new_val = 0
  · obtain ⟨-, p2, p3⟩ := post_no_op vm stub.addr stub.new_val tmp1 tmp2 s hA (Or.inr hv)
    refine ⟨s, [], by simp [hv], fun _ => rfl, fun k _ => by rw [p2], by simp, fun ep => by rw [p3],
      by simp [all_runtime_calls]⟩
  · have e1 : (s.write ⟨Space.parameter, 0⟩ (s.reg stub.addr)).mem ⟨Space.parameter, 0⟩ % 2 ^ 64 =
        s.reg stub.addr := by rw [Machine.mem_write, if_pos rfl, Machine.reg_mod]
    have e2 : ∀ c, card_value (s.write ⟨Space.parameter, 0⟩ (s.reg stub.addr)) c =
        card_value s c := by
      intro c; simp [card_value, card_loc]
    have e3 : queue_index (s.write ⟨Space.parameter, 0⟩ (s.reg stub.addr))
        .dirty_card_queue_index_offset = queue_index s .dirty_card_queue_index_offset := by
      simp [queue_index, thread_field]
    have e4 : ∀ c, card_is_young vm (s.write ⟨Space.parameter, 0⟩ (s.reg stub.addr)) c ↔
        card_is_young vm s c := by
      intro c; simp [card_is_young, card_value, card_loc]
    by_cases hy : card_is_young vm s (card_address vm (s.reg stub.addr))
    · obtain ⟨-, b2, b3⟩ := c1_post_young vm (s.write ⟨Space.parameter, 0⟩ (s.reg stub.addr))
        (by rw [e1, e4]; exact hy)
      obtain ⟨-, p2, p3, -⟩ := post_young vm stub.addr stub.new_val tmp1 tmp2 s hA hz hr hv hy _ rfl
      rw [e1] at b3
      rw [Machine.trace_write, List.append_assoc] at b3
      refine ⟨_, _, by rw [if_neg hv], fun h => absurd h hv, ?_, b3, ?_, ?_⟩
      · intro k hk
        rw [b2, p2]; simp [card_cell_ne_parameter k 0 hk]
      · intro ep; rw [b3, p3]; simp [runtime_calls]
      · simp [all_runtime_calls]
    · by_cases hd : card_value s (card_address vm (s.reg stub.addr)) = 0
      · obtain ⟨-, b2, b3⟩ := c1_post_dirty vm (s.write ⟨Space.parameter, 0⟩ (s.reg stub.addr))
          (by rw [e1, e4]; exact hy) (by rw [e1, e2]; exact hd)
        obtain ⟨-, p2, p3⟩ := post_dirty vm stub.addr stub.new_val tmp1 tmp2 s hA hz hr hv hy hd
        rw [e1] at b3
        rw [Machine.trace_write, List.append_assoc] at b3
        refine ⟨_, _, by rw [if_neg hv], fun h => absurd h hv, ?_, b3, ?_, ?_⟩
        · intro k hk
          rw [b2, p2]; simp [card_cell_ne_parameter k 0 hk]
        · intro ep; rw [b3, p3]; simp [runtime_calls]
        · simp [all_runtime_calls]
      · by_cases hi : queue_index s .dirty_card_queue_index_offset = 0
        · obtain ⟨-, b2, b3⟩ := c1_post_full vm (s.write ⟨Space.parameter, 0⟩ (s.reg stub.addr))
            (by rw [e1, e4]; exact hy) (by rw [e1, e2]; exact hd) (by rw [e3]; exact hi)
          obtain ⟨-, p2, p3⟩ := post_full vm stub.addr stub.new_val tmp1 tmp2 s hA hz hr hv hy hd hi
            _ rfl
          rw [e1] at b3
          simp only [e1] at b2
          rw [Machine.trace_write, List.append_assoc] at b3
          refine ⟨_, _, by rw [if_neg hv], fun h => absurd h hv, ?_, b3, ?_, ?_⟩
          · intro k hk
            rw [b2, p2]; simp [card_cell_ne_parameter k 0 hk]
          · intro ep; rw [b3, p3]; simp [runtime_calls, thread_field]
          · simp [all_runtime_calls, thread_field]
        · obtain ⟨-, b2, b3⟩ := c1_post_insert vm (s.write ⟨Space.parameter, 0⟩ (s.reg stub.addr))
            (by rw [e1, e4]; exact hy) (by rw [e1, e2]; exact hd) (by rw [e3]; exact hi)
          obtain ⟨-, p2, p3⟩ := post_insert vm stub.addr stub.new_val tmp1 tmp2 s hA hz hr hv hy hd
            hi _ rfl
          rw [e1] at b3
          simp only [e1] at b2
          rw [Machine.trace_write, List.append_assoc] at b3
          refine ⟨_, _, by rw [if_neg hv], fun h => absurd h hv, ?_, b3, ?_, ?_⟩
          · intro k hk
            rw [b2, p2]
            simp [card_cell_ne_parameter k 0 hk, insertion_slot, queue_slot, queue_index,
              queue_buffer, thread_field, next_index, -Nat.reducePow]
          · intro ep; rw [b3, p3]; simp [runtime_calls, thread_field]
          · simp [all_runtime_calls, thread_field]

/-- The post-barrier stub of the baseline compiler keeps the thread register. -/
theorem c1_post_stub_keeps_thread (vm : VM) (stub : G1PostBarrierStub) (s : Machine) :
    (run_c1 vm (gen_post_barrier_stub stub) (some .entry) s).1.reg rthread = s.reg rthread := by
  rw [run_c1_post_stub]
  split
  · rfl
  · exact (c1_post_keeps_thread vm none _).trans (Machine.reg_write _ _ _ _)

/-- C26. For every state and every store whose address and new value lie in
different regions, the post-barrier path of the baseline compiler (the code of
`gen_post_barrier_stub` entered at the stub's entry label, whose `far_call`
runs the shared stub of `generate_c1_post_barrier_runtime_stub` with the store
address as parameter 0) ends at the continuation label; a null new value
leaves the state as it was; the state at the continuation has the same card
table, the same dirty-card index, the same dirty-card storage and the same
runtime calls as the state after `g1_write_barrier_post` on the same operands;
and every runtime call the path makes is `write_ref_field_post_entry` with the
card address `byte_map_base + (addr >> card_shift)` and the thread. -/
theorem gen_post_barrier_stub_refines (vm : VM) (stub : G1PostBarrierStub)
    (tmp1 tmp2 : Register) (s : Machine)
    (hA : g1_write_barrier_post_asserts stub.addr stub.new_val rthread tmp1 tmp2)
    (hz : tmp1 ≠ zr ∧ tmp2 ≠ zr)
    (hr : ¬ same_region vm (s.reg stub.addr) (s.reg stub.new_val)) :
    ∃ t added, run_c1 vm (gen_post_barrier_stub stub) (some .entry) s = (t, some .continuation) ∧
      (s.reg stub.new_val = 0 → t = s) ∧
      (∀ a, t.mem (card_loc a) = (exec vm (g1_write_barrier_post vm stub.addr stub.new_val rthread tmp1 tmp2) s).mem (card_loc a)) ∧
      queue_index t .dirty_card_queue_index_offset =
        queue_index (exec vm (g1_write_barrier_post vm stub.addr stub.new_val rthread tmp1 tmp2) s) .dirty_card_queue_index_offset ∧
      queue_buffer t .dirty_card_queue_buffer_offset =
        queue_buffer (exec vm (g1_write_barrier_post vm stub.addr stub.new_val rthread tmp1 tmp2) s) .dirty_card_queue_buffer_offset ∧
      (∀ a, t.mem (queue_slot .dirty_card_queue_buffer_offset a) =
        (exec vm (g1_write_barrier_post vm stub.addr stub.new_val rthread tmp1 tmp2) s).mem (queue_slot .dirty_card_queue_buffer_offset a)) ∧
      (∀ ep, runtime_calls ep t.trace = runtime_calls ep (exec vm (g1_write_barrier_post vm stub.addr stub.new_val rthread tmp1 tmp2) s).trace) ∧
      t.trace = s.trace ++ added ∧
      (∀ e, e ∈ all_runtime_calls added → e = Event.call .write_ref_field_post_entry
        (card_address vm (s.reg stub.addr)) (s.reg rthread)) := by
  obtain ⟨-, ⟨-, a2, -, -, -⟩, -, ⟨c1, c2⟩, -, -⟩ := post_asserts_ne hA
  have hth := post_keeps_thread vm stub.addr stub.new_val tmp1 tmp2 ⟨a2, c1, c2⟩ none s
  have hth2 := c1_post_stub_keeps_thread vm stub s
  obtain ⟨t, added, h0, h1, h2, h3, h4, h5⟩ := c1_post_same vm stub tmp1 tmp2 s hA hz hr
  rw [h0] at hth2
  refine ⟨t, added, h0, h1, fun a => h2 _ rfl, ?_, ?_, fun a => h2 _ rfl, h4, h3, h5⟩
  · unfold queue_index thread_field exec
    rw [hth, hth2]
    exact congrArg (· % 2 ^ 64) (h2 ⟨Space.thread .dirty_card_queue_index_offset, _⟩ rfl)
  · unfold queue_buffer thread_field exec
    rw [hth, hth2]
    exact congrArg (· % 2 ^ 64) (h2 ⟨Space.thread .dirty_card_queue_buffer_offset, _⟩ rfl)

/-- Witness of C26: the example store with a clean card and the dirty-card
index at zero; the baseline path ends at the continuation with the runtime
call of the inline barrier. -/
theorem gen_post_barrier_stub_refines_witness :
    ∃ t added, run_c1 demo_vm (gen_post_barrier_stub ⟨.r 2, .r 3⟩) (some .entry)
        (demo_state 0 16 0 255) = (t, some .continuation) ∧
      (∀ ep, runtime_calls ep t.trace = runtime_calls ep
        (exec demo_vm (g1_write_barrier_post demo_vm (.r 2) (.r 3) rthread (.r 5) (.r 6))
          (demo_state 0 16 0 255)).trace) ∧
      t.trace = (demo_state 0 16 0 255).trace ++ added :=
  (gen_post_barrier_stub_refines demo_vm ⟨.r 2, .r 3⟩ (.r 5) (.r 6) (demo_state 0 16 0 255)
    (by decide) (by decide) (by decide)).imp (fun _ h => h.imp (fun _ g =>
      ⟨g.1, g.2.2.2.2.2.2.1, g.2.2.2.2.2.2.2.1⟩))


/-! ## The pre-barrier stub of the baseline compiler -/

/-- The pre-barrier stub of the baseline compiler, entered at its entry label:
the previous value is loaded when `do_load`; a null previous value goes to the
continuation at once; otherwise the value is stored as parameter 0, the shared
stub runs, and the stub branches to the continuation. -/
theorem run_c1_pre_stub (vm : VM) (stub : G1PreBarrierStub) (s : Machine) :
    ∀ s1, s1 = (if stub.do_load then do_load_at .T_OBJECT stub.pre_val stub.addr s else s) →
    run_c1 vm (gen_pre_barrier_stub stub) (some .entry) s =
      if s1.reg stub.pre_val = 0 then (s1, some .continuation)
      else (exec vm (generate_c1_pre_barrier_runtime_stub vm)
        (s1.write ⟨Space.parameter, 0⟩ (s1.reg stub.pre_val)), some .continuation) := by
  intro s1 h1; subst h1
  cases hl : stub.do_load <;>
  simp only [Bool.false_eq_true, if_true, if_false] <;>
  split <;>
  simp [run_c1, gen_pre_barrier_stub, Insn.call_target, Insn.binds, step, exec,
    c1_runtime_code_blob, hl, -Nat.reducePow, *]

/-- SATB cells are not the parameter area. -/
theorem satb_cell_ne_parameter (k : Loc) (n : Nat) (h : satb_cell k = true) :
    k ≠ ⟨Space.parameter, n⟩ := by
  intro e; subst e; simp [satb_cell] at h

/-- The shared pre-barrier stub called with a previous value as parameter 0:
its effect on the SATB cells and its runtime calls, by the marking flag and the
SATB index. -/
theorem c1_pre_far_call (vm : VM) (s : Machine) (P : Nat) (hlt : P % 2 ^ 64 = P) :
    ∃ added, (exec vm (generate_c1_pre_barrier_runtime_stub vm)
        (s.write ⟨Space.parameter, 0⟩ P)).trace = s.trace ++ added ∧
      (marking_active vm s = 0 →
        (∀ k, satb_cell k = true → (exec vm (generate_c1_pre_barrier_runtime_stub vm)
          (s.write ⟨Space.parameter, 0⟩ P)).mem k = s.mem k) ∧
        all_runtime_calls added = []) ∧
      (marking_active vm s ≠ 0 → queue_index s .satb_mark_queue_index_offset ≠ 0 →
        (∀ k, satb_cell k = true → (exec vm (generate_c1_pre_barrier_runtime_stub vm)
          (s.write ⟨Space.parameter, 0⟩ P)).mem k =
            if k = insertion_slot s .satb_mark_queue_index_offset .satb_mark_queue_buffer_offset
              then P
            else if k = thread_field s .satb_mark_queue_index_offset
              then next_index (queue_index s .satb_mark_queue_index_offset)
            else s.mem k) ∧
        all_runtime_calls added = []) ∧
      (marking_active vm s ≠ 0 → queue_index s .satb_mark_queue_index_offset = 0 →
        (∀ k, satb_cell k = true → (exec vm (generate_c1_pre_barrier_runtime_stub vm)
          (s.write ⟨Space.parameter, 0⟩ P)).mem k = s.mem k) ∧
        all_runtime_calls added =
          [Event.call .write_ref_field_pre_entry P (s.reg rthread)]) := by
  have e1 : (s.write ⟨Space.parameter, 0⟩ P).mem ⟨Space.parameter, 0⟩ % 2 ^ 64 = P := by
    rw [Machine.mem_write, if_pos rfl, hlt]
  have e2 : marking_active vm (s.write ⟨Space.parameter, 0⟩ P) = marking_active vm s := by
    simp [marking_active, thread_field]
  have e3 : queue_index (s.write ⟨Space.parameter, 0⟩ P) .satb_mark_queue_index_offset =
      queue_index s .satb_mark_queue_index_offset := by
    simp [queue_index, thread_field]
  by_cases hact : marking_active vm s = 0
  · obtain ⟨-, b2, b3⟩ := c1_pre_inactive vm (s.write ⟨Space.parameter, 0⟩ P)
      (by rw [e2]; exact hact)
    rw [Machine.trace_write, List.append_assoc] at b3
    refine ⟨_, b3, fun _ => ⟨?_, ?_⟩, fun h => absurd hact h, fun h => absurd hact h⟩
    · intro k hk
      rw [b2]; simp [satb_cell_ne_parameter k 0 hk]
    · simp [all_runtime_calls]
  · by_cases hi : queue_index s .satb_mark_queue_index_offset = 0
    · obtain ⟨-, b2, b3⟩ := c1_pre_full vm (s.write ⟨Space.parameter, 0⟩ P)
        (by rw [e2]; exact hact) (by rw [e3]; exact hi)
      rw [e1, Machine.trace_write, List.append_assoc] at b3
      refine ⟨_, b3, fun h => absurd h hact, fun _ h => absurd hi h, fun _ _ => ⟨?_, ?_⟩⟩
      · intro k hk
        rw [b2]; simp [satb_cell_ne_parameter k 0 hk]
      · simp [all_runtime_calls, thread_field]
    · obtain ⟨-, b2, b3⟩ := c1_pre_insert vm (s.write ⟨Space.parameter, 0⟩ P)
        (by rw [e2]; exact hact) (by rw [e3]; exact hi)
      rw [e1, Machine.trace_write, List.append_assoc] at b3
      simp only [e1] at b2
      refine ⟨_, b3, fun h => absurd h hact, fun _ _ => ⟨?_, ?_⟩, fun _ h => absurd h hi⟩
      · intro k hk
        rw [b2]
        simp [satb_cell_ne_parameter k 0 hk, insertion_slot, queue_slot, queue_index,
          queue_buffer, thread_field, next_index, -Nat.reducePow]
      · simp [all_runtime_calls, thread_field]

/-- The state after the optional load of the pre-barrier stub: the register of
the previous value holds the previous value, and the memory and the thread
register are those of the state before. -/
theorem c1_pre_loaded (stub : G1PreBarrierStub) (s : Machine) (hS : is_temp stub.pre_val) :
    ∀ s1, s1 = (if stub.do_load then do_load_at .T_OBJECT stub.pre_val stub.addr s else s) →
      s1.reg stub.pre_val =
        (if stub.do_load then s.mem (stub.addr.loc s) % 2 ^ 64 else s.reg stub.pre_val) ∧
      s1.mem = s.mem ∧ s1.reg rthread = s.reg rthread ∧
      ∃ l0, s1.trace = s.trace ++ l0 ∧ all_runtime_calls l0 = [] := by
  obtain ⟨z1, t1⟩ := hS
  intro s1 h1; subst h1
  cases hl : stub.do_load
  · exact ⟨by simp, by simp, by simp, [], by simp, rfl⟩
  · exact ⟨by simp [do_load_at, do_load, z1, -Nat.reducePow],
      by simp [do_load_at, do_load, -Nat.reducePow],
      by simp [do_load_at, do_load, t1.symm, -Nat.reducePow],
      _, by simp [do_load_at, do_load, -Nat.reducePow]; rfl, by simp [all_runtime_calls]⟩

/-- The pre-barrier path of the baseline compiler, by the previous value, the
marking flag and the SATB index. -/
theorem c1_pre_path (vm : VM) (stub : G1PreBarrierStub) (s : Machine) (P : Nat)
    (hS : is_temp stub.pre_val)
    (hP : P = if stub.do_load then s.mem (stub.addr.loc s) % 2 ^ 64 else s.reg stub.pre_val) :
    ∃ t added, run_c1 vm (gen_pre_barrier_stub stub) (some .entry) s = (t, some .continuation) ∧
      t.trace = s.trace ++ added ∧
      t.reg rthread = s.reg rthread ∧
      (P = 0 ∨ marking_active vm s = 0 →
        (∀ k, satb_cell k = true → t.mem k = s.mem k) ∧ all_runtime_calls added = []) ∧
      (P ≠ 0 → marking_active vm s ≠ 0 → queue_index s .satb_mark_queue_index_offset ≠ 0 →
        (∀ k, satb_cell k = true → t.mem k =
            if k = insertion_slot s .satb_mark_queue_index_offset .satb_mark_queue_buffer_offset
              then P
            else if k = thread_field s .satb_mark_queue_index_offset
              then next_index (queue_index s .satb_mark_queue_index_offset)
            else s.mem k) ∧
        all_runtime_calls added = []) ∧
      (P ≠ 0 → marking_active vm s ≠ 0 → queue_index s .satb_mark_queue_index_offset = 0 →
        (∀ k, satb_cell k = true → t.mem k = s.mem k) ∧
        all_runtime_calls added =
          [Event.call .write_ref_field_pre_entry P (s.reg rthread)]) := by
  obtain ⟨f1, f2, f3, l0, f4, f5⟩ := c1_pre_loaded stub s hS _ rfl
  rw [← hP] at f1
  rw [run_c1_pre_stub vm stub s _ rfl, f1]
  generalize (if stub.do_load then do_load_at .T_OBJECT stub.pre_val stub.addr s else s) = s1
    at f1 f2 f3 f4
  have hlt : P % 2 ^ 64 = P := by rw [← f1]; exact Machine.reg_mod _ _
  have em : marking_active vm s1 = marking_active vm s := by
    simp only [marking_active, thread_field, f2, f3]
  have ei : ∀ f, queue_index s1 f = queue_index s f := by
    intro f; simp only [queue_index, thread_field, f2, f3]
  have es : ∀ f g, insertion_slot s1 f g = insertion_slot s f g := by
    intro f g; simp only [insertion_slot, queue_index, queue_buffer, thread_field, f2, f3]
  have et : ∀ f, thread_field s1 f = thread_field s f := by
    intro f; simp only [thread_field, f3]
  by_cases h0 : P = 0
  · rw [if_pos h0]
    refine ⟨s1, l0, rfl, f4, f3, fun _ => ⟨fun k _ => by rw [f2], f5⟩,
      fun h => absurd h0 h, fun h => absurd h0 h⟩
  · rw [if_neg h0]
    obtain ⟨added, g1, g2, g3, g4⟩ := c1_pre_far_call vm s1 P hlt
    rw [em] at g2 g3 g4
    simp only [ei, es, et, f2, f3] at g3 g4
    simp only [f2] at g2
    rw [f4, List.append_assoc] at g1
    have hc : all_runtime_calls (l0 ++ added) = all_runtime_calls added := by
      unfold all_runtime_calls at f5 ⊢
      rw [List.filter_append, f5, List.nil_append]
    refine ⟨_, _, rfl, g1, ?_, ?_, ?_, ?_⟩
    · exact (c1_pre_keeps_thread vm none _).trans ((Machine.reg_write _ _ _ _).trans f3)
    · intro h
      rw [hc]
      exact g2 (h.resolve_left h0)
    · intro _ ha hi
      rw [hc]
      exact g3 ha hi
    · intro _ ha hi
      rw [hc]
      exact g4 ha hi

/-- The inline pre-barrier on a previous value held in `pre_val` (no `obj`), by
the previous value, the marking flag and the SATB index. -/
theorem pre_path_noreg (vm : VM) (pre_val tmp1 tmp2 : Register) (tosca_live expand_call : Bool)
    (r : Machine)
    (hA : g1_write_barrier_pre_asserts noreg pre_val rthread tmp1 tmp2 expand_call)
    (hT : is_temp pre_val ∧ is_temp tmp1 ∧ is_temp tmp2) :
    ∃ inline_added, (exec vm (g1_write_barrier_pre vm noreg pre_val rthread tmp1 tmp2 tosca_live expand_call) r).trace = r.trace ++ inline_added ∧
      (r.reg pre_val = 0 ∨ marking_active vm r = 0 →
        (exec vm (g1_write_barrier_pre vm noreg pre_val rthread tmp1 tmp2 tosca_live expand_call) r).mem = r.mem ∧ all_runtime_calls inline_added = []) ∧
      (r.reg pre_val ≠ 0 → marking_active vm r ≠ 0 →
        queue_index r .satb_mark_queue_index_offset ≠ 0 →
        (∀ k, (exec vm (g1_write_barrier_pre vm noreg pre_val rthread tmp1 tmp2 tosca_live expand_call) r).mem k =
            if k = insertion_slot r .satb_mark_queue_index_offset .satb_mark_queue_buffer_offset
              then r.reg pre_val
            else if k = thread_field r .satb_mark_queue_index_offset
              then next_index (queue_index r .satb_mark_queue_index_offset)
            else r.mem k) ∧
        all_runtime_calls inline_added = []) ∧
      (r.reg pre_val ≠ 0 → marking_active vm r ≠ 0 →
        queue_index r .satb_mark_queue_index_offset = 0 →
        (exec vm (g1_write_barrier_pre vm noreg pre_val rthread tmp1 tmp2 tosca_live expand_call) r).mem = r.mem ∧
        all_runtime_calls inline_added =
          [Event.call .write_ref_field_pre_entry (r.reg pre_val) (r.reg rthread)]) := by
  have hpv : previous_value r noreg pre_val = r.reg pre_val := by simp [previous_value]
  by_cases hact : marking_active vm r = 0
  · have h := pre_inactive vm noreg pre_val tmp1 tmp2 tosca_live expand_call r hact
    unfold exec
    rw [h]
    have ht : ((r.log (Event.load (thread_field r .satb_mark_queue_active_offset))).set
        tmp1 0).trace = r.trace ++ [Event.load (thread_field r .satb_mark_queue_active_offset)] := by
      simp
    refine ⟨_, ht, fun _ => ⟨by simp, ?_⟩,
      fun _ h => absurd hact h, fun _ h => absurd hact h⟩
    simp [all_runtime_calls]
  · by_cases h0 : r.reg pre_val = 0
    · obtain ⟨-, p2, p3⟩ := pre_null vm noreg pre_val tmp1 tmp2 tosca_live expand_call r hA hT
        hact (by rw [hpv]; exact h0)
      refine ⟨_, p3, fun _ => ⟨p2, ?_⟩, fun h => absurd h0 h, fun h => absurd h0 h⟩
      simp [all_runtime_calls]
    · by_cases hi : queue_index r .satb_mark_queue_index_offset = 0
      · obtain ⟨-, p2, p3⟩ := pre_full vm noreg pre_val tmp1 tmp2 tosca_live expand_call r hA hT
          hact (by rw [hpv]; exact h0) hi _ rfl
        rw [hpv] at p3
        refine ⟨_, p3, fun h => ?_, fun _ _ h => absurd hi h, fun _ _ _ => ⟨p2, ?_⟩⟩
        · rcases h with h | h
          · exact absurd h h0
          · exact absurd h hact
        · simp [all_runtime_calls]
      · obtain ⟨-, p2, p3, -⟩ := pre_insert vm noreg pre_val tmp1 tmp2 tosca_live expand_call r
          hA hT hact (by rw [hpv]; exact h0) hi _ rfl
        rw [hpv] at p3
        simp only [hpv] at p2
        refine ⟨_, p3, fun h => ?_, fun _ _ _ => ⟨p2, ?_⟩, fun _ _ h => absurd h hi⟩
        · rcases h with h | h
          · exact absurd h h0
          · exact absurd h hact
        · simp [all_runtime_calls]

/-- C25. For every state and previous value `P` (the value the stub loads from
its address when `do_load`, else the value of its `pre_val` register), the
pre-barrier path of the baseline compiler (the code of `gen_pre_barrier_stub`
entered at the stub's entry label, whose `far_call` runs the shared stub of
`generate_c1_pre_barrier_runtime_stub` with `P` as parameter 0) ends at the
continuation label, and yields the same final SATB index, SATB storage pointer,
SATB storage and runtime calls as `g1_write_barrier_pre` without `obj` run
with `pre_val = P` on a state with the same thread and the same SATB cells.  A
null `P` changes no SATB cell and makes no call; so does a marking flag that
reads zero inside the shared stub; with the index not zero `P` is stored at
storage + (index - wordSize) and the index is decremented, without a call;
with the index zero there is one call `write_ref_field_pre_entry(P, thread)`
and no SATB cell changes. -/
theorem gen_pre_barrier_stub_refines (vm : VM) (stub : G1PreBarrierStub)
    (pre_val tmp1 tmp2 : Register) (tosca_live expand_call : Bool) (s r : Machine) (P : Nat)
    (hS : is_temp stub.pre_val)
    (hP : P = if stub.do_load then s.mem (stub.addr.loc s) % 2 ^ 64 else s.reg stub.pre_val)
    (hA : g1_write_barrier_pre_asserts noreg pre_val rthread tmp1 tmp2 expand_call)
    (hT : is_temp pre_val ∧ is_temp tmp1 ∧ is_temp tmp2)
    (hr1 : r.reg pre_val = P) (hr2 : r.reg rthread = s.reg rthread)
    (hr3 : ∀ k, satb_cell k = true → r.mem k = s.mem k) :
    ∃ t added inline_added,
      run_c1 vm (gen_pre_barrier_stub stub) (some .entry) s = (t, some .continuation) ∧
      t.trace = s.trace ++ added ∧
      (exec vm (g1_write_barrier_pre vm noreg pre_val rthread tmp1 tmp2 tosca_live expand_call) r).trace = r.trace ++ inline_added ∧
      queue_index t .satb_mark_queue_index_offset =
        queue_index (exec vm (g1_write_barrier_pre vm noreg pre_val rthread tmp1 tmp2 tosca_live expand_call) r) .satb_mark_queue_index_offset ∧
      queue_buffer t .satb_mark_queue_buffer_offset =
        queue_buffer (exec vm (g1_write_barrier_pre vm noreg pre_val rthread tmp1 tmp2 tosca_live expand_call) r) .satb_mark_queue_buffer_offset ∧
      (∀ a, t.mem (queue_slot .satb_mark_queue_buffer_offset a) =
        (exec vm (g1_write_barrier_pre vm noreg pre_val rthread tmp1 tmp2 tosca_live expand_call) r).mem (queue_slot .satb_mark_queue_buffer_offset a)) ∧
      all_runtime_calls added = all_runtime_calls inline_added ∧
      (P = 0 ∨ marking_active vm s = 0 →
        (∀ k, satb_cell k = true → t.mem k = s.mem k) ∧ all_runtime_calls added = []) ∧
      (P ≠ 0 → marking_active vm s ≠ 0 → queue_index s .satb_mark_queue_index_offset ≠ 0 →
        t.mem (queue_slot .satb_mark_queue_buffer_offset
          ((queue_buffer s .satb_mark_queue_buffer_offset +
            next_index (queue_index s .satb_mark_queue_index_offset)) % 2 ^ 64)) = P ∧
        queue_index t .satb_mark_queue_index_offset =
          next_index (queue_index s .satb_mark_queue_index_offset) ∧
        (∀ k, satb_cell k = true →
          k ≠ insertion_slot s .satb_mark_queue_index_offset .satb_mark_queue_buffer_offset →
          k ≠ thread_field s .satb_mark_queue_index_offset → t.mem k = s.mem k) ∧
        all_runtime_calls added = []) ∧
      (P ≠ 0 → marking_active vm s ≠ 0 → queue_index s .satb_mark_queue_index_offset = 0 →
        (∀ k, satb_cell k = true → t.mem k = s.mem k) ∧
        all_runtime_calls added =
          [Event.call .write_ref_field_pre_entry P (s.reg rthread)]) := by
  obtain ⟨t, added, c0, c1, c2, c3, c4, c5⟩ := c1_pre_path vm stub s P hS hP
  obtain ⟨ia, i1, i3, i4, i5⟩ :=
    pre_path_noreg vm pre_val tmp1 tmp2 tosca_live expand_call r hA hT
  have hth : (exec vm (g1_write_barrier_pre vm noreg pre_val rthread tmp1 tmp2 tosca_live expand_call) r).reg rthread = r.reg rthread :=
    pre_keeps_thread vm noreg pre_val tmp1 tmp2 tosca_live expand_call
      ⟨hT.1.2, hT.2.1.2, hT.2.2.2⟩ none r
  have em : marking_active vm r = marking_active vm s := by
    unfold marking_active thread_field
    rw [hr3 ⟨Space.thread .satb_mark_queue_active_offset, _⟩ rfl, hr2]
  have ei : queue_index r .satb_mark_queue_index_offset =
      queue_index s .satb_mark_queue_index_offset := by
    unfold queue_index thread_field
    rw [hr3 ⟨Space.thread .satb_mark_queue_index_offset, _⟩ rfl, hr2]
  have eb : queue_buffer r .satb_mark_queue_buffer_offset =
      queue_buffer s .satb_mark_queue_buffer_offset := by
    unfold queue_buffer thread_field
    rw [hr3 ⟨Space.thread .satb_mark_queue_buffer_offset, _⟩ rfl, hr2]
  have es : insertion_slot r .satb_mark_queue_index_offset .satb_mark_queue_buffer_offset =
      insertion_slot s .satb_mark_queue_index_offset .satb_mark_queue_buffer_offset := by
    unfold insertion_slot
    rw [ei, eb]
  have et : ∀ f, thread_field r f = thread_field s f := by
    intro f; unfold thread_field; rw [hr2]
  rw [hr1, em] at i3 i4 i5
  simp only [ei, es, et, hr2] at i4 i5
  have key : (∀ k, satb_cell k = true → t.mem k = (exec vm (g1_write_barrier_pre vm noreg pre_val rthread tmp1 tmp2 tosca_live expand_call) r).mem k) ∧
      all_runtime_calls added = all_runtime_calls ia := by
    by_cases h0 : P = 0 ∨ marking_active vm s = 0
    · obtain ⟨a1, a2⟩ := c3 h0
      obtain ⟨b1, b2⟩ := i3 h0
      exact ⟨fun k hk => by rw [a1 k hk, b1, hr3 k hk], by rw [a2, b2]⟩
    · obtain ⟨h1, h2⟩ := not_or.mp h0
      by_cases hi : queue_index s .satb_mark_queue_index_offset = 0
      · obtain ⟨a1, a2⟩ := c5 h1 h2 hi
        obtain ⟨b1, b2⟩ := i5 h1 h2 hi
        exact ⟨fun k hk => by rw [a1 k hk, b1, hr3 k hk], by rw [a2, b2]⟩
      · obtain ⟨a1, a2⟩ := c4 h1 h2 hi
        obtain ⟨b1, b2⟩ := i4 h1 h2 hi
        exact ⟨fun k hk => by rw [a1 k hk, b1, hr3 k hk], by rw [a2, b2]⟩
  have hq : queue_index t .satb_mark_queue_index_offset =
      t.mem (thread_field s .satb_mark_queue_index_offset) % 2 ^ 64 := by
    unfold queue_index thread_field; rw [c2]
  refine ⟨t, added, ia, c0, c1, i1, ?_, ?_, fun a => key.1 _ rfl, key.2, c3, ?_, c5⟩
  · unfold queue_index thread_field
    rw [hth, hr2, c2]
    exact congrArg (· % 2 ^ 64) (key.1 ⟨Space.thread .satb_mark_queue_index_offset, _⟩ rfl)
  · unfold queue_buffer thread_field
    rw [hth, hr2, c2]
    exact congrArg (· % 2 ^ 64) (key.1 ⟨Space.thread .satb_mark_queue_buffer_offset, _⟩ rfl)
  · intro h1 h2 hi
    obtain ⟨a1, a2⟩ := c4 h1 h2 hi
    refine ⟨?_, ?_, ?_, a2⟩
    · have := a1 (insertion_slot s .satb_mark_queue_index_offset
        .satb_mark_queue_buffer_offset) rfl
      rw [if_pos rfl] at this
      exact this
    · rw [hq, a1 (thread_field s .satb_mark_queue_index_offset) rfl]
      simp [insertion_slot, queue_slot, thread_field, next_index, -Nat.reducePow]
    · intro k hk n1 n2
      rw [a1 k hk, if_neg n1, if_neg n2]

/-- Witness of C25: the example state with marking active and the SATB index at
zero, the previous value 20496 in register 3 and no load in the stub; the
baseline path makes the one runtime call of the inline barrier. -/
theorem gen_pre_barrier_stub_refines_witness :
    ∃ t added inline_added,
      run_c1 demo_vm (gen_pre_barrier_stub ⟨Address.of_heap (.r 2) 0, .r 3, false⟩)
        (some .entry) (demo_state 1 0 16 255) = (t, some .continuation) ∧
      t.trace = (demo_state 1 0 16 255).trace ++ added ∧
      (exec demo_vm (g1_write_barrier_pre demo_vm noreg (.r 3) rthread (.r 5) (.r 7) true false)
        (demo_state 1 0 16 255)).trace = (demo_state 1 0 16 255).trace ++ inline_added ∧
      all_runtime_calls added = all_runtime_calls inline_added ∧
      all_runtime_calls added = [Event.call .write_ref_field_pre_entry 20496 28672] :=
  (gen_pre_barrier_stub_refines demo_vm ⟨Address.of_heap (.r 2) 0, .r 3, false⟩ (.r 3) (.r 5)
    (.r 7) true false (demo_state 1 0 16 255) (demo_state 1 0 16 255) 20496 (by decide)
    (by decide) (by decide) (by decide) (by decide) rfl (fun _ _ => rfl)).imp
    (fun _ h => h.imp (fun _ g => g.imp (fun _ f =>
      ⟨f.1, f.2.1, f.2.2.1, f.2.2.2.2.2.2.1,
        (f.2.2.2.2.2.2.2.2.2 (by decide) (by decide) (by decide)).2⟩)))


/-! ## The order of the events around a card write -/

/-- The events of a post-barrier that leaves after the young check. -/
theorem order_young (c : Nat) : card_writes_fenced [Event.load (card_loc c)] = true := by
  simp [card_writes_fenced, fenced_from]

/-- The events of a slow path that finds the card dirty at the re-read. -/
theorem order_dirty (c : Nat) :
    card_writes_fenced [Event.load (card_loc c), Event.membar, Event.load (card_loc c)] = true ∧
    slow_path_order c true [Event.load (card_loc c), Event.membar, Event.load (card_loc c)] := by
  refine ⟨by simp [card_writes_fenced, fenced_from], [], by simp, by simp [card_writes]⟩

/-- The events of a slow path that dirties the card and inserts its address in
the queue. -/
theorem order_insert (c : Nat) (i b q : Loc) (v w : Nat)
    (hi : i.space ≠ Space.card_table) (hq : q.space ≠ Space.card_table) :
    card_writes_fenced [Event.load (card_loc c), Event.membar, Event.load (card_loc c),
      Event.store (card_loc c) 0, Event.load i, Event.store i v, Event.load b,
      Event.store q w] = true ∧
    slow_path_order c false [Event.load (card_loc c), Event.membar, Event.load (card_loc c),
      Event.store (card_loc c) 0, Event.load i, Event.store i v, Event.load b,
      Event.store q w] := by
  obtain ⟨si, ai⟩ := i
  obtain ⟨sq, aq⟩ := q
  simp only at hi hq
  refine ⟨by simp [card_writes_fenced, fenced_from, card_loc, hi, hq],
    [Event.load ⟨si, ai⟩, Event.store ⟨si, ai⟩ v, Event.load b, Event.store ⟨sq, aq⟩ w],
    by simp, ?_⟩
  cases si <;> cases sq <;> simp [card_writes] at hi hq ⊢

/-- The events of a slow path that dirties the card and calls the runtime. -/
theorem order_full (c : Nat) (i : Loc) (ep : G1BarrierSetRuntime) (x y : Nat) :
    card_writes_fenced [Event.load (card_loc c), Event.membar, Event.load (card_loc c),
      Event.store (card_loc c) 0, Event.load i, Event.call ep x y] = true ∧
    slow_path_order c false [Event.load (card_loc c), Event.membar, Event.load (card_loc c),
      Event.store (card_loc c) 0, Event.load i, Event.call ep x y] := by
  refine ⟨by simp [card_writes_fenced, fenced_from, card_loc],
    [Event.load i, Event.call ep x y], by simp, by simp [card_writes]⟩

/-- The check of the order rejects a card write that no first read of the card
precedes, and one without a fence before the re-read. -/
theorem order_check_rejects :
    card_writes_fenced [Event.membar, Event.load (card_loc 5), Event.store (card_loc 5) 0] =
      false ∧
    card_writes_fenced [Event.load (card_loc 5), Event.load (card_loc 5),
      Event.store (card_loc 5) 0] = false := by
  decide

/-- Order of the events of the inline post-barrier. -/
theorem order_inline (vm : VM) (store_addr new_val tmp1 tmp2 : Register) (s : Machine)
    (hA : g1_write_barrier_post_asserts store_addr new_val rthread tmp1 tmp2)
    (hz : tmp1 ≠ zr ∧ tmp2 ≠ zr) :
    ∃ added, (exec vm (g1_write_barrier_post vm store_addr new_val rthread tmp1 tmp2) s).trace = s.trace ++ added ∧ card_writes_fenced added = true ∧
      (¬ same_region vm (s.reg store_addr) (s.reg new_val) → s.reg new_val ≠ 0 →
        ¬ card_is_young vm s (card_address vm (s.reg store_addr)) →
        slow_path_order (card_address vm (s.reg store_addr)) (decide (card_value s (card_address vm (s.reg store_addr)) = 0)) added) := by
  by_cases hn : same_region vm (s.reg store_addr) (s.reg new_val) ∨ s.reg new_val = 0
  · obtain ⟨-, -, p3⟩ := post_no_op vm store_addr new_val tmp1 tmp2 s hA hn
    refine ⟨[], by rw [p3, List.append_nil], rfl, fun h1 h2 => ?_⟩
    rcases hn with hn | hn
    · exact absurd hn h1
    · exact absurd hn h2
  · obtain ⟨hr, hv⟩ := not_or.mp hn
    by_cases hy : card_is_young vm s (card_address vm (s.reg store_addr))
    · obtain ⟨-, -, p3, -⟩ := post_young vm store_addr new_val tmp1 tmp2 s hA hz hr hv hy _ rfl
      exact ⟨_, p3, order_young _, fun _ _ h => absurd hy h⟩
    · by_cases hd : card_value s (card_address vm (s.reg store_addr)) = 0
      · obtain ⟨-, -, p3⟩ := post_dirty vm store_addr new_val tmp1 tmp2 s hA hz hr hv hy hd
        refine ⟨_, p3, (order_dirty _).1, fun _ _ _ => ?_⟩
        rw [decide_eq_true hd]
        exact (order_dirty _).2
      · by_cases hi : queue_index s .dirty_card_queue_index_offset = 0
        · obtain ⟨-, -, p3⟩ := post_full vm store_addr new_val tmp1 tmp2 s hA hz hr hv hy hd hi
            _ rfl
          refine ⟨_, p3, (order_full _ _ _ _ _).1, fun _ _ _ => ?_⟩
          rw [decide_eq_false hd]
          exact (order_full _ _ _ _ _).2
        · obtain ⟨-, -, p3⟩ := post_insert vm store_addr new_val tmp1 tmp2 s hA hz hr hv hy hd hi
            _ rfl
          have ho := order_insert (card_address vm (s.reg store_addr)) (thread_field s .dirty_card_queue_index_offset)
            (thread_field s .dirty_card_queue_buffer_offset)
            (insertion_slot s .dirty_card_queue_index_offset .dirty_card_queue_buffer_offset)
            (next_index (queue_index s .dirty_card_queue_index_offset)) (card_address vm (s.reg store_addr))
            (by simp [thread_field]) (by simp [insertion_slot, queue_slot])
          refine ⟨_, p3, ho.1, fun _ _ _ => ?_⟩
          rw [decide_eq_false hd]
          exact ho.2

/-- Order of the events of the optimizing-tier post-barrier, call site and
stub. -/
theorem order_c2 (vm : VM) (store_addr new_val tmp1 tmp2 : Register)
    (stub : G1PostBarrierStubC2) (s : Machine)
    (hA : g1_write_barrier_post_asserts store_addr new_val rthread tmp1 tmp2)
    (hz : tmp1 ≠ zr ∧ tmp2 ≠ zr)
    (hE : vm.entry_address .write_ref_field_pre_entry % 2 ^ 64 ≠
      vm.entry_address .write_ref_field_post_entry % 2 ^ 64) :
    ∃ t added, run_with_stub vm (g1_write_barrier_post_c2 vm store_addr new_val rthread tmp1 tmp2 stub).1
        (generate_c2_post_barrier_stub vm
          (g1_write_barrier_post_c2 vm store_addr new_val rthread tmp1 tmp2 stub).2) s = some t ∧
      t.trace = s.trace ++ added ∧ card_writes_fenced added = true ∧
      (¬ same_region vm (s.reg store_addr) (s.reg new_val) →
        (s.reg new_val ≠ 0 ∨ stub.barrier_data &&& vm.G1C2BarrierPostNotNull ≠ 0) →
        ¬ card_is_young vm s (card_address vm (s.reg store_addr)) →
        slow_path_order (card_address vm (s.reg store_addr)) (decide (card_value s (card_address vm (s.reg store_addr)) = 0)) added) := by
  have he := entry_point_at_post vm hE
  by_cases hn : same_region vm (s.reg store_addr) (s.reg new_val) ∨
      (s.reg new_val = 0 ∧ stub.barrier_data &&& vm.G1C2BarrierPostNotNull = 0)
  · obtain ⟨b1, -, b3, -⟩ := c2_post_no_op vm store_addr new_val tmp1 tmp2 stub s hA hz hn _ rfl
    rw [run_with_stub_fallthrough vm _ _ s b1]
    refine ⟨_, [], rfl, by rw [b3, List.append_nil], rfl, fun h1 h2 => ?_⟩
    rcases hn with hn | hn
    · exact absurd hn h1
    · rcases h2 with h2 | h2
      · exact absurd hn.1 h2
      · exact absurd hn.2 h2
  · obtain ⟨hr, hv0⟩ := not_or.mp hn
    have hv : s.reg new_val ≠ 0 ∨ stub.barrier_data &&& vm.G1C2BarrierPostNotNull ≠ 0 := by
      by_cases h : s.reg new_val = 0
      · exact Or.inr (fun hb => hv0 ⟨h, hb⟩)
      · exact Or.inl h
    by_cases hy : card_is_young vm s (card_address vm (s.reg store_addr))
    · obtain ⟨b1, -, b3, -⟩ := c2_post_young vm store_addr new_val tmp1 tmp2 stub s hA hz hr hv
        hy _ rfl
      rw [run_with_stub_fallthrough vm _ _ s b1]
      exact ⟨_, _, rfl, b3, order_young _, fun _ _ h => absurd hy h⟩
    · by_cases hd : card_value s (card_address vm (s.reg store_addr)) = 0
      · obtain ⟨b1, -, b3, -⟩ := c2_post_dirty vm store_addr new_val tmp1 tmp2 stub s hA hz hr
          hv hy hd _ rfl
        rw [c2_post_active vm store_addr new_val tmp1 tmp2 stub s hA hz hr hv hy b1]
        refine ⟨_, _, rfl, b3, (order_dirty _).1, fun _ _ _ => ?_⟩
        rw [decide_eq_true hd]
        exact (order_dirty _).2
      · by_cases hi : queue_index s .dirty_card_queue_index_offset = 0
        · obtain ⟨b1, -, b3, -⟩ := c2_post_full vm store_addr new_val tmp1 tmp2 stub s hA hz hr
            hv hy hd hi he _ rfl
          rw [c2_post_active vm store_addr new_val tmp1 tmp2 stub s hA hz hr hv hy b1]
          refine ⟨_, _, rfl, b3, (order_full _ _ _ _ _).1, fun _ _ _ => ?_⟩
          rw [decide_eq_false hd]
          exact (order_full _ _ _ _ _).2
        · obtain ⟨b1, -, b3, -⟩ := c2_post_insert vm store_addr new_val tmp1 tmp2 stub s hA hz
            hr hv hy hd hi _ rfl
          rw [c2_post_active vm store_addr new_val tmp1 tmp2 stub s hA hz hr hv hy b1]
          have ho := order_insert (card_address vm (s.reg store_addr)) (thread_field s .dirty_card_queue_index_offset)
            (thread_field s .dirty_card_queue_buffer_offset)
            (insertion_slot s .dirty_card_queue_index_offset .dirty_card_queue_buffer_offset)
            (next_index (queue_index s .dirty_card_queue_index_offset)) (card_address vm (s.reg store_addr))
            (by simp [thread_field]) (by simp [insertion_slot, queue_slot])
          refine ⟨_, _, rfl, b3, ho.1, fun _ _ _ => ?_⟩
          rw [decide_eq_false hd]
          exact ho.2

/-- A load of the parameter area before the events changes nothing for the
order of the card writes. -/
theorem order_after_parameter (added : List Event) (h : card_writes_fenced added = true) :
    card_writes_fenced (Event.load ⟨Space.parameter, 0⟩ :: added) = true := by
  cases added with
  | nil => rfl
  | cons e1 r1 =>
    cases r1 with
    | nil => cases e1 <;> simp_all [card_writes_fenced, fenced_from]
    | cons e2 r2 =>
      cases r2 with
      | nil => cases e1 <;> cases e2 <;> simp_all [card_writes_fenced, fenced_from]
      | cons e3 r3 =>
        cases e1 <;> cases e2 <;> cases e3 <;> simp_all [card_writes_fenced, fenced_from]

/-- Order of the events of the shared post-barrier stub of the baseline
compiler. -/
theorem order_c1 (vm : VM) (s : Machine) :
    ∃ added, (exec vm (generate_c1_post_barrier_runtime_stub vm) s).trace =
        s.trace ++ Event.load ⟨Space.parameter, 0⟩ :: added ∧
      card_writes_fenced (Event.load ⟨Space.parameter, 0⟩ :: added) = true ∧
      (¬ card_is_young vm s (card_address vm (s.mem ⟨Space.parameter, 0⟩ % 2 ^ 64)) →
        slow_path_order (card_address vm (s.mem ⟨Space.parameter, 0⟩ % 2 ^ 64)) (decide (card_value s (card_address vm (s.mem ⟨Space.parameter, 0⟩ % 2 ^ 64)) = 0)) added) := by
  by_cases hy : card_is_young vm s (card_address vm (s.mem ⟨Space.parameter, 0⟩ % 2 ^ 64))
  · obtain ⟨-, -, b3⟩ := c1_post_young vm s hy
    exact ⟨_, b3, order_after_parameter _ (order_young _), fun h => absurd hy h⟩
  · by_cases hd : card_value s (card_address vm (s.mem ⟨Space.parameter, 0⟩ % 2 ^ 64)) = 0
    · obtain ⟨-, -, b3⟩ := c1_post_dirty vm s hy hd
      refine ⟨_, b3, order_after_parameter _ (order_dirty _).1, fun _ => ?_⟩
      rw [decide_eq_true hd]
      exact (order_dirty _).2
    · by_cases hi : queue_index s .dirty_card_queue_index_offset = 0
      · obtain ⟨-, -, b3⟩ := c1_post_full vm s hy hd hi
        refine ⟨_, b3, order_after_parameter _ (order_full _ _ _ _ _).1, fun _ => ?_⟩
        rw [decide_eq_false hd]
        exact (order_full _ _ _ _ _).2
      · obtain ⟨-, -, b3⟩ := c1_post_insert vm s hy hd hi
        have ho := order_insert (card_address vm (s.mem ⟨Space.parameter, 0⟩ % 2 ^ 64)) (thread_field s .dirty_card_queue_index_offset)
          (thread_field s .dirty_card_queue_buffer_offset)
          (insertion_slot s .dirty_card_queue_index_offset .dirty_card_queue_buffer_offset)
          (next_index (queue_index s .dirty_card_queue_index_offset)) (card_address vm (s.mem ⟨Space.parameter, 0⟩ % 2 ^ 64))
          (by simp [thread_field]) (by simp [insertion_slot, queue_slot])
        refine ⟨_, b3, order_after_parameter _ ho.1, fun _ => ?_⟩
        rw [decide_eq_false hd]
        exact ho.2

/-- C21. In every execution of the post-barrier, in each of its three forms
(the inline `g1_write_barrier_post`; the call site of
`g1_write_barrier_post_c2` with the stub of `generate_c2_post_barrier_stub`;
the shared stub of `generate_c1_post_barrier_runtime_stub`, which first loads
the store address from parameter 0), every write into the card table comes
directly after a read of the same card, which comes directly after a fence,
which comes directly after an earlier read of the same card, all among the
events of the same invocation.  When the slow path is reached (the card does
not read young; in the first two forms the store crosses regions and the null
check is passed or, in the optimizing tier, omitted) the events are, in this
order: the read of the card, the fence, the re-read of the card and, exactly
when the re-read is not dirty, the write of the dirty value into the card,
with no other card write after it. -/
theorem post_barrier_fence_order (vm : VM) (store_addr new_val tmp1 tmp2 : Register)
    (stub : G1PostBarrierStubC2) (s : Machine)
    (hA : g1_write_barrier_post_asserts store_addr new_val rthread tmp1 tmp2)
    (hz : tmp1 ≠ zr ∧ tmp2 ≠ zr)
    (hE : vm.entry_address .write_ref_field_pre_entry % 2 ^ 64 ≠
      vm.entry_address .write_ref_field_post_entry % 2 ^ 64) :
    (∃ added, (exec vm (g1_write_barrier_post vm store_addr new_val rthread tmp1 tmp2) s).trace = s.trace ++ added ∧ card_writes_fenced added = true ∧
      (¬ same_region vm (s.reg store_addr) (s.reg new_val) → s.reg new_val ≠ 0 →
        ¬ card_is_young vm s (card_address vm (s.reg store_addr)) →
        slow_path_order (card_address vm (s.reg store_addr)) (decide (card_value s (card_address vm (s.reg store_addr)) = 0)) added)) ∧
    (∃ t added, run_with_stub vm (g1_write_barrier_post_c2 vm store_addr new_val rthread tmp1 tmp2 stub).1
        (generate_c2_post_barrier_stub vm
          (g1_write_barrier_post_c2 vm store_addr new_val rthread tmp1 tmp2 stub).2) s = some t ∧
      t.trace = s.trace ++ added ∧ card_writes_fenced added = true ∧
      (¬ same_region vm (s.reg store_addr) (s.reg new_val) →
        (s.reg new_val ≠ 0 ∨ stub.barrier_data &&& vm.G1C2BarrierPostNotNull ≠ 0) →
        ¬ card_is_young vm s (card_address vm (s.reg store_addr)) →
        slow_path_order (card_address vm (s.reg store_addr)) (decide (card_value s (card_address vm (s.reg store_addr)) = 0)) added)) ∧
    (∃ added, (exec vm (generate_c1_post_barrier_runtime_stub vm) s).trace =
        s.trace ++ Event.load ⟨Space.parameter, 0⟩ :: added ∧
      card_writes_fenced (Event.load ⟨Space.parameter, 0⟩ :: added) = true ∧
      (¬ card_is_young vm s (card_address vm (s.mem ⟨Space.parameter, 0⟩ % 2 ^ 64)) →
        slow_path_order (card_address vm (s.mem ⟨Space.parameter, 0⟩ % 2 ^ 64)) (decide (card_value s (card_address vm (s.mem ⟨Space.parameter, 0⟩ % 2 ^ 64)) = 0)) added)) :=
  ⟨order_inline vm store_addr new_val tmp1 tmp2 s hA hz,
    order_c2 vm store_addr new_val tmp1 tmp2 stub s hA hz hE,
    order_c1 vm s⟩

/-- Witness of C21: the example store with a clean card and the dirty-card
index at 16; the inline barrier reads the card, fences, reads the card again
and then dirties it. -/
theorem post_barrier_fence_order_witness :
    ∃ added, (exec demo_vm (g1_write_barrier_post demo_vm (.r 2) (.r 3) rthread (.r 5) (.r 6))
        (demo_state 0 16 16 255)).trace = (demo_state 0 16 16 255).trace ++ added ∧
      card_writes_fenced added = true ∧
      slow_path_order 65552 false added :=
  (post_barrier_fence_order demo_vm (.r 2) (.r 3) (.r 5) (.r 6)
    ⟨⟨[.r 2, .r 3]⟩, noreg, noreg, noreg, noreg, 4⟩ (demo_state 0 16 16 255) (by decide)
    (by decide) (by decide)).1.imp
    (fun _ h => ⟨h.1, h.2.1, h.2.2 (by decide) (by decide) (by decide)⟩)

end G1BarrierSetAssembler

namespace MutableNUMASpace

/-! ## Sampling the allocation rate -/

/-- C27. `LGRPSpace::sample` feeds the allocation-rate average with the
capacity in bytes of the chunk when an allocation failure was reported since
the last sample, and with the used size in bytes otherwise; it leaves the
space and the group id as they are, and after every call the
allocation-failed flag is false.  So after `set_allocation_failed` the next
sample is the capacity and the sample after that, whatever the sizes of the
space are by then, is again the used size: one reported failure affects exactly
one sample. -/
theorem sample_allocation_rate (l : LGRPSpace) (later : MutableSpace) :
    (l.sample)._allocation_failed = false ∧
    (l.sample)._alloc_rate.samples = l._alloc_rate.samples ++
      [if l._allocation_failed then l._space.capacity_in_bytes else l._space.used_in_bytes] ∧
    (l.sample)._space = l._space ∧ (l.sample)._lgrp_id = l._lgrp_id ∧
    (l.set_allocation_failed.sample)._alloc_rate.samples =
      l._alloc_rate.samples ++ [l._space.capacity_in_bytes] ∧
    (LGRPSpace.sample { l.set_allocation_failed.sample with _space := later })._alloc_rate.samples =
      l._alloc_rate.samples ++ [l._space.capacity_in_bytes, later.used_in_bytes] ∧
    (LGRPSpace.sample
      { l.set_allocation_failed.sample with _space := later })._allocation_failed = false := by
  cases h : l._allocation_failed <;>
  simp [LGRPSpace.sample, LGRPSpace.set_allocation_failed, AdaptiveWeightedAverage.sample, h]

end MutableNUMASpace
